import Mathlib

/-!
# Verification of the OPDS v2.0 document model (opds-rs)

A shallow embedding of the `opds` Rust crate's v2.0 document model and its
serde-driven parse/encode behaviour.

* JSON documents are modelled by the `Json` type below (the "generic
  structured value" the codec operates on); parse and encode are related at
  the level of this value type, which stands for canonical JSON text.
* Rust `Cow<'a, str>` fields are modelled as `String`; `usize` as `Nat`;
  `f64`/`f32` as `Rat` (JSON numbers are decimal, and serde_json round-trips
  every finite double exactly via shortest-representation printing;
  non-finite doubles are not representable in JSON and are outside this
  model).
* `langtag::LangTag` values are modelled as their underlying strings;
  the BCP 47 well-formedness check performed by the langtag crate is
  abstracted away (every tag reaching the tree was already validated, and
  tags serialize verbatim).  Ordering of language-tag map keys is modelled
  by lexicographic `String` order.
* `url::Url` / `urn::Urn` values are modelled as their serialized strings.
  Acceptance by `url::Url::parse` is modelled by `schemeOk`: the WHATWG URL
  grammar requires an ASCII-alpha initial scheme character, scheme
  characters from `[A-Za-z0-9+-.]`, and a `:` terminator; in particular
  every valid URN string (`urn:...`) is also an accepted URL, which is what
  decides the behaviour of the untagged `Identifier` enum.
* Field decoding mirrors the serde derive: values of present fields are
  decoded first (any failure aborts the parse), and missing required
  fields are reported only after that, so a malformed present field
  pre-empts a missing-field error, exactly as in serde's generated code.
* Decoding of recursive structures uses an explicit fuel argument
  (structural recursion on `Nat`); public entry points supply fuel computed
  from the input (`jsonFuel`), which the round-trip theorems prove
  sufficient, so the fuel never changes an answer on encoder output.
-/

namespace Opds

/-! ## JSON values -/

mutual
inductive Json where
  | null : Json
  | bool (b : Bool) : Json
  | num (q : Rat) : Json
  | str (s : String) : Json
  | arr (elems : JsonList) : Json
  | obj (fields : JsonObj) : Json

inductive JsonList where
  | nil : JsonList
  | cons (hd : Json) (tl : JsonList) : JsonList

inductive JsonObj where
  | nil : JsonObj
  | cons (k : String) (v : Json) (tl : JsonObj) : JsonObj
end

/-- JSON number holding a Rust `usize`. -/
def jNat (n : Nat) : Json := .num (n : Rat)

def JsonObj.append : JsonObj → JsonObj → JsonObj
  | .nil, ys => ys
  | .cons k v tl, ys => .cons k v (tl.append ys)

/-- Concatenate the per-field segments of a struct's serialized body. -/
def objOf : List JsonObj → JsonObj
  | [] => .nil
  | s :: rest => s.append (objOf rest)

/-- Field access in a JSON object (serde structs accept fields in any order;
duplicate keys are rejected by serde, and never occur in encoder output, so
first-match lookup is an adequate model). -/
def lookupKey : JsonObj → String → Option Json
  | .nil, _ => none
  | .cons k v tl, key => if k = key then some v else lookupKey tl key

/-- Left-biased choice on options, used to state lookup-over-append. -/
def oOr : Option Json → Option Json → Option Json
  | some v, _ => some v
  | none, y => y

mutual
/-- Fuel adequate for decoding a JSON value (counts nesting work). -/
def jsonFuel : Json → Nat
  | .null | .bool _ | .num _ | .str _ => 1
  | .arr js => 1 + jsonFuelL js
  | .obj kvs => 1 + jsonFuelO kvs

def jsonFuelL : JsonList → Nat
  | .nil => 0
  | .cons j tl => 1 + jsonFuel j + jsonFuelL tl

def jsonFuelO : JsonObj → Nat
  | .nil => 0
  | .cons _ v tl => 1 + jsonFuel v + jsonFuelO tl
end

/-- Parse errors (`ShapeMismatch`, `MissingRequiredField`, `InvalidEnumValue`
of the spec; `depthLimit` is the fuel exhaustion marker, which the round-trip
theorems show is never reached on encoder output). -/
inductive Err where
  | missingField (name : String)
  | shape (what : String)
  | invalidEnum (value : String)
  | depthLimit
deriving DecidableEq

/-! ## Encode-side field combinators

Each combinator produces the `JsonObj` segment a single struct field
contributes to the serialized body, mirroring the serde field attributes. -/

/-- `#[serde(skip_serializing_if = "Option::is_none")]` -/
def optF (k : String) (o : Option Json) : JsonObj :=
  match o with
  | some j => .cons k j .nil
  | none => .nil

/-- A field always serialized. -/
def reqF (k : String) (j : Json) : JsonObj := .cons k j .nil

/-- `#[serde(skip_serializing_if = "Vec::is_empty")]` with the default
`Vec` serializer (always an array when present). -/
def vecF (k : String) (js : JsonList) : JsonObj :=
  match js with
  | .nil => .nil
  | js => .cons k (.arr js) .nil

/-- `skip_serializing_if = "Vec::is_empty"` combined with
`serialize_with = "serialize_flattened_vec"`: a single element is emitted
bare, two or more as an array (src/helpers.rs, `serialize_flattened_vec`). -/
def flatF (k : String) (js : JsonList) : JsonObj :=
  match js with
  | .nil => .nil
  | .cons x .nil => .cons k x .nil
  | js => .cons k (.arr js) .nil

/-- `#[serde(skip_serializing_if = "std::ops::Not::not")]` on a `bool`
field (the `templated` flag). -/
def flagF (k : String) (b : Bool) : JsonObj :=
  match b with
  | true => .cons k (.bool true) .nil
  | false => .nil

/-- A struct field skipped under a custom emptiness predicate
(`skip_serializing_if = "LinkProperties::is_empty"`). -/
def skipF (k : String) (skip : Bool) (j : Json) : JsonObj :=
  match skip with
  | true => .nil
  | false => .cons k j .nil

/-- Encode a plain `List` of values as a JSON array body. -/
def encListJ (enc : α → Json) : List α → JsonList
  | [] => .nil
  | a :: tl => .cons (enc a) (encListJ enc tl)

/-! ## Decode-side field combinators -/

/-- Decode an optional field of `Option` type (serde treats an explicit
`null` as `None`). -/
def dOpt (lv : Option Json) (dec : Json → Except Err α) : Except Err (Option α) :=
  match lv with
  | none => .ok none
  | some .null => .ok none
  | some j => (dec j).map some

/-- Decode the value of a possibly-present required field; presence is
checked afterwards by `dReq`, mirroring serde's end-of-map check.

Field-order abstraction: the struct decoders below read fields in struct
declaration order, while serde's derive visits the document's keys in
document order, decoding each value eagerly. Both decode exactly the
present fields and check required ones at the end of the map, so they
agree on which documents parse and on the resulting value; they can
disagree on which error is reported when several fields are malformed.
Theorems that identify one specific parse error therefore carry
hypotheses that the document's other present fields are well-formed,
which makes the identified error order-independent. -/
def dPres (lv : Option Json) (dec : Json → Except Err α) : Except Err (Option α) :=
  match lv with
  | none => .ok none
  | some j => (dec j).map some

/-- serde's missing-required-field check, performed after all present
fields have been decoded. -/
def dReq (k : String) (o : Option α) : Except Err α :=
  match o with
  | some a => .ok a
  | none => .error (.missingField k)

/-- Decode a `#[serde(default)] Vec` field: absent means empty, otherwise
an array is required. -/
def dVec (lv : Option Json) (nilv : L) (decL : JsonList → Except Err L) : Except Err L :=
  match lv with
  | none => .ok nilv
  | some (.arr js) => decL js
  | some _ => .error (.shape "array")

/-- Decode a required `Vec` field without `#[serde(default)]`
(`Publication::links`, `Facet::links`). -/
def dVecReq (k : String) (lv : Option Json) (decL : JsonList → Except Err L) : Except Err L :=
  match lv with
  | none => .error (.missingField k)
  | some (.arr js) => decL js
  | some _ => .error (.shape "array")

/-- `deserialize_flattened_vec` (src/helpers.rs): the untagged
`FlattenedVec` tries the `Vec` variant first (requires an array) and falls
back to a singleton otherwise. -/
def dFlat (lv : Option Json) (nilv : L) (decL : JsonList → Except Err L)
    (one : Json → Except Err L) : Except Err L :=
  match lv with
  | none => .ok nilv
  | some (.arr js) => decL js
  | some j => one j

/-- A struct field with `#[serde(default)]` and a custom default
(`LinkProperties`). -/
def dDef (lv : Option Json) (deflt : α) (dec : Json → Except Err α) : Except Err α :=
  match lv with
  | none => .ok deflt
  | some j => dec j

/-- The default-`false` boolean flag (`templated`). -/
def dFlag (lv : Option Json) : Except Err Bool :=
  match lv with
  | none => .ok false
  | some (.bool b) => .ok b
  | some _ => .error (.shape "boolean")

/-- `StringyObject<T>` (src/helpers.rs): the object form is attempted
first, then the bare-string shorthand via `From<Cow<str>>`. -/
def stringyDec (res : Except Err α) (j : Json) (fromStr : String → α) : Except Err α :=
  match res with
  | .ok t => .ok t
  | .error e =>
      match j with
      | .str s => .ok (fromStr s)
      | _ => .error e

/-- `NumlikeObject<T>` (src/helpers.rs): the object form is attempted
first, then the bare-number shorthand via `From<usize>`. -/
def numlikeDec (res : Except Err α) (j : Json) (fromPos : Nat → α) : Except Err α :=
  match res with
  | .ok t => .ok t
  | .error e =>
      match j with
      | .num q =>
          if q.den = 1 && 0 ≤ q.num then .ok (fromPos q.num.toNat) else .error e
      | _ => .error e

/-- Generic element-wise decoding of a JSON array into a list-like type. -/
def mapDecInto (nilv : L) (consv : α → L → L) (dec : Json → Except Err α) :
    JsonList → Except Err L
  | .nil => .ok nilv
  | .cons j tl => do
      let a ← dec j
      let rest ← mapDecInto nilv consv dec tl
      .ok (consv a rest)

/-! ## Leaf codecs -/

def decStr : Json → Except Err String
  | .str s => .ok s
  | _ => .error (.shape "string")

/-- A Rust `usize` deserialized from a JSON number. -/
def decNat : Json → Except Err Nat
  | .num q =>
      if q.den = 1 && 0 ≤ q.num then .ok q.num.toNat
      else .error (.shape "nonnegative integer")
  | _ => .error (.shape "number")

/-- A Rust `f64`/`f32` (finite values only; see the header comment). -/
def decQ : Json → Except Err Rat
  | .num q => .ok q
  | _ => .error (.shape "number")

def decBool : Json → Except Err Bool
  | .bool b => .ok b
  | _ => .error (.shape "boolean")

/-- BCP 47 language tags, modelled as strings (see the header comment). -/
def decLang : Json → Except Err String
  | .str s => .ok s
  | _ => .error (.shape "language tag")

/-! ## Relation and AcquisitionKind (src/v2_0/metadata.rs lines 15-127) -/

/-- `AcquisitionKind`, with the exact serde spellings. -/
inductive AcquisitionKind where
  | fallback
  | openAccess
  | buy
  | sample
  | subscribe
  | preview
deriving DecidableEq

def acquisitionString : AcquisitionKind → String
  | .fallback => "http://opds-spec.org/acquisition"
  | .openAccess => "http://opds-spec.org/acquisition/open-access"
  | .buy => "http://opds-spec.org/acquisition/buy"
  | .sample => "http://opds-spec.org/acquisition/sample"
  | .subscribe => "http://opds-spec.org/acquisition/subscribe"
  | .preview => "preview"

/-- `Relation`: fixed tags, an untagged acquisition sub-enum, and an
untagged custom fallback. -/
inductive Relation where
  | myself
  | alternate
  | contents
  | cover
  | manifest
  | profile
  | first
  | previous
  | next
  | last
  | current
  | search
  | subsection
  | sortNew
  | sortPopular
  | acquisition (kind : AcquisitionKind)
  | custom (s : String)
deriving DecidableEq

/-- `Relation::as_acquisition`. -/
def Relation.as_acquisition : Relation → Option AcquisitionKind
  | .acquisition kind => some kind
  | _ => none

def relationString : Relation → String
  | .myself => "self"
  | .alternate => "alternate"
  | .contents => "contents"
  | .cover => "cover"
  | .manifest => "manifest"
  | .profile => "profile"
  | .first => "first"
  | .previous => "previous"
  | .next => "next"
  | .last => "last"
  | .current => "current"
  | .search => "search"
  | .subsection => "subsection"
  | .sortNew => "http://opds-spec.org/sort/new"
  | .sortPopular => "http://opds-spec.org/sort/popular"
  | .acquisition kind => acquisitionString kind
  | .custom s => s

def encodeRelation (r : Relation) : Json := .str (relationString r)

def encodeAcquisitionKind (kind : AcquisitionKind) : Json := .str (acquisitionString kind)

/-- The acquisition stage of relation resolution: serde tries the
`AcquisitionKind` spellings after the fixed variants fail. -/
def resolveAcquisition (s : String) : Option AcquisitionKind :=
  if s = "http://opds-spec.org/acquisition" then some .fallback
  else if s = "http://opds-spec.org/acquisition/open-access" then some .openAccess
  else if s = "http://opds-spec.org/acquisition/buy" then some .buy
  else if s = "http://opds-spec.org/acquisition/sample" then some .sample
  else if s = "http://opds-spec.org/acquisition/subscribe" then some .subscribe
  else if s = "preview" then some .preview
  else none

/-- Relation-string resolution in serde's order: the fixed (tagged)
variants by exact spelling, then the untagged `Acquisition` sub-enum, then
the untagged `Custom` fallback carrying the string verbatim. -/
def resolveRelation (s : String) : Relation :=
  if s = "self" then .myself
  else if s = "alternate" then .alternate
  else if s = "contents" then .contents
  else if s = "cover" then .cover
  else if s = "manifest" then .manifest
  else if s = "profile" then .profile
  else if s = "first" then .first
  else if s = "previous" then .previous
  else if s = "next" then .next
  else if s = "last" then .last
  else if s = "current" then .current
  else if s = "search" then .search
  else if s = "subsection" then .subsection
  else if s = "http://opds-spec.org/sort/new" then .sortNew
  else if s = "http://opds-spec.org/sort/popular" then .sortPopular
  else
    match resolveAcquisition s with
    | some kind => .acquisition kind
    | none => .custom s

/-- All spellings recognised by the fixed stage of the resolver. -/
def fixedRelationStrings : List String :=
  ["self", "alternate", "contents", "cover", "manifest", "profile", "first",
   "previous", "next", "last", "current", "search", "subsection",
   "http://opds-spec.org/sort/new", "http://opds-spec.org/sort/popular"]

/-- All spellings recognised by the acquisition stage of the resolver. -/
def acquisitionStrings : List String :=
  ["http://opds-spec.org/acquisition",
   "http://opds-spec.org/acquisition/open-access",
   "http://opds-spec.org/acquisition/buy",
   "http://opds-spec.org/acquisition/sample",
   "http://opds-spec.org/acquisition/subscribe",
   "preview"]

/-- Deserializing a `Relation` value: a string always resolves (never an
invalid-enum error); any other JSON shape is rejected. -/
def decodeRelation : Json → Except Err Relation
  | .str s => .ok (resolveRelation s)
  | _ => .error (.shape "string")

/-! ## Closed enumerations (no custom fallback) -/

inductive PageDisplay where
  | left | right | center
deriving DecidableEq

def pageDisplayString : PageDisplay → String
  | .left => "left"
  | .right => "right"
  | .center => "center"

def encodePageDisplay (v : PageDisplay) : Json := .str (pageDisplayString v)

def decodePageDisplay : Json → Except Err PageDisplay
  | .str s =>
      match s with
      | "left" => .ok .left
      | "right" => .ok .right
      | "center" => .ok .center
      | _ => .error (.invalidEnum s)
  | _ => .error (.shape "string")

inductive PublicationLayout where
  | fixed | reflowable | scrolled
deriving DecidableEq

def publicationLayoutString : PublicationLayout → String
  | .fixed => "fixed"
  | .reflowable => "reflowable"
  | .scrolled => "scrolled"

def encodePublicationLayout (v : PublicationLayout) : Json := .str (publicationLayoutString v)

def decodePublicationLayout : Json → Except Err PublicationLayout
  | .str s =>
      match s with
      | "fixed" => .ok .fixed
      | "reflowable" => .ok .reflowable
      | "scrolled" => .ok .scrolled
      | _ => .error (.invalidEnum s)
  | _ => .error (.shape "string")

inductive ReadingProgression where
  | rightToLeft | leftToRight
deriving DecidableEq

def readingProgressionString : ReadingProgression → String
  | .rightToLeft => "rtl"
  | .leftToRight => "ltr"

def encodeReadingProgression (v : ReadingProgression) : Json := .str (readingProgressionString v)

def decodeReadingProgression : Json → Except Err ReadingProgression
  | .str s =>
      match s with
      | "rtl" => .ok .rightToLeft
      | "ltr" => .ok .leftToRight
      | _ => .error (.invalidEnum s)
  | _ => .error (.shape "string")

inductive AvailabilityState where
  | available | unavailable | reserved | ready
deriving DecidableEq

def availabilityStateString : AvailabilityState → String
  | .available => "available"
  | .unavailable => "unavailable"
  | .reserved => "reserved"
  | .ready => "ready"

def encodeAvailabilityState (v : AvailabilityState) : Json := .str (availabilityStateString v)

def decodeAvailabilityState : Json → Except Err AvailabilityState
  | .str s =>
      match s with
      | "available" => .ok .available
      | "unavailable" => .ok .unavailable
      | "reserved" => .ok .reserved
      | "ready" => .ok .ready
      | _ => .error (.invalidEnum s)
  | _ => .error (.shape "string")

inductive AccessMode where
  | auditory | chartOnVisual | chemOnVisual | colorDependent | diagramOnVisual
  | mathOnVisual | musicOnVisual | tactile | textOnVisual | textual | visual
deriving DecidableEq

def accessModeString : AccessMode → String
  | .auditory => "auditory"
  | .chartOnVisual => "chartOnVisual"
  | .chemOnVisual => "chemOnVisual"
  | .colorDependent => "colorDependent"
  | .diagramOnVisual => "diagramOnVisual"
  | .mathOnVisual => "mathOnVisual"
  | .musicOnVisual => "musicOnVisual"
  | .tactile => "tactile"
  | .textOnVisual => "textOnVisual"
  | .textual => "textual"
  | .visual => "visual"

def encodeAccessMode (v : AccessMode) : Json := .str (accessModeString v)

def decodeAccessMode : Json → Except Err AccessMode
  | .str s =>
      match s with
      | "auditory" => .ok .auditory
      | "chartOnVisual" => .ok .chartOnVisual
      | "chemOnVisual" => .ok .chemOnVisual
      | "colorDependent" => .ok .colorDependent
      | "diagramOnVisual" => .ok .diagramOnVisual
      | "mathOnVisual" => .ok .mathOnVisual
      | "musicOnVisual" => .ok .musicOnVisual
      | "tactile" => .ok .tactile
      | "textOnVisual" => .ok .textOnVisual
      | "textual" => .ok .textual
      | "visual" => .ok .visual
      | _ => .error (.invalidEnum s)
  | _ => .error (.shape "string")

inductive AccessibilityExemption where
  | eaaDisproportionateBurden | eaaFundamentalAlteration | eaaMicroenterprise
deriving DecidableEq

def accessibilityExemptionString : AccessibilityExemption → String
  | .eaaDisproportionateBurden => "eaa-disproportionate-burden"
  | .eaaFundamentalAlteration => "eaa-fundamental-alteration"
  | .eaaMicroenterprise => "eaa-microenterprise"

def encodeAccessibilityExemption (v : AccessibilityExemption) : Json :=
  .str (accessibilityExemptionString v)

def decodeAccessibilityExemption : Json → Except Err AccessibilityExemption
  | .str s =>
      match s with
      | "eaa-disproportionate-burden" => .ok .eaaDisproportionateBurden
      | "eaa-fundamental-alteration" => .ok .eaaFundamentalAlteration
      | "eaa-microenterprise" => .ok .eaaMicroenterprise
      | _ => .error (.invalidEnum s)
  | _ => .error (.shape "string")

inductive AccessibilityFeature where
  | annotations | aria | bookmarks | index | pageBreakMarkers | printPageNumbers
  | pageNavigation | readingOrder | structuralNavigation | tableOfContents
  | taggedPdf | alternativeText | audioDescription | closeCaptions | captions
  | describedMath | longDescription | openCaptions | signLanguage | transcript
  | displayTransformability | synchronizedAudioText | timingControl | unlocked
  | chemMl | latex | latexChemistry | mathMl | mathMlChemistry | ttsMarkup
  | highContrastAudio | highContrastDisplay | largePrint | braille
  | tactileGraphic | tactileObject | fullRubyAnnotations | horizontalWriting
  | rubyAnnotations | verticalWriting | withAdditionalWordSegmentation
  | withoutAdditionalWordSegmentation | none | unknown
deriving DecidableEq

def accessibilityFeatureString : AccessibilityFeature → String
  | .annotations => "annotations"
  | .aria => "ARIA"
  | .bookmarks => "bookmarks"
  | .index => "index"
  | .pageBreakMarkers => "pageBreakMarkers"
  | .printPageNumbers => "printPageNumbers"
  | .pageNavigation => "pageNavigation"
  | .readingOrder => "readingOrder"
  | .structuralNavigation => "structuralNavigation"
  | .tableOfContents => "tableOfContents"
  | .taggedPdf => "taggedPDF"
  | .alternativeText => "alternativeText"
  | .audioDescription => "audioDescription"
  | .closeCaptions => "closeCaptions"
  | .captions => "captions"
  | .describedMath => "describedMath"
  | .longDescription => "longDescription"
  | .openCaptions => "openCaptions"
  | .signLanguage => "signLanguage"
  | .transcript => "transcript"
  | .displayTransformability => "displayTransformability"
  | .synchronizedAudioText => "synchronizedAudioText"
  | .timingControl => "timingControl"
  | .unlocked => "unlocked"
  | .chemMl => "ChemML"
  | .latex => "latex"
  | .latexChemistry => "latex-chemistry"
  | .mathMl => "MathML"
  | .mathMlChemistry => "MathML-chemistry"
  | .ttsMarkup => "ttsMarkup"
  | .highContrastAudio => "highContrastAudio"
  | .highContrastDisplay => "highContrastDisplay"
  | .largePrint => "largePrint"
  | .braille => "braille"
  | .tactileGraphic => "tactileGraphic"
  | .tactileObject => "tactileObject"
  | .fullRubyAnnotations => "fullRubyAnnotations"
  | .horizontalWriting => "horizontalWriting"
  | .rubyAnnotations => "rubyAnnotations"
  | .verticalWriting => "verticalWriting"
  | .withAdditionalWordSegmentation => "withAdditionalWordSegmentation"
  | .withoutAdditionalWordSegmentation => "withoutAdditionalWordSegmentation"
  | .none => "none"
  | .unknown => "unknown"

def encodeAccessibilityFeature (v : AccessibilityFeature) : Json :=
  .str (accessibilityFeatureString v)

def decodeAccessibilityFeature : Json → Except Err AccessibilityFeature
  | .str s =>
      match s with
      | "annotations" => .ok .annotations
      | "ARIA" => .ok .aria
      | "bookmarks" => .ok .bookmarks
      | "index" => .ok .index
      | "pageBreakMarkers" => .ok .pageBreakMarkers
      | "printPageNumbers" => .ok .printPageNumbers
      | "pageNavigation" => .ok .pageNavigation
      | "readingOrder" => .ok .readingOrder
      | "structuralNavigation" => .ok .structuralNavigation
      | "tableOfContents" => .ok .tableOfContents
      | "taggedPDF" => .ok .taggedPdf
      | "alternativeText" => .ok .alternativeText
      | "audioDescription" => .ok .audioDescription
      | "closeCaptions" => .ok .closeCaptions
      | "captions" => .ok .captions
      | "describedMath" => .ok .describedMath
      | "longDescription" => .ok .longDescription
      | "openCaptions" => .ok .openCaptions
      | "signLanguage" => .ok .signLanguage
      | "transcript" => .ok .transcript
      | "displayTransformability" => .ok .displayTransformability
      | "synchronizedAudioText" => .ok .synchronizedAudioText
      | "timingControl" => .ok .timingControl
      | "unlocked" => .ok .unlocked
      | "ChemML" => .ok .chemMl
      | "latex" => .ok .latex
      | "latex-chemistry" => .ok .latexChemistry
      | "MathML" => .ok .mathMl
      | "MathML-chemistry" => .ok .mathMlChemistry
      | "ttsMarkup" => .ok .ttsMarkup
      | "highContrastAudio" => .ok .highContrastAudio
      | "highContrastDisplay" => .ok .highContrastDisplay
      | "largePrint" => .ok .largePrint
      | "braille" => .ok .braille
      | "tactileGraphic" => .ok .tactileGraphic
      | "tactileObject" => .ok .tactileObject
      | "fullRubyAnnotations" => .ok .fullRubyAnnotations
      | "horizontalWriting" => .ok .horizontalWriting
      | "rubyAnnotations" => .ok .rubyAnnotations
      | "verticalWriting" => .ok .verticalWriting
      | "withAdditionalWordSegmentation" => .ok .withAdditionalWordSegmentation
      | "withoutAdditionalWordSegmentation" => .ok .withoutAdditionalWordSegmentation
      | "none" => .ok .none
      | "unknown" => .ok .unknown
      | _ => .error (.invalidEnum s)
  | _ => .error (.shape "string")

inductive AccessibilityHazard where
  | flashing | motionSimulation | sound | none | noFlashingHazard
  | noMotionSimulationHazard | noSoundHazard | unknown | unknownFlashingHazard
  | unknownMotionSimulationHazard | unknownSoundHazard
deriving DecidableEq

def accessibilityHazardString : AccessibilityHazard → String
  | .flashing => "flashing"
  | .motionSimulation => "motionSimulation"
  | .sound => "sound"
  | .none => "none"
  | .noFlashingHazard => "noFlashingHazard"
  | .noMotionSimulationHazard => "noMotionSimulationHazard"
  | .noSoundHazard => "noSoundHazard"
  | .unknown => "unknown"
  | .unknownFlashingHazard => "unknownFlashingHazard"
  | .unknownMotionSimulationHazard => "unknownMotionSimulationHazard"
  | .unknownSoundHazard => "unknownSoundHazard"

def encodeAccessibilityHazard (v : AccessibilityHazard) : Json :=
  .str (accessibilityHazardString v)

def decodeAccessibilityHazard : Json → Except Err AccessibilityHazard
  | .str s =>
      match s with
      | "flashing" => .ok .flashing
      | "motionSimulation" => .ok .motionSimulation
      | "sound" => .ok .sound
      | "none" => .ok .none
      | "noFlashingHazard" => .ok .noFlashingHazard
      | "noMotionSimulationHazard" => .ok .noMotionSimulationHazard
      | "noSoundHazard" => .ok .noSoundHazard
      | "unknown" => .ok .unknown
      | "unknownFlashingHazard" => .ok .unknownFlashingHazard
      | "unknownMotionSimulationHazard" => .ok .unknownMotionSimulationHazard
      | "unknownSoundHazard" => .ok .unknownSoundHazard
      | _ => .error (.invalidEnum s)
  | _ => .error (.shape "string")

inductive Reservation where
  | all | none
deriving DecidableEq

def reservationString : Reservation → String
  | .all => "all"
  | .none => "none"

def encodeReservation (v : Reservation) : Json := .str (reservationString v)

def decodeReservation : Json → Except Err Reservation
  | .str s =>
      match s with
      | "all" => .ok .all
      | "none" => .ok .none
      | _ => .error (.invalidEnum s)
  | _ => .error (.shape "string")

/-! ## Localized strings (`TaggedStrings`, `StringWithAlternates`) -/

/-- A map of per-language choices (keys are BCP 47 language tags, modelled
as strings ordered lexicographically). -/
structure TaggedStrings where
  choices : List (String × String)
deriving DecidableEq

def tsObj : List (String × String) → JsonObj
  | [] => .nil
  | (k, v) :: tl => .cons k (.str v) (tsObj tl)

/-- `TaggedStrings` serializes its choices in order as a JSON map. -/
def encodeTaggedStrings (ts : TaggedStrings) : Json := .obj (tsObj ts.choices)

/-- Ordered insert with replacement, modelling `BTreeMap::insert` followed
by in-order iteration (a later duplicate key overwrites an earlier one). -/
def bInsert (k v : String) : List (String × String) → List (String × String)
  | [] => [(k, v)]
  | (k', v') :: tl =>
      if k < k' then (k, v) :: (k', v') :: tl
      else if k = k' then (k, v) :: tl
      else (k', v') :: bInsert k v tl

def tsFromObj (acc : List (String × String)) : JsonObj → Except Err (List (String × String))
  | .nil => .ok acc
  | .cons k v tl =>
      match v with
      | .str s => tsFromObj (bInsert k s acc) tl
      | _ => .error (.shape "string")

/-- `TaggedStrings` deserializes through `BTreeMap<LangTagBuf, String>`:
entries are inserted in stream order and read back sorted by tag. -/
def decodeTaggedStrings : Json → Except Err TaggedStrings
  | .obj kvs => (tsFromObj [] kvs).map TaggedStrings.mk
  | _ => .error (.shape "language map")

/-- `StringWithAlternates`: either a single string or a language map;
untagged, the string shape tried first. -/
inductive StringWithAlternates where
  | always (s : String)
  | variants (ts : TaggedStrings)
deriving DecidableEq

/-- `From<Cow<str>> for StringWithAlternates`. -/
def StringWithAlternates.ofStr (s : String) : StringWithAlternates := .always s

def encodeSWA : StringWithAlternates → Json
  | .always s => .str s
  | .variants ts => encodeTaggedStrings ts

def decodeSWA : Json → Except Err StringWithAlternates
  | .str s => .ok (.always s)
  | .obj kvs => (decodeTaggedStrings (.obj kvs)).map .variants
  | _ => .error (.shape "string or language map")

/-! ## Identifiers (`url::Url`, `urn::Urn`, the untagged `Identifier`) -/

def schemeChars : List Char → Bool
  | [] => false
  | ':' :: _ => true
  | c :: tl => (c.isAlphanum || c = '+' || c = '-' || c = '.') && schemeChars tl

/-- Whether `url::Url::parse` accepts the string: the WHATWG grammar
requires `ALPHA *( ALPHA / DIGIT / "+" / "-" / "." ) ":"` as scheme prefix
(see the header comment). -/
def schemeOk (s : String) : Bool :=
  match s.toList with
  | [] => false
  | c :: tl => c.isAlpha && schemeChars tl

/-- Whether `urn::Urn::parse` can accept the string (simplified to its
mandatory `urn:` prefix; only the relative order with `schemeOk` matters). -/
def urnOk (s : String) : Bool := "urn:".isPrefixOf s

/-- A `url::Url` field, modelled by its serialized string (parse is
idempotent on its own output, so tree values are fixed points). -/
def encodeUrl (s : String) : Json := .str s

def decodeUrl : Json → Except Err String
  | .str s => if schemeOk s then .ok s else .error (.shape "URL")
  | _ => .error (.shape "string")

/-- The untagged `Identifier`: `Url` is tried before `Urn`. -/
inductive Identifier where
  | url (s : String)
  | urn (s : String)
deriving DecidableEq

def encodeIdentifier : Identifier → Json
  | .url s => .str s
  | .urn s => .str s

def decodeIdentifier : Json → Except Err Identifier
  | .str s =>
      if schemeOk s then .ok (.url s)
      else if urnOk s then .ok (.urn s)
      else .error (.shape "URL or URN")
  | _ => .error (.shape "string")

/-! ## Link-property leaf structs -/

structure Price where
  value : Rat
  currency : String
deriving DecidableEq

def priceFields (p : Price) : JsonObj :=
  objOf [reqF "value" (.num p.value), reqF "currency" (.str p.currency)]

def encodePrice (p : Price) : Json := .obj (priceFields p)

def decodePrice : Json → Except Err Price
  | .obj kvs => do
      let value? ← dPres (lookupKey kvs "value") decQ
      let currency? ← dPres (lookupKey kvs "currency") decStr
      let value ← dReq "value" value?
      let currency ← dReq "currency" currency?
      .ok ⟨value, currency⟩
  | _ => .error (.shape "object")

structure Holds where
  total : Option Nat
  position : Option Nat
deriving DecidableEq

def holdsFields (h : Holds) : JsonObj :=
  objOf [optF "total" (h.total.map jNat), optF "position" (h.position.map jNat)]

def encodeHolds (h : Holds) : Json := .obj (holdsFields h)

def decodeHolds : Json → Except Err Holds
  | .obj kvs => do
      let total ← dOpt (lookupKey kvs "total") decNat
      let position ← dOpt (lookupKey kvs "position") decNat
      .ok ⟨total, position⟩
  | _ => .error (.shape "object")

structure Copies where
  total : Option Nat
  available : Option Nat
deriving DecidableEq

def copiesFields (c : Copies) : JsonObj :=
  objOf [optF "total" (c.total.map jNat), optF "available" (c.available.map jNat)]

def encodeCopies (c : Copies) : Json := .obj (copiesFields c)

def decodeCopies : Json → Except Err Copies
  | .obj kvs => do
      let total ← dOpt (lookupKey kvs "total") decNat
      let available ← dOpt (lookupKey kvs "available") decNat
      .ok ⟨total, available⟩
  | _ => .error (.shape "object")

structure Availability where
  state : AvailabilityState
  since : Option String
  until_ : Option String
deriving DecidableEq

def availabilityFields (a : Availability) : JsonObj :=
  objOf [reqF "state" (encodeAvailabilityState a.state),
         optF "since" (a.since.map Json.str),
         optF "until" (a.until_.map Json.str)]

def encodeAvailability (a : Availability) : Json := .obj (availabilityFields a)

def decodeAvailability : Json → Except Err Availability
  | .obj kvs => do
      let state? ← dPres (lookupKey kvs "state") decodeAvailabilityState
      let since ← dOpt (lookupKey kvs "since") decStr
      let until_ ← dOpt (lookupKey kvs "until") decStr
      let state ← dReq "state" state?
      .ok ⟨state, since, until_⟩
  | _ => .error (.shape "object")

/-! ## Acquisition (recursive through `child`) -/

mutual
inductive Acquisition where
  | mk (mime : String) (child : AcquisitionList) : Acquisition

inductive AcquisitionList where
  | nil : AcquisitionList
  | cons (hd : Acquisition) (tl : AcquisitionList) : AcquisitionList
end

def Acquisition.mime : Acquisition → String
  | .mk mime _ => mime

def Acquisition.child : Acquisition → AcquisitionList
  | .mk _ child => child

mutual
def acquisitionFields : Acquisition → JsonObj
  | .mk mime child =>
      objOf [reqF "type" (.str mime), vecF "child" (encodeAcquisitionList child)]

def encodeAcquisitionList : AcquisitionList → JsonList
  | .nil => .nil
  | .cons a tl => .cons (.obj (acquisitionFields a)) (encodeAcquisitionList tl)
end

def encodeAcquisition (a : Acquisition) : Json := .obj (acquisitionFields a)

mutual
def dAcquisitionF : Nat → Json → Except Err Acquisition
  | 0, _ => .error .depthLimit
  | f + 1, j =>
    match j with
    | .obj kvs => do
        let mime? ← dPres (lookupKey kvs "type") decStr
        let child ← dVec (lookupKey kvs "child") AcquisitionList.nil
          (mapDecInto AcquisitionList.nil AcquisitionList.cons (fun j => dAcquisitionF f j))
        let mime ← dReq "type" mime?
        .ok (.mk mime child)
    | _ => .error (.shape "object")
end

def decodeAcquisition (j : Json) : Except Err Acquisition := dAcquisitionF (jsonFuel j) j

/-! ## Accessibility metadata -/

structure AccessbilityCertification where
  certified_by : Option String
  credential : Option String
  report : Option String
deriving DecidableEq

def certificationFields (c : AccessbilityCertification) : JsonObj :=
  objOf [optF "certifiedBy" (c.certified_by.map Json.str),
         optF "credential" (c.credential.map Json.str),
         optF "report" (c.report.map Json.str)]

def encodeCertification (c : AccessbilityCertification) : Json := .obj (certificationFields c)

def decodeCertification : Json → Except Err AccessbilityCertification
  | .obj kvs => do
      let certified_by ← dOpt (lookupKey kvs "certifiedBy") decStr
      let credential ← dOpt (lookupKey kvs "credential") decStr
      let report ← dOpt (lookupKey kvs "report") decStr
      .ok ⟨certified_by, credential, report⟩
  | _ => .error (.shape "object")

/-- `AccessibilityMetadata`: note that `access_mode`, `feature` and
`hazard` carry only `#[serde(default)]` — no `skip_serializing_if` — so
they are always serialized, as empty arrays when empty. -/
structure AccessibilityMetadata where
  conforms_to : List String
  exemption : Option AccessibilityExemption
  access_mode : List AccessMode
  feature : List AccessibilityFeature
  hazard : List AccessibilityHazard
  certification : Option AccessbilityCertification
  summary : Option String
deriving DecidableEq

def accessibilityFields (a : AccessibilityMetadata) : JsonObj :=
  objOf [vecF "conformsTo" (encListJ encodeUrl a.conforms_to),
         optF "exemption" (a.exemption.map encodeAccessibilityExemption),
         reqF "accessMode" (.arr (encListJ encodeAccessMode a.access_mode)),
         reqF "feature" (.arr (encListJ encodeAccessibilityFeature a.feature)),
         reqF "hazard" (.arr (encListJ encodeAccessibilityHazard a.hazard)),
         optF "certification" (a.certification.map encodeCertification),
         optF "summary" (a.summary.map Json.str)]

def encodeAccessibility (a : AccessibilityMetadata) : Json := .obj (accessibilityFields a)

def decodeAccessibility : Json → Except Err AccessibilityMetadata
  | .obj kvs => do
      let conforms_to ← dFlat (lookupKey kvs "conformsTo") []
        (mapDecInto [] List.cons decodeUrl) (fun j => (decodeUrl j).map ([·]))
      let exemption ← dOpt (lookupKey kvs "exemption") decodeAccessibilityExemption
      let access_mode ← dVec (lookupKey kvs "accessMode") []
        (mapDecInto [] List.cons decodeAccessMode)
      let feature ← dVec (lookupKey kvs "feature") []
        (mapDecInto [] List.cons decodeAccessibilityFeature)
      let hazard ← dVec (lookupKey kvs "hazard") []
        (mapDecInto [] List.cons decodeAccessibilityHazard)
      let certification ← dOpt (lookupKey kvs "certification") decodeCertification
      let summary ← dOpt (lookupKey kvs "summary") decStr
      .ok ⟨conforms_to, exemption, access_mode, feature, hazard, certification, summary⟩
  | _ => .error (.shape "object")

/-! ## Text-and-data-mining, alternate identifiers -/

structure DataMining where
  reservation : Reservation
  policy : Option String
deriving DecidableEq

def dataMiningFields (d : DataMining) : JsonObj :=
  objOf [reqF "reservation" (encodeReservation d.reservation),
         optF "policy" (d.policy.map encodeUrl)]

def encodeDataMining (d : DataMining) : Json := .obj (dataMiningFields d)

def decodeDataMining : Json → Except Err DataMining
  | .obj kvs => do
      let reservation? ← dPres (lookupKey kvs "reservation") decodeReservation
      let policy ← dOpt (lookupKey kvs "policy") decodeUrl
      let reservation ← dReq "reservation" reservation?
      .ok ⟨reservation, policy⟩
  | _ => .error (.shape "object")

structure AltIdentifier where
  value : String
  scheme : Option String
deriving DecidableEq

/-- `AltIdentifier::new` / `From<Cow<str>>`. -/
def AltIdentifier.ofStr (s : String) : AltIdentifier := ⟨s, none⟩

def altIdentifierFields (a : AltIdentifier) : JsonObj :=
  objOf [reqF "value" (.str a.value), optF "scheme" (a.scheme.map encodeUrl)]

def encodeAltIdentifier (a : AltIdentifier) : Json := .obj (altIdentifierFields a)

def decodeAltIdentifier : Json → Except Err AltIdentifier
  | .obj kvs => do
      let value? ← dPres (lookupKey kvs "value") decStr
      let scheme ← dOpt (lookupKey kvs "scheme") decodeUrl
      let value ← dReq "value" value?
      .ok ⟨value, scheme⟩
  | _ => .error (.shape "object")

/-! ## LinkProperties -/

structure LinkProperties where
  count : Option Nat
  page : Option PageDisplay
  availability : Option Availability
  price : Option Price
  indirect_acquisition : List Acquisition
  holds : Option Holds
  copies : Option Copies

/-- `LinkProperties::is_empty`. -/
def LinkProperties.is_empty (p : LinkProperties) : Bool :=
  p.count.isNone && p.price.isNone && p.page.isNone &&
    p.indirect_acquisition.isEmpty && p.holds.isNone && p.copies.isNone &&
    p.availability.isNone

/-- `Default for LinkProperties` (derived). -/
def LinkProperties.default : LinkProperties := ⟨none, none, none, none, [], none, none⟩

def linkPropertiesFields (p : LinkProperties) : JsonObj :=
  objOf [optF "numberOfItems" (p.count.map jNat),
         optF "page" (p.page.map encodePageDisplay),
         optF "availability" (p.availability.map encodeAvailability),
         optF "price" (p.price.map encodePrice),
         vecF "indirectAcquisition" (encListJ encodeAcquisition p.indirect_acquisition),
         optF "holds" (p.holds.map encodeHolds),
         optF "copies" (p.copies.map encodeCopies)]

def encodeLinkProperties (p : LinkProperties) : Json := .obj (linkPropertiesFields p)

def decodeLinkProperties : Json → Except Err LinkProperties
  | .obj kvs => do
      let count ← dOpt (lookupKey kvs "numberOfItems") decNat
      let page ← dOpt (lookupKey kvs "page") decodePageDisplay
      let availability ← dOpt (lookupKey kvs "availability") decodeAvailability
      let price ← dOpt (lookupKey kvs "price") decodePrice
      let indirect_acquisition ← dVec (lookupKey kvs "indirectAcquisition") []
        (mapDecInto [] List.cons decodeAcquisition)
      let holds ← dOpt (lookupKey kvs "holds") decodeHolds
      let copies ← dOpt (lookupKey kvs "copies") decodeCopies
      .ok ⟨count, page, availability, price, indirect_acquisition, holds, copies⟩
  | _ => .error (.shape "object")

/-! ## Link (recursive through `alternate` and `children`) -/

mutual
inductive Link where
  | mk (title : Option String) (href : Option String) (templated : Bool)
       (mime : Option String) (rel : List Relation) (properties : LinkProperties)
       (height : Option Nat) (width : Option Nat) (size : Option Nat)
       (bitrate : Option Rat) (duration : Option Rat) (language : List String)
       (alternate : LinkList) (children : LinkList) : Link

inductive LinkList where
  | nil : LinkList
  | cons (hd : Link) (tl : LinkList) : LinkList
end

def Link.rel : Link → List Relation
  | .mk _ _ _ _ rel _ _ _ _ _ _ _ _ _ => rel

def Link.templated : Link → Bool
  | .mk _ _ templated _ _ _ _ _ _ _ _ _ _ _ => templated

/-- `Link::get_acquisition`: the first acquisition tag in `rel`. -/
def Link.get_acquisition (l : Link) : Option AcquisitionKind :=
  l.rel.findSome? Relation.as_acquisition

mutual
def linkFields : Link → JsonObj
  | .mk title href templated mime rel properties height width size bitrate duration
      language alternate children =>
      objOf [optF "title" (title.map Json.str),
             optF "href" (href.map Json.str),
             flagF "templated" templated,
             optF "type" (mime.map Json.str),
             flatF "rel" (encListJ encodeRelation rel),
             skipF "properties" properties.is_empty (encodeLinkProperties properties),
             optF "height" (height.map jNat),
             optF "width" (width.map jNat),
             optF "size" (size.map jNat),
             optF "bitrate" (bitrate.map Json.num),
             optF "duration" (duration.map Json.num),
             vecF "language" (encListJ Json.str language),
             vecF "alternate" (encodeLinkList alternate),
             vecF "children" (encodeLinkList children)]

def encodeLinkList : LinkList → JsonList
  | .nil => .nil
  | .cons l tl => .cons (.obj (linkFields l)) (encodeLinkList tl)
end

def encodeLink (l : Link) : Json := .obj (linkFields l)

mutual
def dLinkF : Nat → Json → Except Err Link
  | 0, _ => .error .depthLimit
  | f + 1, j =>
    match j with
    | .obj kvs => do
        let title ← dOpt (lookupKey kvs "title") decStr
        let href ← dOpt (lookupKey kvs "href") decStr
        let templated ← dFlag (lookupKey kvs "templated")
        let mime ← dOpt (lookupKey kvs "type") decStr
        let rel ← dFlat (lookupKey kvs "rel") []
          (mapDecInto [] List.cons decodeRelation) (fun j => (decodeRelation j).map ([·]))
        let properties ← dDef (lookupKey kvs "properties") LinkProperties.default
          decodeLinkProperties
        let height ← dOpt (lookupKey kvs "height") decNat
        let width ← dOpt (lookupKey kvs "width") decNat
        let size ← dOpt (lookupKey kvs "size") decNat
        let bitrate ← dOpt (lookupKey kvs "bitrate") decQ
        let duration ← dOpt (lookupKey kvs "duration") decQ
        let language ← dVec (lookupKey kvs "language") []
          (mapDecInto [] List.cons decLang)
        let alternate ← dVec (lookupKey kvs "alternate") LinkList.nil
          (mapDecInto LinkList.nil LinkList.cons (fun j => dLinkF f j))
        let children ← dVec (lookupKey kvs "children") LinkList.nil
          (mapDecInto LinkList.nil LinkList.cons (fun j => dLinkF f j))
        .ok (.mk title href templated mime rel properties height width size bitrate
          duration language alternate children)
    | _ => .error (.shape "object")
end

def decodeLink (j : Json) : Except Err Link := dLinkF (jsonFuel j) j

def decodeLinkListJ : JsonList → Except Err LinkList :=
  mapDecInto LinkList.nil LinkList.cons decodeLink

/-- The alt-identifier element codec (`deserialize_flattened_vec_stringy`
with `T = AltIdentifier`). -/
def decAltIdElem (j : Json) : Except Err AltIdentifier :=
  stringyDec (decodeAltIdentifier j) j .ofStr

/-! ## Contributor, Episode, Collection, Subject, Article -/

structure Contributor where
  name : StringWithAlternates
  sort_as : Option StringWithAlternates
  identifier : Option Identifier
  alt_identifier : List AltIdentifier
  role : List String
  links : List Link

/-- `Contributor::new` / `From<Cow<str>>`. -/
def Contributor.ofStr (s : String) : Contributor := ⟨.always s, none, none, [], [], []⟩

def contributorFields (c : Contributor) : JsonObj :=
  objOf [reqF "name" (encodeSWA c.name),
         optF "sortAs" (c.sort_as.map encodeSWA),
         optF "identifier" (c.identifier.map encodeIdentifier),
         vecF "altIdentifier" (encListJ encodeAltIdentifier c.alt_identifier),
         vecF "role" (encListJ Json.str c.role),
         vecF "links" (encListJ encodeLink c.links)]

def encodeContributor (c : Contributor) : Json := .obj (contributorFields c)

def decodeContributor : Json → Except Err Contributor
  | .obj kvs => do
      let name? ← dPres (lookupKey kvs "name") decodeSWA
      let sort_as ← dOpt (lookupKey kvs "sortAs") decodeSWA
      let identifier ← dOpt (lookupKey kvs "identifier") decodeIdentifier
      let alt_identifier ← dFlat (lookupKey kvs "altIdentifier") []
        (mapDecInto [] List.cons decAltIdElem)
        (fun j => (decAltIdElem j).map ([·]))
      let role ← dVec (lookupKey kvs "role") [] (mapDecInto [] List.cons decStr)
      let links ← dVec (lookupKey kvs "links") [] (mapDecInto [] List.cons decodeLink)
      let name ← dReq "name" name?
      .ok ⟨name, sort_as, identifier, alt_identifier, role, links⟩
  | _ => .error (.shape "object")

structure Episode where
  name : Option StringWithAlternates
  sort_as : Option StringWithAlternates
  identifier : Option Identifier
  alt_identifier : List AltIdentifier
  position : Nat
  links : List Link

/-- `Episode::new` / `From<usize>`. -/
def Episode.ofPos (position : Nat) : Episode := ⟨none, none, none, [], position, []⟩

def episodeFields (e : Episode) : JsonObj :=
  objOf [optF "name" (e.name.map encodeSWA),
         optF "sortAs" (e.sort_as.map encodeSWA),
         optF "identifier" (e.identifier.map encodeIdentifier),
         vecF "altIdentifier" (encListJ encodeAltIdentifier e.alt_identifier),
         reqF "position" (jNat e.position),
         vecF "links" (encListJ encodeLink e.links)]

def encodeEpisode (e : Episode) : Json := .obj (episodeFields e)

def decodeEpisode : Json → Except Err Episode
  | .obj kvs => do
      let name ← dOpt (lookupKey kvs "name") decodeSWA
      let sort_as ← dOpt (lookupKey kvs "sortAs") decodeSWA
      let identifier ← dOpt (lookupKey kvs "identifier") decodeIdentifier
      let alt_identifier ← dFlat (lookupKey kvs "altIdentifier") []
        (mapDecInto [] List.cons decAltIdElem)
        (fun j => (decAltIdElem j).map ([·]))
      let position? ← dPres (lookupKey kvs "position") decNat
      let links ← dVec (lookupKey kvs "links") [] (mapDecInto [] List.cons decodeLink)
      let position ← dReq "position" position?
      .ok ⟨name, sort_as, identifier, alt_identifier, position, links⟩
  | _ => .error (.shape "object")

structure Collection where
  name : StringWithAlternates
  sort_as : Option StringWithAlternates
  identifier : Option Identifier
  alt_identifier : List AltIdentifier
  position : Option Nat
  links : List Link

/-- `Collection::new` / `From<Cow<str>>`. -/
def Collection.ofStr (s : String) : Collection := ⟨.always s, none, none, [], none, []⟩

def collectionFields (c : Collection) : JsonObj :=
  objOf [reqF "name" (encodeSWA c.name),
         optF "sortAs" (c.sort_as.map encodeSWA),
         optF "identifier" (c.identifier.map encodeIdentifier),
         vecF "altIdentifier" (encListJ encodeAltIdentifier c.alt_identifier),
         optF "position" (c.position.map jNat),
         vecF "links" (encListJ encodeLink c.links)]

def encodeCollection (c : Collection) : Json := .obj (collectionFields c)

def decodeCollection : Json → Except Err Collection
  | .obj kvs => do
      let name? ← dPres (lookupKey kvs "name") decodeSWA
      let sort_as ← dOpt (lookupKey kvs "sortAs") decodeSWA
      let identifier ← dOpt (lookupKey kvs "identifier") decodeIdentifier
      let alt_identifier ← dFlat (lookupKey kvs "altIdentifier") []
        (mapDecInto [] List.cons decAltIdElem)
        (fun j => (decAltIdElem j).map ([·]))
      let position ← dOpt (lookupKey kvs "position") decNat
      let links ← dVec (lookupKey kvs "links") [] (mapDecInto [] List.cons decodeLink)
      let name ← dReq "name" name?
      .ok ⟨name, sort_as, identifier, alt_identifier, position, links⟩
  | _ => .error (.shape "object")

structure Subject where
  name : StringWithAlternates
  sort_as : Option StringWithAlternates
  code : Option String
  scheme : Option String
  links : List Link

def subjectFields (s : Subject) : JsonObj :=
  objOf [reqF "name" (encodeSWA s.name),
         optF "sortAs" (s.sort_as.map encodeSWA),
         optF "code" (s.code.map Json.str),
         optF "scheme" (s.scheme.map encodeUrl),
         vecF "links" (encListJ encodeLink s.links)]

def encodeSubject (s : Subject) : Json := .obj (subjectFields s)

def decodeSubject : Json → Except Err Subject
  | .obj kvs => do
      let name? ← dPres (lookupKey kvs "name") decodeSWA
      let sort_as ← dOpt (lookupKey kvs "sortAs") decodeSWA
      let code ← dOpt (lookupKey kvs "code") decStr
      let scheme ← dOpt (lookupKey kvs "scheme") decodeUrl
      let links ← dVec (lookupKey kvs "links") [] (mapDecInto [] List.cons decodeLink)
      let name ← dReq "name" name?
      .ok ⟨name, sort_as, code, scheme, links⟩
  | _ => .error (.shape "object")

structure Article where
  name : StringWithAlternates
  sort_as : Option StringWithAlternates
  identifier : Option Identifier
  alt_identifier : List AltIdentifier
  author : List Contributor
  translator : List Contributor
  editor : List Contributor
  artist : List Contributor
  illustrator : List Contributor
  contributor : List Contributor
  description : Option String
  number_of_pages : Option Nat
  position : Option Nat
  links : List Link

/-- `Article::new` / `From<Cow<str>>`. -/
def Article.ofStr (s : String) : Article :=
  ⟨.always s, none, none, [], [], [], [], [], [], [], none, none, none, []⟩

/-- The contributor-list field codec (`deserialize_flattened_vec_stringy`
with `T = Contributor`). -/
def decContributorElem (j : Json) : Except Err Contributor :=
  stringyDec (decodeContributor j) j .ofStr

def articleFields (a : Article) : JsonObj :=
  objOf [reqF "name" (encodeSWA a.name),
         optF "sortAs" (a.sort_as.map encodeSWA),
         optF "identifier" (a.identifier.map encodeIdentifier),
         vecF "altIdentifier" (encListJ encodeAltIdentifier a.alt_identifier),
         vecF "author" (encListJ encodeContributor a.author),
         vecF "translator" (encListJ encodeContributor a.translator),
         vecF "editor" (encListJ encodeContributor a.editor),
         vecF "artist" (encListJ encodeContributor a.artist),
         vecF "illustrator" (encListJ encodeContributor a.illustrator),
         vecF "contributor" (encListJ encodeContributor a.contributor),
         optF "description" (a.description.map Json.str),
         optF "numberOfPages" (a.number_of_pages.map jNat),
         optF "position" (a.position.map jNat),
         vecF "links" (encListJ encodeLink a.links)]

def encodeArticle (a : Article) : Json := .obj (articleFields a)

def decodeArticle : Json → Except Err Article
  | .obj kvs => do
      let name? ← dPres (lookupKey kvs "name") decodeSWA
      let sort_as ← dOpt (lookupKey kvs "sortAs") decodeSWA
      let identifier ← dOpt (lookupKey kvs "identifier") decodeIdentifier
      let alt_identifier ← dFlat (lookupKey kvs "altIdentifier") []
        (mapDecInto [] List.cons decAltIdElem)
        (fun j => (decAltIdElem j).map ([·]))
      let author ← dFlat (lookupKey kvs "author") []
        (mapDecInto [] List.cons decContributorElem)
        (fun j => (decContributorElem j).map ([·]))
      let translator ← dFlat (lookupKey kvs "translator") []
        (mapDecInto [] List.cons decContributorElem)
        (fun j => (decContributorElem j).map ([·]))
      let editor ← dFlat (lookupKey kvs "editor") []
        (mapDecInto [] List.cons decContributorElem)
        (fun j => (decContributorElem j).map ([·]))
      let artist ← dFlat (lookupKey kvs "artist") []
        (mapDecInto [] List.cons decContributorElem)
        (fun j => (decContributorElem j).map ([·]))
      let illustrator ← dFlat (lookupKey kvs "illustrator") []
        (mapDecInto [] List.cons decContributorElem)
        (fun j => (decContributorElem j).map ([·]))
      let contributor ← dFlat (lookupKey kvs "contributor") []
        (mapDecInto [] List.cons decContributorElem)
        (fun j => (decContributorElem j).map ([·]))
      let description ← dOpt (lookupKey kvs "description") decStr
      let number_of_pages ← dOpt (lookupKey kvs "numberOfPages") decNat
      let position ← dOpt (lookupKey kvs "position") decNat
      let links ← dVec (lookupKey kvs "links") [] (mapDecInto [] List.cons decodeLink)
      let name ← dReq "name" name?
      .ok ⟨name, sort_as, identifier, alt_identifier, author, translator, editor, artist,
        illustrator, contributor, description, number_of_pages, position, links⟩
  | _ => .error (.shape "object")

/-! ## The bibliographic containment hierarchy

`Issue`, `Chapter`, `Series`, `Season`, `StoryArc` and `Volume` nest each
other (`Episode`, `Article`, `Collection`, `Periodical` do not nest back
into this set and live outside the block). -/

mutual
inductive Issue where
  | mk (name : Option StringWithAlternates) (sort_as : Option StringWithAlternates)
       (identifier : Option Identifier) (alt_identifier : List AltIdentifier)
       (position : Nat) (links : List Link) (article : List Article)
       (chapter : ChapterList) : Issue

inductive Chapter where
  | mk (name : Option StringWithAlternates) (sort_as : Option StringWithAlternates)
       (identifier : Option Identifier) (alt_identifier : List AltIdentifier)
       (position : Nat) (links : List Link) (series : SeriesList) : Chapter

inductive Series where
  | mk (name : StringWithAlternates) (sort_as : Option StringWithAlternates)
       (identifier : Option Identifier) (alt_identifier : List AltIdentifier)
       (position : Option Nat) (links : List Link) (chapter : ChapterList)
       (episode : List Episode) (issue : IssueList) (season : SeasonList)
       (story_arc : StoryArcList) (volume : VolumeList) : Series

inductive Season where
  | mk (name : Option StringWithAlternates) (sort_as : Option StringWithAlternates)
       (identifier : Option Identifier) (alt_identifier : List AltIdentifier)
       (position : Nat) (links : List Link) (article : List Article)
       (chapter : ChapterList) : Season

inductive StoryArc where
  | mk (name : Option StringWithAlternates) (sort_as : Option StringWithAlternates)
       (identifier : Option Identifier) (alt_identifier : List AltIdentifier)
       (position : Nat) (links : List Link) (chapter : ChapterList)
       (issue : IssueList) (episode : List Episode) : StoryArc

inductive Volume where
  | mk (name : Option StringWithAlternates) (sort_as : Option StringWithAlternates)
       (identifier : Option Identifier) (alt_identifier : List AltIdentifier)
       (position : Nat) (links : List Link) (chapter : ChapterList)
       (issue : IssueList) (story_arc : StoryArcList) : Volume

inductive IssueList where
  | nil : IssueList
  | cons (hd : Issue) (tl : IssueList) : IssueList

inductive ChapterList where
  | nil : ChapterList
  | cons (hd : Chapter) (tl : ChapterList) : ChapterList

inductive SeriesList where
  | nil : SeriesList
  | cons (hd : Series) (tl : SeriesList) : SeriesList

inductive SeasonList where
  | nil : SeasonList
  | cons (hd : Season) (tl : SeasonList) : SeasonList

inductive StoryArcList where
  | nil : StoryArcList
  | cons (hd : StoryArc) (tl : StoryArcList) : StoryArcList

inductive VolumeList where
  | nil : VolumeList
  | cons (hd : Volume) (tl : VolumeList) : VolumeList
end

/-- `Issue::new` / `From<usize>`. -/
def Issue.ofPos (position : Nat) : Issue :=
  .mk none none none [] position [] [] .nil

/-- `Chapter::new` / `From<usize>`. -/
def Chapter.ofPos (position : Nat) : Chapter :=
  .mk none none none [] position [] .nil

/-- `Series::new` / `From<Cow<str>>`. -/
def Series.ofStr (s : String) : Series :=
  .mk (.always s) none none [] none [] .nil [] .nil .nil .nil .nil

/-- `Season::new` / `From<usize>`. -/
def Season.ofPos (position : Nat) : Season :=
  .mk none none none [] position [] [] .nil

/-- `StoryArc::new` / `From<usize>`. -/
def StoryArc.ofPos (position : Nat) : StoryArc :=
  .mk none none none [] position [] .nil .nil []

/-- `Volume::new` / `From<usize>`. -/
def Volume.ofPos (position : Nat) : Volume :=
  .mk none none none [] position [] .nil .nil .nil

/-- The article element codec (`deserialize_flattened_vec_stringy` with
`T = Article`). -/
def decArticleElem (j : Json) : Except Err Article :=
  stringyDec (decodeArticle j) j .ofStr

/-- The episode element codec (`deserialize_flattened_vec_numlike` with
`T = Episode`). -/
def decEpisodeElem (j : Json) : Except Err Episode :=
  numlikeDec (decodeEpisode j) j .ofPos

mutual
def issueFields : Issue → JsonObj
  | .mk name sort_as identifier alt_identifier position links article chapter =>
      objOf [optF "name" (name.map encodeSWA),
             optF "sortAs" (sort_as.map encodeSWA),
             optF "identifier" (identifier.map encodeIdentifier),
             vecF "altIdentifier" (encListJ encodeAltIdentifier alt_identifier),
             reqF "position" (jNat position),
             vecF "links" (encListJ encodeLink links),
             vecF "article" (encListJ encodeArticle article),
             vecF "chapter" (encodeChapterList chapter)]

def chapterFields : Chapter → JsonObj
  | .mk name sort_as identifier alt_identifier position links series =>
      objOf [optF "name" (name.map encodeSWA),
             optF "sortAs" (sort_as.map encodeSWA),
             optF "identifier" (identifier.map encodeIdentifier),
             vecF "altIdentifier" (encListJ encodeAltIdentifier alt_identifier),
             reqF "position" (jNat position),
             vecF "links" (encListJ encodeLink links),
             vecF "series" (encodeSeriesList series)]

def seriesFields : Series → JsonObj
  | .mk name sort_as identifier alt_identifier position links chapter episode issue
      season story_arc volume =>
      objOf [reqF "name" (encodeSWA name),
             optF "sortAs" (sort_as.map encodeSWA),
             optF "identifier" (identifier.map encodeIdentifier),
             vecF "altIdentifier" (encListJ encodeAltIdentifier alt_identifier),
             optF "position" (position.map jNat),
             vecF "links" (encListJ encodeLink links),
             vecF "chapter" (encodeChapterList chapter),
             vecF "episode" (encListJ encodeEpisode episode),
             vecF "issue" (encodeIssueList issue),
             vecF "season" (encodeSeasonList season),
             vecF "storyArc" (encodeStoryArcList story_arc),
             vecF "volume" (encodeVolumeList volume)]

def seasonFields : Season → JsonObj
  | .mk name sort_as identifier alt_identifier position links article chapter =>
      objOf [optF "name" (name.map encodeSWA),
             optF "sortAs" (sort_as.map encodeSWA),
             optF "identifier" (identifier.map encodeIdentifier),
             vecF "altIdentifier" (encListJ encodeAltIdentifier alt_identifier),
             reqF "position" (jNat position),
             vecF "links" (encListJ encodeLink links),
             vecF "article" (encListJ encodeArticle article),
             vecF "chapter" (encodeChapterList chapter)]

def storyArcFields : StoryArc → JsonObj
  | .mk name sort_as identifier alt_identifier position links chapter issue episode =>
      objOf [optF "name" (name.map encodeSWA),
             optF "sortAs" (sort_as.map encodeSWA),
             optF "identifier" (identifier.map encodeIdentifier),
             vecF "altIdentifier" (encListJ encodeAltIdentifier alt_identifier),
             reqF "position" (jNat position),
             vecF "links" (encListJ encodeLink links),
             vecF "chapter" (encodeChapterList chapter),
             vecF "issue" (encodeIssueList issue),
             vecF "episode" (encListJ encodeEpisode episode)]

def volumeFields : Volume → JsonObj
  | .mk name sort_as identifier alt_identifier position links chapter issue story_arc =>
      objOf [optF "name" (name.map encodeSWA),
             optF "sortAs" (sort_as.map encodeSWA),
             optF "identifier" (identifier.map encodeIdentifier),
             vecF "altIdentifier" (encListJ encodeAltIdentifier alt_identifier),
             reqF "position" (jNat position),
             vecF "links" (encListJ encodeLink links),
             vecF "chapter" (encodeChapterList chapter),
             vecF "issue" (encodeIssueList issue),
             vecF "storyArc" (encodeStoryArcList story_arc)]

def encodeIssueList : IssueList → JsonList
  | .nil => .nil
  | .cons a tl => .cons (.obj (issueFields a)) (encodeIssueList tl)

def encodeChapterList : ChapterList → JsonList
  | .nil => .nil
  | .cons a tl => .cons (.obj (chapterFields a)) (encodeChapterList tl)

def encodeSeriesList : SeriesList → JsonList
  | .nil => .nil
  | .cons a tl => .cons (.obj (seriesFields a)) (encodeSeriesList tl)

def encodeSeasonList : SeasonList → JsonList
  | .nil => .nil
  | .cons a tl => .cons (.obj (seasonFields a)) (encodeSeasonList tl)

def encodeStoryArcList : StoryArcList → JsonList
  | .nil => .nil
  | .cons a tl => .cons (.obj (storyArcFields a)) (encodeStoryArcList tl)

def encodeVolumeList : VolumeList → JsonList
  | .nil => .nil
  | .cons a tl => .cons (.obj (volumeFields a)) (encodeVolumeList tl)
end

def encodeIssue (v : Issue) : Json := .obj (issueFields v)
def encodeChapter (v : Chapter) : Json := .obj (chapterFields v)
def encodeSeries (v : Series) : Json := .obj (seriesFields v)
def encodeSeason (v : Season) : Json := .obj (seasonFields v)
def encodeStoryArc (v : StoryArc) : Json := .obj (storyArcFields v)
def encodeVolume (v : Volume) : Json := .obj (volumeFields v)

mutual
def dIssueF : Nat → Json → Except Err Issue
  | 0, _ => .error .depthLimit
  | f + 1, j =>
    match j with
    | .obj kvs => do
        let name ← dOpt (lookupKey kvs "name") decodeSWA
        let sort_as ← dOpt (lookupKey kvs "sortAs") decodeSWA
        let identifier ← dOpt (lookupKey kvs "identifier") decodeIdentifier
        let alt_identifier ← dFlat (lookupKey kvs "altIdentifier") []
          (mapDecInto [] List.cons decAltIdElem) (fun j => (decAltIdElem j).map ([·]))
        let position? ← dPres (lookupKey kvs "position") decNat
        let links ← dVec (lookupKey kvs "links") [] (mapDecInto [] List.cons decodeLink)
        let article ← dFlat (lookupKey kvs "article") []
          (mapDecInto [] List.cons decArticleElem) (fun j => (decArticleElem j).map ([·]))
        let chapter ← dFlat (lookupKey kvs "chapter") ChapterList.nil
          (mapDecInto ChapterList.nil ChapterList.cons
            (fun j => numlikeDec (dChapterF f j) j Chapter.ofPos))
          (fun j => (numlikeDec (dChapterF f j) j Chapter.ofPos).map
            (fun c => ChapterList.cons c .nil))
        let position ← dReq "position" position?
        .ok (.mk name sort_as identifier alt_identifier position links article chapter)
    | _ => .error (.shape "object")

def dChapterF : Nat → Json → Except Err Chapter
  | 0, _ => .error .depthLimit
  | f + 1, j =>
    match j with
    | .obj kvs => do
        let name ← dOpt (lookupKey kvs "name") decodeSWA
        let sort_as ← dOpt (lookupKey kvs "sortAs") decodeSWA
        let identifier ← dOpt (lookupKey kvs "identifier") decodeIdentifier
        let alt_identifier ← dFlat (lookupKey kvs "altIdentifier") []
          (mapDecInto [] List.cons decAltIdElem) (fun j => (decAltIdElem j).map ([·]))
        let position? ← dPres (lookupKey kvs "position") decNat
        let links ← dVec (lookupKey kvs "links") [] (mapDecInto [] List.cons decodeLink)
        let series ← dFlat (lookupKey kvs "series") SeriesList.nil
          (mapDecInto SeriesList.nil SeriesList.cons
            (fun j => stringyDec (dSeriesF f j) j Series.ofStr))
          (fun j => (stringyDec (dSeriesF f j) j Series.ofStr).map
            (fun c => SeriesList.cons c .nil))
        let position ← dReq "position" position?
        .ok (.mk name sort_as identifier alt_identifier position links series)
    | _ => .error (.shape "object")

def dSeriesF : Nat → Json → Except Err Series
  | 0, _ => .error .depthLimit
  | f + 1, j =>
    match j with
    | .obj kvs => do
        let name? ← dPres (lookupKey kvs "name") decodeSWA
        let sort_as ← dOpt (lookupKey kvs "sortAs") decodeSWA
        let identifier ← dOpt (lookupKey kvs "identifier") decodeIdentifier
        let alt_identifier ← dFlat (lookupKey kvs "altIdentifier") []
          (mapDecInto [] List.cons decAltIdElem) (fun j => (decAltIdElem j).map ([·]))
        let position ← dOpt (lookupKey kvs "position") decNat
        let links ← dVec (lookupKey kvs "links") [] (mapDecInto [] List.cons decodeLink)
        let chapter ← dFlat (lookupKey kvs "chapter") ChapterList.nil
          (mapDecInto ChapterList.nil ChapterList.cons
            (fun j => numlikeDec (dChapterF f j) j Chapter.ofPos))
          (fun j => (numlikeDec (dChapterF f j) j Chapter.ofPos).map
            (fun c => ChapterList.cons c .nil))
        let episode ← dFlat (lookupKey kvs "episode") []
          (mapDecInto [] List.cons decEpisodeElem) (fun j => (decEpisodeElem j).map ([·]))
        let issue ← dFlat (lookupKey kvs "issue") IssueList.nil
          (mapDecInto IssueList.nil IssueList.cons
            (fun j => numlikeDec (dIssueF f j) j Issue.ofPos))
          (fun j => (numlikeDec (dIssueF f j) j Issue.ofPos).map
            (fun c => IssueList.cons c .nil))
        let season ← dFlat (lookupKey kvs "season") SeasonList.nil
          (mapDecInto SeasonList.nil SeasonList.cons
            (fun j => numlikeDec (dSeasonF f j) j Season.ofPos))
          (fun j => (numlikeDec (dSeasonF f j) j Season.ofPos).map
            (fun c => SeasonList.cons c .nil))
        let story_arc ← dFlat (lookupKey kvs "storyArc") StoryArcList.nil
          (mapDecInto StoryArcList.nil StoryArcList.cons
            (fun j => numlikeDec (dStoryArcF f j) j StoryArc.ofPos))
          (fun j => (numlikeDec (dStoryArcF f j) j StoryArc.ofPos).map
            (fun c => StoryArcList.cons c .nil))
        let volume ← dFlat (lookupKey kvs "volume") VolumeList.nil
          (mapDecInto VolumeList.nil VolumeList.cons
            (fun j => numlikeDec (dVolumeF f j) j Volume.ofPos))
          (fun j => (numlikeDec (dVolumeF f j) j Volume.ofPos).map
            (fun c => VolumeList.cons c .nil))
        let name ← dReq "name" name?
        .ok (.mk name sort_as identifier alt_identifier position links chapter episode
          issue season story_arc volume)
    | _ => .error (.shape "object")

def dSeasonF : Nat → Json → Except Err Season
  | 0, _ => .error .depthLimit
  | f + 1, j =>
    match j with
    | .obj kvs => do
        let name ← dOpt (lookupKey kvs "name") decodeSWA
        let sort_as ← dOpt (lookupKey kvs "sortAs") decodeSWA
        let identifier ← dOpt (lookupKey kvs "identifier") decodeIdentifier
        let alt_identifier ← dFlat (lookupKey kvs "altIdentifier") []
          (mapDecInto [] List.cons decAltIdElem) (fun j => (decAltIdElem j).map ([·]))
        let position? ← dPres (lookupKey kvs "position") decNat
        let links ← dVec (lookupKey kvs "links") [] (mapDecInto [] List.cons decodeLink)
        let article ← dFlat (lookupKey kvs "article") []
          (mapDecInto [] List.cons decArticleElem) (fun j => (decArticleElem j).map ([·]))
        let chapter ← dFlat (lookupKey kvs "chapter") ChapterList.nil
          (mapDecInto ChapterList.nil ChapterList.cons
            (fun j => numlikeDec (dChapterF f j) j Chapter.ofPos))
          (fun j => (numlikeDec (dChapterF f j) j Chapter.ofPos).map
            (fun c => ChapterList.cons c .nil))
        let position ← dReq "position" position?
        .ok (.mk name sort_as identifier alt_identifier position links article chapter)
    | _ => .error (.shape "object")

def dStoryArcF : Nat → Json → Except Err StoryArc
  | 0, _ => .error .depthLimit
  | f + 1, j =>
    match j with
    | .obj kvs => do
        let name ← dOpt (lookupKey kvs "name") decodeSWA
        let sort_as ← dOpt (lookupKey kvs "sortAs") decodeSWA
        let identifier ← dOpt (lookupKey kvs "identifier") decodeIdentifier
        let alt_identifier ← dFlat (lookupKey kvs "altIdentifier") []
          (mapDecInto [] List.cons decAltIdElem) (fun j => (decAltIdElem j).map ([·]))
        let position? ← dPres (lookupKey kvs "position") decNat
        let links ← dVec (lookupKey kvs "links") [] (mapDecInto [] List.cons decodeLink)
        let chapter ← dFlat (lookupKey kvs "chapter") ChapterList.nil
          (mapDecInto ChapterList.nil ChapterList.cons
            (fun j => numlikeDec (dChapterF f j) j Chapter.ofPos))
          (fun j => (numlikeDec (dChapterF f j) j Chapter.ofPos).map
            (fun c => ChapterList.cons c .nil))
        let issue ← dFlat (lookupKey kvs "issue") IssueList.nil
          (mapDecInto IssueList.nil IssueList.cons
            (fun j => numlikeDec (dIssueF f j) j Issue.ofPos))
          (fun j => (numlikeDec (dIssueF f j) j Issue.ofPos).map
            (fun c => IssueList.cons c .nil))
        let episode ← dFlat (lookupKey kvs "episode") []
          (mapDecInto [] List.cons decEpisodeElem) (fun j => (decEpisodeElem j).map ([·]))
        let position ← dReq "position" position?
        .ok (.mk name sort_as identifier alt_identifier position links chapter issue episode)
    | _ => .error (.shape "object")

def dVolumeF : Nat → Json → Except Err Volume
  | 0, _ => .error .depthLimit
  | f + 1, j =>
    match j with
    | .obj kvs => do
        let name ← dOpt (lookupKey kvs "name") decodeSWA
        let sort_as ← dOpt (lookupKey kvs "sortAs") decodeSWA
        let identifier ← dOpt (lookupKey kvs "identifier") decodeIdentifier
        let alt_identifier ← dFlat (lookupKey kvs "altIdentifier") []
          (mapDecInto [] List.cons decAltIdElem) (fun j => (decAltIdElem j).map ([·]))
        let position? ← dPres (lookupKey kvs "position") decNat
        let links ← dVec (lookupKey kvs "links") [] (mapDecInto [] List.cons decodeLink)
        let chapter ← dFlat (lookupKey kvs "chapter") ChapterList.nil
          (mapDecInto ChapterList.nil ChapterList.cons
            (fun j => numlikeDec (dChapterF f j) j Chapter.ofPos))
          (fun j => (numlikeDec (dChapterF f j) j Chapter.ofPos).map
            (fun c => ChapterList.cons c .nil))
        let issue ← dFlat (lookupKey kvs "issue") IssueList.nil
          (mapDecInto IssueList.nil IssueList.cons
            (fun j => numlikeDec (dIssueF f j) j Issue.ofPos))
          (fun j => (numlikeDec (dIssueF f j) j Issue.ofPos).map
            (fun c => IssueList.cons c .nil))
        let story_arc ← dFlat (lookupKey kvs "storyArc") StoryArcList.nil
          (mapDecInto StoryArcList.nil StoryArcList.cons
            (fun j => numlikeDec (dStoryArcF f j) j StoryArc.ofPos))
          (fun j => (numlikeDec (dStoryArcF f j) j StoryArc.ofPos).map
            (fun c => StoryArcList.cons c .nil))
        let position ← dReq "position" position?
        .ok (.mk name sort_as identifier alt_identifier position links chapter issue story_arc)
    | _ => .error (.shape "object")
end

def decodeIssue (j : Json) : Except Err Issue := dIssueF (jsonFuel j) j
def decodeChapter (j : Json) : Except Err Chapter := dChapterF (jsonFuel j) j
def decodeSeries (j : Json) : Except Err Series := dSeriesF (jsonFuel j) j
def decodeSeason (j : Json) : Except Err Season := dSeasonF (jsonFuel j) j
def decodeStoryArc (j : Json) : Except Err StoryArc := dStoryArcF (jsonFuel j) j
def decodeVolume (j : Json) : Except Err Volume := dVolumeF (jsonFuel j) j

/-! ## Periodical and the containment directions -/

structure Periodical where
  name : StringWithAlternates
  sort_as : Option StringWithAlternates
  identifier : Option Identifier
  alt_identifier : List AltIdentifier
  position : Option Nat
  links : List Link
  issue : List Issue
  volume : List Volume

/-- `Periodical::new` / `From<Cow<str>>`. -/
def Periodical.ofStr (s : String) : Periodical := ⟨.always s, none, none, [], none, [], [], []⟩

/-- Element codecs for flattened fields whose element types live in the
bibliographic block (object form first, then the shorthand). -/
def decIssueElem (j : Json) : Except Err Issue := numlikeDec (decodeIssue j) j .ofPos

def decChapterElem (j : Json) : Except Err Chapter := numlikeDec (decodeChapter j) j .ofPos

def decSeriesElem (j : Json) : Except Err Series := stringyDec (decodeSeries j) j .ofStr

def decSeasonElem (j : Json) : Except Err Season := numlikeDec (decodeSeason j) j .ofPos

def decStoryArcElem (j : Json) : Except Err StoryArc := numlikeDec (decodeStoryArc j) j .ofPos

def decVolumeElem (j : Json) : Except Err Volume := numlikeDec (decodeVolume j) j .ofPos

def decCollectionElem (j : Json) : Except Err Collection :=
  stringyDec (decodeCollection j) j .ofStr

/-- The subtitle element codec (`deserialize_flattened_vec_stringy` with
`T = StringWithAlternates`; the object stage already accepts bare strings,
so the string fallback stage is unreachable but modelled). -/
def decSWAElem (j : Json) : Except Err StringWithAlternates :=
  stringyDec (decodeSWA j) j .ofStr

def periodicalFields (p : Periodical) : JsonObj :=
  objOf [reqF "name" (encodeSWA p.name),
         optF "sortAs" (p.sort_as.map encodeSWA),
         optF "identifier" (p.identifier.map encodeIdentifier),
         vecF "altIdentifier" (encListJ encodeAltIdentifier p.alt_identifier),
         optF "position" (p.position.map jNat),
         vecF "links" (encListJ encodeLink p.links),
         vecF "issue" (encListJ encodeIssue p.issue),
         vecF "volume" (encListJ encodeVolume p.volume)]

def encodePeriodical (p : Periodical) : Json := .obj (periodicalFields p)

def decodePeriodical : Json → Except Err Periodical
  | .obj kvs => do
      let name? ← dPres (lookupKey kvs "name") decodeSWA
      let sort_as ← dOpt (lookupKey kvs "sortAs") decodeSWA
      let identifier ← dOpt (lookupKey kvs "identifier") decodeIdentifier
      let alt_identifier ← dFlat (lookupKey kvs "altIdentifier") []
        (mapDecInto [] List.cons decAltIdElem) (fun j => (decAltIdElem j).map ([·]))
      let position ← dOpt (lookupKey kvs "position") decNat
      let links ← dVec (lookupKey kvs "links") [] (mapDecInto [] List.cons decodeLink)
      let issue ← dFlat (lookupKey kvs "issue") []
        (mapDecInto [] List.cons decIssueElem) (fun j => (decIssueElem j).map ([·]))
      let volume ← dFlat (lookupKey kvs "volume") []
        (mapDecInto [] List.cons decVolumeElem) (fun j => (decVolumeElem j).map ([·]))
      let name ← dReq "name" name?
      .ok ⟨name, sort_as, identifier, alt_identifier, position, links, issue, volume⟩
  | _ => .error (.shape "object")

def decPeriodicalElem (j : Json) : Except Err Periodical :=
  stringyDec (decodePeriodical j) j .ofStr

/-- `BelongsTo`. -/
structure BelongsTo where
  collection : List Collection
  journal : List Periodical
  magazine : List Periodical
  newspaper : List Periodical
  periodical : List Periodical
  season : List Season
  series : List Series
  story_arc : List StoryArc
  volume : List Volume

/-- `Default for BelongsTo` (derived). -/
def BelongsTo.default : BelongsTo := ⟨[], [], [], [], [], [], [], [], []⟩

def belongsToFields (b : BelongsTo) : JsonObj :=
  objOf [vecF "collection" (encListJ encodeCollection b.collection),
         vecF "journal" (encListJ encodePeriodical b.journal),
         vecF "magazine" (encListJ encodePeriodical b.magazine),
         vecF "newspaper" (encListJ encodePeriodical b.newspaper),
         vecF "periodical" (encListJ encodePeriodical b.periodical),
         vecF "season" (encListJ encodeSeason b.season),
         vecF "series" (encListJ encodeSeries b.series),
         vecF "storyArc" (encListJ encodeStoryArc b.story_arc),
         vecF "volume" (encListJ encodeVolume b.volume)]

def encodeBelongsTo (b : BelongsTo) : Json := .obj (belongsToFields b)

def decodeBelongsTo : Json → Except Err BelongsTo
  | .obj kvs => do
      let collection ← dFlat (lookupKey kvs "collection") []
        (mapDecInto [] List.cons decCollectionElem) (fun j => (decCollectionElem j).map ([·]))
      let journal ← dFlat (lookupKey kvs "journal") []
        (mapDecInto [] List.cons decPeriodicalElem) (fun j => (decPeriodicalElem j).map ([·]))
      let magazine ← dFlat (lookupKey kvs "magazine") []
        (mapDecInto [] List.cons decPeriodicalElem) (fun j => (decPeriodicalElem j).map ([·]))
      let newspaper ← dFlat (lookupKey kvs "newspaper") []
        (mapDecInto [] List.cons decPeriodicalElem) (fun j => (decPeriodicalElem j).map ([·]))
      let periodical ← dFlat (lookupKey kvs "periodical") []
        (mapDecInto [] List.cons decPeriodicalElem) (fun j => (decPeriodicalElem j).map ([·]))
      let season ← dFlat (lookupKey kvs "season") []
        (mapDecInto [] List.cons decSeasonElem) (fun j => (decSeasonElem j).map ([·]))
      let series ← dFlat (lookupKey kvs "series") []
        (mapDecInto [] List.cons decSeriesElem) (fun j => (decSeriesElem j).map ([·]))
      let story_arc ← dFlat (lookupKey kvs "storyArc") []
        (mapDecInto [] List.cons decStoryArcElem) (fun j => (decStoryArcElem j).map ([·]))
      let volume ← dFlat (lookupKey kvs "volume") []
        (mapDecInto [] List.cons decVolumeElem) (fun j => (decVolumeElem j).map ([·]))
      .ok ⟨collection, journal, magazine, newspaper, periodical, season, series,
        story_arc, volume⟩
  | _ => .error (.shape "object")

/-- `Contains`. -/
structure Contains where
  article : List Article
  chapter : List Chapter
  episode : List Episode
  issue : List Issue
  season : List Season
  series : List Series
  story_arc : List StoryArc
  volume : List Volume

/-- `Default for Contains` (derived). -/
def Contains.default : Contains := ⟨[], [], [], [], [], [], [], []⟩

def containsFields (c : Contains) : JsonObj :=
  objOf [vecF "article" (encListJ encodeArticle c.article),
         vecF "chapter" (encListJ encodeChapter c.chapter),
         vecF "episode" (encListJ encodeEpisode c.episode),
         vecF "issue" (encListJ encodeIssue c.issue),
         vecF "season" (encListJ encodeSeason c.season),
         vecF "series" (encListJ encodeSeries c.series),
         vecF "storyArc" (encListJ encodeStoryArc c.story_arc),
         vecF "volume" (encListJ encodeVolume c.volume)]

def encodeContains (c : Contains) : Json := .obj (containsFields c)

def decodeContains : Json → Except Err Contains
  | .obj kvs => do
      let article ← dFlat (lookupKey kvs "article") []
        (mapDecInto [] List.cons decArticleElem) (fun j => (decArticleElem j).map ([·]))
      let chapter ← dFlat (lookupKey kvs "chapter") []
        (mapDecInto [] List.cons decChapterElem) (fun j => (decChapterElem j).map ([·]))
      let episode ← dFlat (lookupKey kvs "episode") []
        (mapDecInto [] List.cons decEpisodeElem) (fun j => (decEpisodeElem j).map ([·]))
      let issue ← dFlat (lookupKey kvs "issue") []
        (mapDecInto [] List.cons decIssueElem) (fun j => (decIssueElem j).map ([·]))
      let season ← dFlat (lookupKey kvs "season") []
        (mapDecInto [] List.cons decSeasonElem) (fun j => (decSeasonElem j).map ([·]))
      let series ← dFlat (lookupKey kvs "series") []
        (mapDecInto [] List.cons decSeriesElem) (fun j => (decSeriesElem j).map ([·]))
      let story_arc ← dFlat (lookupKey kvs "storyArc") []
        (mapDecInto [] List.cons decStoryArcElem) (fun j => (decStoryArcElem j).map ([·]))
      let volume ← dFlat (lookupKey kvs "volume") []
        (mapDecInto [] List.cons decVolumeElem) (fun j => (decVolumeElem j).map ([·]))
      .ok ⟨article, chapter, episode, issue, season, series, story_arc, volume⟩
  | _ => .error (.shape "object")

/-! ## Feed and publication metadata -/

structure FeedMetadata where
  title : StringWithAlternates
  subtitle : List StringWithAlternates
  identifier : Option String
  schema : Option String
  modified : Option String
  description : Option String
  items_per_page : Option Nat
  current_page : Option Nat
  number_of_items : Option Nat

/-- `FeedMetadata::new`. -/
def FeedMetadata.ofTitle (t : StringWithAlternates) : FeedMetadata :=
  ⟨t, [], none, none, none, none, none, none, none⟩

def feedMetadataFields (m : FeedMetadata) : JsonObj :=
  objOf [reqF "title" (encodeSWA m.title),
         vecF "subtitle" (encListJ encodeSWA m.subtitle),
         optF "identifier" (m.identifier.map encodeUrl),
         optF "@type" (m.schema.map Json.str),
         optF "modified" (m.modified.map Json.str),
         optF "description" (m.description.map Json.str),
         optF "itemsPerPage" (m.items_per_page.map jNat),
         optF "currentPage" (m.current_page.map jNat),
         optF "numberOfItems" (m.number_of_items.map jNat)]

def encodeFeedMetadata (m : FeedMetadata) : Json := .obj (feedMetadataFields m)

def decodeFeedMetadata : Json → Except Err FeedMetadata
  | .obj kvs => do
      let title? ← dPres (lookupKey kvs "title") decodeSWA
      let subtitle ← dFlat (lookupKey kvs "subtitle") []
        (mapDecInto [] List.cons decSWAElem) (fun j => (decSWAElem j).map ([·]))
      let identifier ← dOpt (lookupKey kvs "identifier") decodeUrl
      let schema ← dOpt (lookupKey kvs "@type") decStr
      let modified ← dOpt (lookupKey kvs "modified") decStr
      let description ← dOpt (lookupKey kvs "description") decStr
      let items_per_page ← dOpt (lookupKey kvs "itemsPerPage") decNat
      let current_page ← dOpt (lookupKey kvs "currentPage") decNat
      let number_of_items ← dOpt (lookupKey kvs "numberOfItems") decNat
      let title ← dReq "title" title?
      .ok ⟨title, subtitle, identifier, schema, modified, description, items_per_page,
        current_page, number_of_items⟩
  | _ => .error (.shape "object")

structure PublicationMetadata where
  schema : Option String
  conforms_to : List String
  title : StringWithAlternates
  sort_as : Option StringWithAlternates
  subtitle : Option StringWithAlternates
  author : List Contributor
  description : Option String
  identifier : Option String
  alt_identifier : List AltIdentifier
  accessibility : Option AccessibilityMetadata
  modified : Option String
  published : Option String
  language : List String
  subject : List Subject
  layout : Option PublicationLayout
  reading_progression : Option ReadingProgression
  duration : Option Nat
  abridged : Option Bool
  number_of_pages : Option Nat
  belongs_to : Option BelongsTo
  contains : Option Contains
  tdm : Option DataMining
  translator : List Contributor
  editor : List Contributor
  artist : List Contributor
  illustrator : List Contributor
  letterer : List Contributor
  penciler : List Contributor
  colorist : List Contributor
  inker : List Contributor
  narrator : List Contributor
  contributor : List Contributor
  publisher : List Contributor
  imprint : List Contributor

def pubMetadataFields (m : PublicationMetadata) : JsonObj :=
  objOf [optF "@type" (m.schema.map Json.str),
         vecF "conformsTo" (encListJ encodeUrl m.conforms_to),
         reqF "title" (encodeSWA m.title),
         optF "sortAs" (m.sort_as.map encodeSWA),
         optF "subtitle" (m.subtitle.map encodeSWA),
         vecF "author" (encListJ encodeContributor m.author),
         optF "description" (m.description.map Json.str),
         optF "identifier" (m.identifier.map encodeUrl),
         vecF "altIdentifier" (encListJ encodeAltIdentifier m.alt_identifier),
         optF "accessibility" (m.accessibility.map encodeAccessibility),
         optF "modified" (m.modified.map Json.str),
         optF "published" (m.published.map Json.str),
         vecF "language" (encListJ Json.str m.language),
         vecF "subject" (encListJ encodeSubject m.subject),
         optF "layout" (m.layout.map encodePublicationLayout),
         optF "readingProgression" (m.reading_progression.map encodeReadingProgression),
         optF "duration" (m.duration.map jNat),
         optF "abridged" (m.abridged.map Json.bool),
         optF "numberOfPages" (m.number_of_pages.map jNat),
         optF "belongsTo" (m.belongs_to.map encodeBelongsTo),
         optF "contains" (m.contains.map encodeContains),
         optF "tdm" (m.tdm.map encodeDataMining),
         vecF "translator" (encListJ encodeContributor m.translator),
         vecF "editor" (encListJ encodeContributor m.editor),
         vecF "artist" (encListJ encodeContributor m.artist),
         vecF "illustrator" (encListJ encodeContributor m.illustrator),
         vecF "letterer" (encListJ encodeContributor m.letterer),
         vecF "penciler" (encListJ encodeContributor m.penciler),
         vecF "colorist" (encListJ encodeContributor m.colorist),
         vecF "inker" (encListJ encodeContributor m.inker),
         vecF "narrator" (encListJ encodeContributor m.narrator),
         vecF "contributor" (encListJ encodeContributor m.contributor),
         vecF "publisher" (encListJ encodeContributor m.publisher),
         vecF "imprint" (encListJ encodeContributor m.imprint)]

def encodePubMetadata (m : PublicationMetadata) : Json := .obj (pubMetadataFields m)

def decodePubMetadata : Json → Except Err PublicationMetadata
  | .obj kvs => do
      let schema ← dOpt (lookupKey kvs "@type") decStr
      let conforms_to ← dVec (lookupKey kvs "conformsTo") []
        (mapDecInto [] List.cons decodeUrl)
      let title? ← dPres (lookupKey kvs "title") decodeSWA
      let sort_as ← dOpt (lookupKey kvs "sortAs") decodeSWA
      let subtitle ← dOpt (lookupKey kvs "subtitle") decodeSWA
      let author ← dFlat (lookupKey kvs "author") []
        (mapDecInto [] List.cons decContributorElem)
        (fun j => (decContributorElem j).map ([·]))
      let description ← dOpt (lookupKey kvs "description") decStr
      let identifier ← dOpt (lookupKey kvs "identifier") decodeUrl
      let alt_identifier ← dFlat (lookupKey kvs "altIdentifier") []
        (mapDecInto [] List.cons decAltIdElem) (fun j => (decAltIdElem j).map ([·]))
      let accessibility ← dOpt (lookupKey kvs "accessibility") decodeAccessibility
      let modified ← dOpt (lookupKey kvs "modified") decStr
      let published ← dOpt (lookupKey kvs "published") decStr
      let language ← dFlat (lookupKey kvs "language") []
        (mapDecInto [] List.cons decLang) (fun j => (decLang j).map ([·]))
      let subject ← dVec (lookupKey kvs "subject") []
        (mapDecInto [] List.cons decodeSubject)
      let layout ← dOpt (lookupKey kvs "layout") decodePublicationLayout
      let reading_progression ← dOpt (lookupKey kvs "readingProgression")
        decodeReadingProgression
      let duration ← dOpt (lookupKey kvs "duration") decNat
      let abridged ← dOpt (lookupKey kvs "abridged") decBool
      let number_of_pages ← dOpt (lookupKey kvs "numberOfPages") decNat
      let belongs_to ← dOpt (lookupKey kvs "belongsTo") decodeBelongsTo
      let contains ← dOpt (lookupKey kvs "contains") decodeContains
      let tdm ← dOpt (lookupKey kvs "tdm") decodeDataMining
      let translator ← dFlat (lookupKey kvs "translator") []
        (mapDecInto [] List.cons decContributorElem)
        (fun j => (decContributorElem j).map ([·]))
      let editor ← dFlat (lookupKey kvs "editor") []
        (mapDecInto [] List.cons decContributorElem)
        (fun j => (decContributorElem j).map ([·]))
      let artist ← dFlat (lookupKey kvs "artist") []
        (mapDecInto [] List.cons decContributorElem)
        (fun j => (decContributorElem j).map ([·]))
      let illustrator ← dFlat (lookupKey kvs "illustrator") []
        (mapDecInto [] List.cons decContributorElem)
        (fun j => (decContributorElem j).map ([·]))
      let letterer ← dFlat (lookupKey kvs "letterer") []
        (mapDecInto [] List.cons decContributorElem)
        (fun j => (decContributorElem j).map ([·]))
      let penciler ← dFlat (lookupKey kvs "penciler") []
        (mapDecInto [] List.cons decContributorElem)
        (fun j => (decContributorElem j).map ([·]))
      let colorist ← dFlat (lookupKey kvs "colorist") []
        (mapDecInto [] List.cons decContributorElem)
        (fun j => (decContributorElem j).map ([·]))
      let inker ← dFlat (lookupKey kvs "inker") []
        (mapDecInto [] List.cons decContributorElem)
        (fun j => (decContributorElem j).map ([·]))
      let narrator ← dFlat (lookupKey kvs "narrator") []
        (mapDecInto [] List.cons decContributorElem)
        (fun j => (decContributorElem j).map ([·]))
      let contributor ← dFlat (lookupKey kvs "contributor") []
        (mapDecInto [] List.cons decContributorElem)
        (fun j => (decContributorElem j).map ([·]))
      let publisher ← dFlat (lookupKey kvs "publisher") []
        (mapDecInto [] List.cons decContributorElem)
        (fun j => (decContributorElem j).map ([·]))
      let imprint ← dFlat (lookupKey kvs "imprint") []
        (mapDecInto [] List.cons decContributorElem)
        (fun j => (decContributorElem j).map ([·]))
      let title ← dReq "title" title?
      .ok ⟨schema, conforms_to, title, sort_as, subtitle, author, description, identifier,
        alt_identifier, accessibility, modified, published, language, subject, layout,
        reading_progression, duration, abridged, number_of_pages, belongs_to, contains,
        tdm, translator, editor, artist, illustrator, letterer, penciler, colorist,
        inker, narrator, contributor, publisher, imprint⟩
  | _ => .error (.shape "object")

/-! ## Publication, Facet, FeedGroup, Feed -/

structure Publication where
  metadata : PublicationMetadata
  links : List Link
  images : List Link

def publicationFields (p : Publication) : JsonObj :=
  objOf [reqF "metadata" (encodePubMetadata p.metadata),
         reqF "links" (.arr (encListJ encodeLink p.links)),
         vecF "images" (encListJ encodeLink p.images)]

def encodePublication (p : Publication) : Json := .obj (publicationFields p)

def decodePublication : Json → Except Err Publication
  | .obj kvs => do
      let metadata? ← dPres (lookupKey kvs "metadata") decodePubMetadata
      let links ← dVecReq "links" (lookupKey kvs "links")
        (mapDecInto [] List.cons decodeLink)
      let images ← dVec (lookupKey kvs "images") [] (mapDecInto [] List.cons decodeLink)
      let metadata ← dReq "metadata" metadata?
      .ok ⟨metadata, links, images⟩
  | _ => .error (.shape "object")

structure Facet where
  metadata : FeedMetadata
  links : List Link

def facetFields (fa : Facet) : JsonObj :=
  objOf [reqF "metadata" (encodeFeedMetadata fa.metadata),
         reqF "links" (.arr (encListJ encodeLink fa.links))]

def encodeFacet (fa : Facet) : Json := .obj (facetFields fa)

def decodeFacet : Json → Except Err Facet
  | .obj kvs => do
      let metadata? ← dPres (lookupKey kvs "metadata") decodeFeedMetadata
      let links ← dVecReq "links" (lookupKey kvs "links")
        (mapDecInto [] List.cons decodeLink)
      let metadata ← dReq "metadata" metadata?
      .ok ⟨metadata, links⟩
  | _ => .error (.shape "object")

structure FeedGroup where
  metadata : FeedMetadata
  links : List Link
  navigation : List Link
  publications : List Publication

def feedGroupFields (g : FeedGroup) : JsonObj :=
  objOf [reqF "metadata" (encodeFeedMetadata g.metadata),
         vecF "links" (encListJ encodeLink g.links),
         vecF "navigation" (encListJ encodeLink g.navigation),
         vecF "publications" (encListJ encodePublication g.publications)]

def encodeFeedGroup (g : FeedGroup) : Json := .obj (feedGroupFields g)

def decodeFeedGroup : Json → Except Err FeedGroup
  | .obj kvs => do
      let metadata? ← dPres (lookupKey kvs "metadata") decodeFeedMetadata
      let links ← dVec (lookupKey kvs "links") [] (mapDecInto [] List.cons decodeLink)
      let navigation ← dVec (lookupKey kvs "navigation") []
        (mapDecInto [] List.cons decodeLink)
      let publications ← dVec (lookupKey kvs "publications") []
        (mapDecInto [] List.cons decodePublication)
      let metadata ← dReq "metadata" metadata?
      .ok ⟨metadata, links, navigation, publications⟩
  | _ => .error (.shape "object")

/-- The main OPDS feed (the root of the Entity Tree). -/
structure Feed where
  metadata : FeedMetadata
  links : List Link
  navigation : List Link
  facets : List Facet
  publications : List Publication
  groups : List FeedGroup

def feedFields (fe : Feed) : JsonObj :=
  objOf [reqF "metadata" (encodeFeedMetadata fe.metadata),
         vecF "links" (encListJ encodeLink fe.links),
         vecF "navigation" (encListJ encodeLink fe.navigation),
         vecF "facets" (encListJ encodeFacet fe.facets),
         vecF "publications" (encListJ encodePublication fe.publications),
         vecF "groups" (encListJ encodeFeedGroup fe.groups)]

/-- The Codec's encode operation on a whole document (total by
construction: no error type appears anywhere on the encode path). -/
def encodeFeed (fe : Feed) : Json := .obj (feedFields fe)

/-- The Codec's parse operation on a whole document. -/
def decodeFeed : Json → Except Err Feed
  | .obj kvs => do
      let metadata? ← dPres (lookupKey kvs "metadata") decodeFeedMetadata
      let links ← dVec (lookupKey kvs "links") [] (mapDecInto [] List.cons decodeLink)
      let navigation ← dVec (lookupKey kvs "navigation") []
        (mapDecInto [] List.cons decodeLink)
      let facets ← dVec (lookupKey kvs "facets") [] (mapDecInto [] List.cons decodeFacet)
      let publications ← dVec (lookupKey kvs "publications") []
        (mapDecInto [] List.cons decodePublication)
      let groups ← dVec (lookupKey kvs "groups") []
        (mapDecInto [] List.cons decodeFeedGroup)
      let metadata ← dReq "metadata" metadata?
      .ok ⟨metadata, links, navigation, facets, publications, groups⟩
  | _ => .error (.shape "object")

/-! ## Validity of Entity Trees

`valid*` captures the invariants a tree produced by the Rust types and the
resolver always satisfies: relation tags are in resolver-canonical form
("raw strings never reach the tree un-resolved", spec section 3),
localized-string maps are sorted by tag with unique keys (spec section
4.3, enforced by `BTreeMap`), every `url::Url`-typed value carries an
accepted URL string (enforced by the `url::Url` type), and identifiers are
in `Url` form (the shape the untagged `Identifier` parser can produce). -/

def validRelation : Relation → Bool
  | .custom s => decide (resolveRelation s = .custom s)
  | _ => true

def keysSorted : List (String × String) → Bool
  | [] => true
  | [(_, _)] => true
  | (k1, _) :: (k2, v2) :: tl => decide (k1 < k2) && keysSorted ((k2, v2) :: tl)

def validSWA : StringWithAlternates → Bool
  | .always _ => true
  | .variants ts => keysSorted ts.choices

def validIdentifier : Identifier → Bool
  | .url s => schemeOk s
  | .urn _ => false

def validAltIdentifier (a : AltIdentifier) : Bool :=
  a.scheme.all schemeOk

def validAccessibility (a : AccessibilityMetadata) : Bool :=
  a.conforms_to.all schemeOk

def validDataMining (d : DataMining) : Bool :=
  d.policy.all schemeOk

mutual
def validLink : Link → Bool
  | .mk _ _ _ _ rel _ _ _ _ _ _ _ alternate children =>
      rel.all validRelation && validLinkList alternate && validLinkList children

def validLinkList : LinkList → Bool
  | .nil => true
  | .cons l tl => validLink l && validLinkList tl
end

def validContributor (c : Contributor) : Bool :=
  validSWA c.name && c.sort_as.all validSWA && c.identifier.all validIdentifier &&
    c.alt_identifier.all validAltIdentifier && c.links.all validLink

def validEpisode (e : Episode) : Bool :=
  e.name.all validSWA && e.sort_as.all validSWA && e.identifier.all validIdentifier &&
    e.alt_identifier.all validAltIdentifier && e.links.all validLink

def validCollection (c : Collection) : Bool :=
  validSWA c.name && c.sort_as.all validSWA && c.identifier.all validIdentifier &&
    c.alt_identifier.all validAltIdentifier && c.links.all validLink

def validSubject (s : Subject) : Bool :=
  validSWA s.name && s.sort_as.all validSWA && s.scheme.all schemeOk &&
    s.links.all validLink

def validArticle (a : Article) : Bool :=
  validSWA a.name && a.sort_as.all validSWA && a.identifier.all validIdentifier &&
    a.alt_identifier.all validAltIdentifier && a.author.all validContributor &&
    a.translator.all validContributor && a.editor.all validContributor &&
    a.artist.all validContributor && a.illustrator.all validContributor &&
    a.contributor.all validContributor && a.links.all validLink

mutual
def validIssue : Issue → Bool
  | .mk name sort_as identifier alt_identifier _ links article chapter =>
      name.all validSWA && sort_as.all validSWA && identifier.all validIdentifier &&
        alt_identifier.all validAltIdentifier && links.all validLink &&
        article.all validArticle && validChapterList chapter

def validChapter : Chapter → Bool
  | .mk name sort_as identifier alt_identifier _ links series =>
      name.all validSWA && sort_as.all validSWA && identifier.all validIdentifier &&
        alt_identifier.all validAltIdentifier && links.all validLink &&
        validSeriesList series

def validSeries : Series → Bool
  | .mk name sort_as identifier alt_identifier _ links chapter episode issue season
      story_arc volume =>
      validSWA name && sort_as.all validSWA && identifier.all validIdentifier &&
        alt_identifier.all validAltIdentifier && links.all validLink &&
        validChapterList chapter && episode.all validEpisode && validIssueList issue &&
        validSeasonList season && validStoryArcList story_arc && validVolumeList volume

def validSeason : Season → Bool
  | .mk name sort_as identifier alt_identifier _ links article chapter =>
      name.all validSWA && sort_as.all validSWA && identifier.all validIdentifier &&
        alt_identifier.all validAltIdentifier && links.all validLink &&
        article.all validArticle && validChapterList chapter

def validStoryArc : StoryArc → Bool
  | .mk name sort_as identifier alt_identifier _ links chapter issue episode =>
      name.all validSWA && sort_as.all validSWA && identifier.all validIdentifier &&
        alt_identifier.all validAltIdentifier && links.all validLink &&
        validChapterList chapter && validIssueList issue && episode.all validEpisode

def validVolume : Volume → Bool
  | .mk name sort_as identifier alt_identifier _ links chapter issue story_arc =>
      name.all validSWA && sort_as.all validSWA && identifier.all validIdentifier &&
        alt_identifier.all validAltIdentifier && links.all validLink &&
        validChapterList chapter && validIssueList issue && validStoryArcList story_arc

def validIssueList : IssueList → Bool
  | .nil => true
  | .cons a tl => validIssue a && validIssueList tl

def validChapterList : ChapterList → Bool
  | .nil => true
  | .cons a tl => validChapter a && validChapterList tl

def validSeriesList : SeriesList → Bool
  | .nil => true
  | .cons a tl => validSeries a && validSeriesList tl

def validSeasonList : SeasonList → Bool
  | .nil => true
  | .cons a tl => validSeason a && validSeasonList tl

def validStoryArcList : StoryArcList → Bool
  | .nil => true
  | .cons a tl => validStoryArc a && validStoryArcList tl

def validVolumeList : VolumeList → Bool
  | .nil => true
  | .cons a tl => validVolume a && validVolumeList tl
end

def validPeriodical (p : Periodical) : Bool :=
  validSWA p.name && p.sort_as.all validSWA && p.identifier.all validIdentifier &&
    p.alt_identifier.all validAltIdentifier && p.links.all validLink &&
    p.issue.all validIssue && p.volume.all validVolume

def validBelongsTo (b : BelongsTo) : Bool :=
  b.collection.all validCollection && b.journal.all validPeriodical &&
    b.magazine.all validPeriodical && b.newspaper.all validPeriodical &&
    b.periodical.all validPeriodical && b.season.all validSeason &&
    b.series.all validSeries && b.story_arc.all validStoryArc &&
    b.volume.all validVolume

def validContains (c : Contains) : Bool :=
  c.article.all validArticle && c.chapter.all validChapter &&
    c.episode.all validEpisode && c.issue.all validIssue &&
    c.season.all validSeason && c.series.all validSeries &&
    c.story_arc.all validStoryArc && c.volume.all validVolume

def validFeedMetadata (m : FeedMetadata) : Bool :=
  validSWA m.title && m.subtitle.all validSWA && m.identifier.all schemeOk

def validPubMetadata (m : PublicationMetadata) : Bool :=
  m.conforms_to.all schemeOk && validSWA m.title && m.sort_as.all validSWA &&
    m.subtitle.all validSWA && m.author.all validContributor &&
    m.identifier.all schemeOk && m.alt_identifier.all validAltIdentifier &&
    m.accessibility.all validAccessibility && m.subject.all validSubject &&
    m.belongs_to.all validBelongsTo && m.contains.all validContains &&
    m.tdm.all validDataMining && m.translator.all validContributor &&
    m.editor.all validContributor && m.artist.all validContributor &&
    m.illustrator.all validContributor && m.letterer.all validContributor &&
    m.penciler.all validContributor && m.colorist.all validContributor &&
    m.inker.all validContributor && m.narrator.all validContributor &&
    m.contributor.all validContributor && m.publisher.all validContributor &&
    m.imprint.all validContributor

def validPublication (p : Publication) : Bool :=
  validPubMetadata p.metadata && p.links.all validLink && p.images.all validLink

def validFacet (fa : Facet) : Bool :=
  validFeedMetadata fa.metadata && fa.links.all validLink

def validFeedGroup (g : FeedGroup) : Bool :=
  validFeedMetadata g.metadata && g.links.all validLink &&
    g.navigation.all validLink && g.publications.all validPublication

def validFeed (fe : Feed) : Bool :=
  validFeedMetadata fe.metadata && fe.links.all validLink &&
    fe.navigation.all validLink && fe.facets.all validFacet &&
    fe.publications.all validPublication && fe.groups.all validFeedGroup

/-! ## The omitted-when-empty property of encoder output (spec section 4.4) -/

def isNull : Json → Bool
  | .null => true
  | _ => false

def isEmptyArr : Json → Bool
  | .arr .nil => true
  | _ => false

def isFalse : Json → Bool
  | .bool false => true
  | _ => false

/-- The key names under which the encoder can emit an empty array. The
generic tree traversal below is by key name, not by the struct the entry
sits in: `accessMode`, `feature` and `hazard` occur only in accessibility
metadata, but `links` fields occur in many structs, and only
`Publication::links` and `Facet::links` lack `skip_serializing_if`. The
traversal therefore tolerates an empty array under any `links` key, and
the per-struct omission of the other (skip-when-empty) `links` fields is
stated separately, struct by struct, in the C3 theorem. -/
def allowedEmptyKey (k : String) : Bool :=
  k == "accessMode" || k == "feature" || k == "hazard" || k == "links"

/-- An emitted object entry never holds `null`, never holds an
empty-collection marker (except under `allowedEmptyKey`), and never holds
a default-false boolean flag (`templated`). -/
def entryOk (k : String) (v : Json) : Bool :=
  !isNull v && (!isEmptyArr v || allowedEmptyKey k) && (!(k == "templated") || !isFalse v)

mutual
def noEmptyJ : Json → Bool
  | .arr js => noEmptyL js
  | .obj kvs => noEmptyO kvs
  | _ => true

def noEmptyL : JsonList → Bool
  | .nil => true
  | .cons j tl => noEmptyJ j && noEmptyL tl

def noEmptyO : JsonObj → Bool
  | .nil => true
  | .cons k v tl => entryOk k v && noEmptyJ v && noEmptyO tl
end

/-! ## Concrete trees and documents used below -/

/-- `PublicationMetadata::new`. -/
def PublicationMetadata.ofTitle (t : StringWithAlternates) : PublicationMetadata :=
  ⟨none, [], t, none, none, [], none, none, [], none, none, none, [], [], none, none,
   none, none, none, none, none, none, [], [], [], [], [], [], [], [], [], [], [], []⟩

/-- The fixed relation table, spelling by spelling. -/
def fixedRelationTable : List (String × Relation) :=
  [("self", .myself), ("alternate", .alternate), ("contents", .contents),
   ("cover", .cover), ("manifest", .manifest), ("profile", .profile),
   ("first", .first), ("previous", .previous), ("next", .next), ("last", .last),
   ("current", .current), ("search", .search), ("subsection", .subsection),
   ("http://opds-spec.org/sort/new", .sortNew),
   ("http://opds-spec.org/sort/popular", .sortPopular)]

/-- The acquisition relation table, spelling by spelling. -/
def acquisitionTable : List (String × AcquisitionKind) :=
  [("http://opds-spec.org/acquisition", .fallback),
   ("http://opds-spec.org/acquisition/open-access", .openAccess),
   ("http://opds-spec.org/acquisition/buy", .buy),
   ("http://opds-spec.org/acquisition/sample", .sample),
   ("http://opds-spec.org/acquisition/subscribe", .subscribe),
   ("preview", .preview)]

/-- Whether each non-`title` field read of `decodeFeedMetadata` succeeds on
the given metadata object. -/
def feedMetadataOthersOk (m : JsonObj) : Bool :=
  (dFlat (lookupKey m "subtitle") [] (mapDecInto [] List.cons decSWAElem)
    (fun j => (decSWAElem j).map ([·]))).isOk &&
  (dOpt (lookupKey m "identifier") decodeUrl).isOk &&
  (dOpt (lookupKey m "@type") decStr).isOk &&
  (dOpt (lookupKey m "modified") decStr).isOk &&
  (dOpt (lookupKey m "description") decStr).isOk &&
  (dOpt (lookupKey m "itemsPerPage") decNat).isOk &&
  (dOpt (lookupKey m "currentPage") decNat).isOk &&
  (dOpt (lookupKey m "numberOfItems") decNat).isOk

/-- Whether each non-`metadata` field read of `decodeFeed` succeeds on the
given feed object. Serde's derive errors eagerly in document order, so a
theorem pinning down one specific parse error must assume the other
present fields of the document are well-formed. -/
def feedOthersOk (kvs : JsonObj) : Bool :=
  (dVec (lookupKey kvs "links") [] (mapDecInto [] List.cons decodeLink)).isOk &&
  (dVec (lookupKey kvs "navigation") [] (mapDecInto [] List.cons decodeLink)).isOk &&
  (dVec (lookupKey kvs "facets") [] (mapDecInto [] List.cons decodeFacet)).isOk &&
  (dVec (lookupKey kvs "publications") []
    (mapDecInto [] List.cons decodePublication)).isOk &&
  (dVec (lookupKey kvs "groups") [] (mapDecInto [] List.cons decodeFeedGroup)).isOk

/-- A contributor whose identifier is a URN. -/
def contributorUrn : Contributor :=
  ⟨.always "Jane Doe", none, some (.urn "urn:isbn:0451450523"), [], [], []⟩

/-- The same contributor with the URN text as a `Url` identifier. -/
def contributorUrl : Contributor :=
  ⟨.always "Jane Doe", none, some (.url "urn:isbn:0451450523"), [], [], []⟩

def feedWithAuthor (c : Contributor) : Feed :=
  ⟨FeedMetadata.ofTitle (.always "Catalog"), [], [], [],
   [⟨{ PublicationMetadata.ofTitle (.always "Book") with author := [c] }, [], []⟩], []⟩

def feedUrn : Feed := feedWithAuthor contributorUrn

def feedUrl : Feed := feedWithAuthor contributorUrl

/-- A self link. -/
def linkSelf : Link :=
  .mk none (some "https://example.com/catalog") false (some "application/opds+json")
    [.myself] LinkProperties.default none none none none none [] .nil .nil

/-- A small but representative valid feed: localized title, a self link,
and a publication that belongs to season 3. -/
def exampleFeed : Feed :=
  ⟨⟨.variants ⟨[("en", "Catalog")]⟩, [], none, none, none, none,
    none, none, none⟩,
   [linkSelf], [], [],
   [⟨{ PublicationMetadata.ofTitle (.always "Book") with
        belongs_to := some { BelongsTo.default with season := [Season.ofPos 3] } },
     [linkSelf], []⟩],
   []⟩

/-- A Feed metadata object lacking `title` whose present `subtitle` field
is malformed (the number `5`). -/
def mNoTitle : JsonObj := .cons "subtitle" (jNat 5) .nil

/-- A document whose metadata lacks `title` and has a malformed field. -/
def docNoTitle : Json := .obj (.cons "metadata" (.obj mNoTitle) .nil)

/-- The object form of `{"name": "Drama", "position": 2}`. -/
def dramaObj : Json :=
  .obj (.cons "name" (.str "Drama") (.cons "position" (jNat 2) .nil))

/-- Accessibility metadata with every field absent or empty. -/
def emptyA11y : AccessibilityMetadata := ⟨[], none, [], [], [], none, none⟩

/-- Publication metadata carrying the empty accessibility object. -/
def pmA11y : PublicationMetadata :=
  { PublicationMetadata.ofTitle (.always "Book") with accessibility := some emptyA11y }

/-! # Theorems

## JSON infrastructure lemmas -/

@[simp]
theorem oOr_some (v : Json) (y : Option Json) : oOr (some v) y = some v := rfl

@[simp]
theorem oOr_none (y : Option Json) : oOr none y = y := rfl

@[simp]
theorem oOr_none_right (x : Option Json) : oOr x none = x := by
  cases x <;> rfl

theorem lookupKey_append (xs ys : JsonObj) (k : String) :
    lookupKey (xs.append ys) k = oOr (lookupKey xs k) (lookupKey ys k) := by
  match xs with
  | .nil => rfl
  | .cons k1 v tl =>
      by_cases h : k1 = k
      · simp [JsonObj.append, lookupKey, h]
      · simp only [JsonObj.append, lookupKey, h, ite_false, lookupKey_append tl ys k]

@[simp]
theorem lookupKey_objOf_cons (s : JsonObj) (rest : List JsonObj) (k : String) :
    lookupKey (objOf (s :: rest)) k = oOr (lookupKey s k) (lookupKey (objOf rest) k) := by
  simp [objOf, lookupKey_append]

@[simp]
theorem lookupKey_objOf_nil (k : String) : lookupKey (objOf []) k = none := rfl

theorem jsonFuelO_append (xs ys : JsonObj) :
    jsonFuelO (xs.append ys) = jsonFuelO xs + jsonFuelO ys := by
  match xs with
  | .nil => simp [JsonObj.append, jsonFuelO]
  | .cons k v tl =>
      simp only [JsonObj.append, jsonFuelO, jsonFuelO_append tl ys]
      omega

@[simp]
theorem jsonFuelO_objOf_cons (s : JsonObj) (rest : List JsonObj) :
    jsonFuelO (objOf (s :: rest)) = jsonFuelO s + jsonFuelO (objOf rest) := by
  simp [objOf, jsonFuelO_append]

@[simp]
theorem jsonFuelO_objOf_nil : jsonFuelO (objOf []) = 0 := rfl

/-! ## Lookup and fuel behaviour of the encode combinators -/

@[simp]
theorem lookupKey_optF (k k1 : String) (o : Option Json) :
    lookupKey (optF k1 o) k = if k1 = k then o else none := by
  cases o <;> by_cases h : k1 = k <;> simp [optF, lookupKey, h]

@[simp]
theorem lookupKey_reqF (k k1 : String) (j : Json) :
    lookupKey (reqF k1 j) k = if k1 = k then some j else none := by
  by_cases h : k1 = k <;> simp [reqF, lookupKey, h]

@[simp]
theorem lookupKey_vecF (k k1 : String) (js : JsonList) :
    lookupKey (vecF k1 js) k =
      if k1 = k then (match js with | .nil => none | js => some (.arr js)) else none := by
  cases js <;> by_cases h : k1 = k <;> simp [vecF, lookupKey, h]

@[simp]
theorem lookupKey_flatF (k k1 : String) (js : JsonList) :
    lookupKey (flatF k1 js) k =
      if k1 = k then
        (match js with
         | .nil => none
         | .cons x .nil => some x
         | js => some (.arr js))
      else none := by
  match js with
  | .nil => by_cases h : k1 = k <;> simp [flatF, lookupKey, h]
  | .cons x .nil => by_cases h : k1 = k <;> simp [flatF, lookupKey, h]
  | .cons x (.cons y tl) => by_cases h : k1 = k <;> simp [flatF, lookupKey, h]

@[simp]
theorem lookupKey_flagF (k k1 : String) (b : Bool) :
    lookupKey (flagF k1 b) k =
      if k1 = k then (cond b (some (.bool true)) none) else none := by
  cases b <;> by_cases h : k1 = k <;> simp [flagF, lookupKey, h]

@[simp]
theorem lookupKey_skipF (k k1 : String) (skip : Bool) (j : Json) :
    lookupKey (skipF k1 skip j) k =
      if k1 = k then (cond skip none (some j)) else none := by
  cases skip <;> by_cases h : k1 = k <;> simp [skipF, lookupKey, h]

@[simp]
theorem jsonFuelO_optF (k : String) (o : Option Json) :
    jsonFuelO (optF k o) = match o with | some j => 1 + jsonFuel j | none => 0 := by
  cases o <;> simp [optF, jsonFuelO]

@[simp]
theorem jsonFuelO_reqF (k : String) (j : Json) :
    jsonFuelO (reqF k j) = 1 + jsonFuel j := by
  simp [reqF, jsonFuelO]

theorem jsonFuelL_le_vecF (k : String) (js : JsonList) :
    jsonFuelL js ≤ jsonFuelO (vecF k js) := by
  cases js <;> simp [vecF, jsonFuelO, jsonFuel, jsonFuelL] <;> omega

theorem jsonFuelL_le_flatF (k : String) (js : JsonList) :
    jsonFuelL js ≤ jsonFuelO (flatF k js) := by
  match js with
  | .nil => simp [flatF, jsonFuelO, jsonFuelL]
  | .cons x .nil => simp [flatF, jsonFuelO, jsonFuelL] <;> omega
  | .cons x (.cons y tl) => simp [flatF, jsonFuelO, jsonFuel, jsonFuelL] <;> omega

/-! ## Round-trip behaviour of the decode combinators -/

theorem dOpt_map_v (o : Option α) (enc : α → Json) (dec : Json → Except Err α)
    (P : α → Bool) (hrt : ∀ a, P a = true → dec (enc a) = .ok a)
    (hnn : ∀ a, enc a ≠ .null) (hv : o.all P = true) :
    dOpt (o.map enc) dec = .ok o := by
  match o with
  | none => rfl
  | some a =>
      have h1 : dec (enc a) = .ok a := hrt a hv
      have h2 := hnn a
      cases hE : enc a <;> simp_all [dOpt, Except.map]

theorem dOpt_map_rt (o : Option α) (enc : α → Json) (dec : Json → Except Err α)
    (hrt : ∀ a, dec (enc a) = .ok a) (hnn : ∀ a, enc a ≠ .null) :
    dOpt (o.map enc) dec = .ok o :=
  dOpt_map_v o enc dec (fun _ => true) (fun a _ => hrt a) hnn (by cases o <;> rfl)

theorem dPres_map_some (a : α) (enc : α → Json) (dec : Json → Except Err α)
    (h : dec (enc a) = .ok a) :
    dPres (some (enc a)) dec = .ok (some a) := by
  simp [dPres, h, Except.map]

@[simp]
theorem dReq_some (k : String) (a : α) : dReq k (some a) = .ok a := rfl

theorem dVec_rt {L : Type} (xs : L) (eL : L → JsonList) (nilv : L)
    (decL : JsonList → Except Err L)
    (hnil : eL xs = .nil → xs = nilv)
    (h : decL (eL xs) = .ok xs) :
    dVec (match eL xs with | .nil => none | js => some (.arr js)) nilv decL = .ok xs := by
  cases hE : eL xs with
  | nil => simp [dVec, hnil hE]
  | cons j tl => rw [hE] at h; simp [dVec, h]

theorem dFlat_vecF_rt {L : Type} (xs : L) (eL : L → JsonList) (nilv : L)
    (decL : JsonList → Except Err L) (one : Json → Except Err L)
    (hnil : eL xs = .nil → xs = nilv)
    (h : decL (eL xs) = .ok xs) :
    dFlat (match eL xs with | .nil => none | js => some (.arr js)) nilv decL one = .ok xs := by
  cases hE : eL xs with
  | nil => simp [dFlat, hnil hE]
  | cons j tl => rw [hE] at h; simp [dFlat, h]

theorem dDef_rt (x deflt : α) (skip : Bool) (enc : α → Json) (dec : Json → Except Err α)
    (hd : skip = true → x = deflt) (h : dec (enc x) = .ok x) :
    dDef (cond skip none (some (enc x))) deflt dec = .ok x := by
  cases skip with
  | true => simp [dDef, hd rfl]
  | false => simp [dDef, h]

@[simp]
theorem dFlag_rt (b : Bool) : dFlag (cond b (some (.bool true)) none) = .ok b := by
  cases b <;> rfl

theorem dVecReq_rt {L : Type} (k : String) (xs : L) (eL : L → JsonList)
    (decL : JsonList → Except Err L) (h : decL (eL xs) = .ok xs) :
    dVecReq k (some (.arr (eL xs))) decL = .ok xs := by
  simp [dVecReq, h]

theorem encListJ_eq_nil (enc : α → Json) (xs : List α) :
    encListJ enc xs = .nil → xs = [] := by
  cases xs <;> simp [encListJ]

theorem mapDec_rt_v (xs : List α) (enc : α → Json) (dec : Json → Except Err α)
    (P : α → Bool) (hrt : ∀ a, P a = true → dec (enc a) = .ok a)
    (hv : xs.all P = true) :
    mapDecInto [] List.cons dec (encListJ enc xs) = .ok xs := by
  match xs with
  | [] => rfl
  | a :: tl =>
      simp only [List.all_cons, Bool.and_eq_true] at hv
      simp only [encListJ, mapDecInto, hrt a hv.1, mapDec_rt_v tl enc dec P hrt hv.2]
      rfl

theorem mapDec_rt (xs : List α) (enc : α → Json) (dec : Json → Except Err α)
    (hrt : ∀ a, dec (enc a) = .ok a) :
    mapDecInto [] List.cons dec (encListJ enc xs) = .ok xs :=
  mapDec_rt_v xs enc dec (fun _ => true) (fun a _ => hrt a)
    (by simp [List.all_eq_true])

theorem stringyDec_ok (a : α) (res : Except Err α) (j : Json) (fromStr : String → α)
    (h : res = .ok a) : stringyDec res j fromStr = .ok a := by
  simp [stringyDec, h]

theorem numlikeDec_ok (a : α) (res : Except Err α) (j : Json) (fromPos : Nat → α)
    (h : res = .ok a) : numlikeDec res j fromPos = .ok a := by
  simp [numlikeDec, h]

theorem opt_all_mem {p : α → Bool} {o : Option α} (h : o.all p = true) :
    ∀ a ∈ o, p a = true := by
  cases o with
  | none => intro a ha; cases ha
  | some b => intro a ha; cases ha; simpa [Option.all] using h

/-! ## Leaf codec round-trips -/

@[simp]
theorem rt_decStr (s : String) : decStr (.str s) = .ok s := rfl

@[simp]
theorem rt_decNat (n : Nat) : decNat (jNat n) = .ok n := by
  simp [decNat, jNat]

@[simp]
theorem rt_decQ (q : Rat) : decQ (.num q) = .ok q := rfl

@[simp]
theorem rt_decBool (b : Bool) : decBool (.bool b) = .ok b := rfl

@[simp]
theorem rt_decLang (s : String) : decLang (.str s) = .ok s := rfl

@[simp]
theorem dOpt_str (o : Option String) : dOpt (o.map Json.str) decStr = .ok o :=
  dOpt_map_rt o _ _ (fun _ => rfl) (fun _ h => Json.noConfusion h)

@[simp]
theorem dOpt_nat (o : Option Nat) : dOpt (o.map jNat) decNat = .ok o :=
  dOpt_map_rt o _ _ rt_decNat (fun _ h => Json.noConfusion h)

@[simp]
theorem dOpt_q (o : Option Rat) : dOpt (o.map Json.num) decQ = .ok o :=
  dOpt_map_rt o _ _ (fun _ => rfl) (fun _ h => Json.noConfusion h)

@[simp]
theorem dOpt_bool (o : Option Bool) : dOpt (o.map Json.bool) decBool = .ok o :=
  dOpt_map_rt o _ _ (fun _ => rfl) (fun _ h => Json.noConfusion h)

/-! ## Enumeration round-trips -/

@[simp]
theorem rt_pageDisplay (v : PageDisplay) :
    decodePageDisplay (encodePageDisplay v) = .ok v := by
  cases v <;> rfl

@[simp]
theorem rt_publicationLayout (v : PublicationLayout) :
    decodePublicationLayout (encodePublicationLayout v) = .ok v := by
  cases v <;> rfl

@[simp]
theorem rt_readingProgression (v : ReadingProgression) :
    decodeReadingProgression (encodeReadingProgression v) = .ok v := by
  cases v <;> rfl

@[simp]
theorem rt_availabilityState (v : AvailabilityState) :
    decodeAvailabilityState (encodeAvailabilityState v) = .ok v := by
  cases v <;> rfl

@[simp]
theorem rt_accessMode (v : AccessMode) :
    decodeAccessMode (encodeAccessMode v) = .ok v := by
  cases v <;> rfl

@[simp]
theorem rt_accessibilityExemption (v : AccessibilityExemption) :
    decodeAccessibilityExemption (encodeAccessibilityExemption v) = .ok v := by
  cases v <;> rfl

@[simp]
theorem rt_accessibilityFeature (v : AccessibilityFeature) :
    decodeAccessibilityFeature (encodeAccessibilityFeature v) = .ok v := by
  cases v <;> rfl

@[simp]
theorem rt_accessibilityHazard (v : AccessibilityHazard) :
    decodeAccessibilityHazard (encodeAccessibilityHazard v) = .ok v := by
  cases v <;> rfl

@[simp]
theorem rt_reservation (v : Reservation) :
    decodeReservation (encodeReservation v) = .ok v := by
  cases v <;> rfl

@[simp]
theorem dOpt_pageDisplay (o : Option PageDisplay) :
    dOpt (o.map encodePageDisplay) decodePageDisplay = .ok o :=
  dOpt_map_rt o _ _ rt_pageDisplay (fun a h => by cases a <;> exact Json.noConfusion h)

@[simp]
theorem dOpt_publicationLayout (o : Option PublicationLayout) :
    dOpt (o.map encodePublicationLayout) decodePublicationLayout = .ok o :=
  dOpt_map_rt o _ _ rt_publicationLayout (fun a h => by cases a <;> exact Json.noConfusion h)

@[simp]
theorem dOpt_readingProgression (o : Option ReadingProgression) :
    dOpt (o.map encodeReadingProgression) decodeReadingProgression = .ok o :=
  dOpt_map_rt o _ _ rt_readingProgression (fun a h => by cases a <;> exact Json.noConfusion h)

@[simp]
theorem dOpt_accessibilityExemption (o : Option AccessibilityExemption) :
    dOpt (o.map encodeAccessibilityExemption) decodeAccessibilityExemption = .ok o :=
  dOpt_map_rt o _ _ rt_accessibilityExemption
    (fun a h => by cases a <;> exact Json.noConfusion h)

/-! ## Relation round-trips -/

theorem rt_relation (r : Relation) (hv : validRelation r = true) :
    decodeRelation (encodeRelation r) = .ok r := by
  cases r with
  | acquisition k => cases k <;> rfl
  | custom s =>
      simp only [validRelation, decide_eq_true_eq] at hv
      simp [decodeRelation, encodeRelation, relationString, hv]
  | _ => rfl

theorem encodeRelation_ne_null (r : Relation) : encodeRelation r ≠ .null := by
  simp [encodeRelation]

/-! ## TaggedStrings and StringWithAlternates round-trips -/

theorem keysSorted_cons (p : String × String) (rest : List (String × String))
    (h : keysSorted (p :: rest) = true) :
    keysSorted rest = true ∧ ∀ q ∈ rest, p.1 < q.1 := by
  match rest with
  | [] => exact ⟨rfl, by intro q hq; cases hq⟩
  | q :: rest1 =>
      obtain ⟨p1, p2⟩ := p
      obtain ⟨q1, q2⟩ := q
      simp only [keysSorted, Bool.and_eq_true, decide_eq_true_eq] at h
      obtain ⟨hlt, hrest⟩ := h
      have ih := keysSorted_cons (q1, q2) rest1 hrest
      refine ⟨hrest, ?_⟩
      intro r hr
      rcases List.mem_cons.mp hr with hr | hr
      · subst hr; exact hlt
      · exact lt_trans hlt (ih.2 r hr)

theorem keysSorted_append_lt (xs : List (String × String)) (k : String) (v : String)
    (ys : List (String × String))
    (h : keysSorted (xs ++ (k, v) :: ys) = true) :
    ∀ p ∈ xs, p.1 < k := by
  match xs with
  | [] => intro p hp; cases hp
  | q :: xs1 =>
      intro p hp
      have hc := keysSorted_cons q (xs1 ++ (k, v) :: ys) h
      rcases List.mem_cons.mp hp with hp | hp
      · subst hp
        exact hc.2 (k, v) (by simp)
      · exact keysSorted_append_lt xs1 k v ys hc.1 p hp

theorem bInsert_append (k v : String) (acc : List (String × String))
    (h : ∀ p ∈ acc, p.1 < k) :
    bInsert k v acc = acc ++ [(k, v)] := by
  match acc with
  | [] => rfl
  | (k1, v1) :: tl =>
      have h1 : k1 < k := h (k1, v1) (by simp)
      have hnotlt : ¬k < k1 := by
        intro hcon
        exact absurd (lt_trans h1 hcon) (lt_irrefl k1)
      have hne : ¬k = k1 := fun he => absurd (he ▸ h1) (lt_irrefl k)
      simp only [bInsert, hnotlt, ite_false, hne,
        bInsert_append k v tl (fun p hp => h p (by simp [hp]))]
      simp

theorem tsFromObj_sorted (entries acc : List (String × String))
    (h : keysSorted (acc ++ entries) = true) :
    tsFromObj acc (tsObj entries) = .ok (acc ++ entries) := by
  match entries with
  | [] => simp [tsObj, tsFromObj]
  | (k, v) :: tl =>
      have hall := keysSorted_append_lt acc k v tl h
      have hstep : bInsert k v acc = acc ++ [(k, v)] := bInsert_append k v acc hall
      have hrec : keysSorted ((acc ++ [(k, v)]) ++ tl) = true := by
        simpa using h
      simp only [tsObj, tsFromObj, hstep, tsFromObj_sorted tl (acc ++ [(k, v)]) hrec]
      simp

theorem rt_taggedStrings (ts : TaggedStrings) (hv : keysSorted ts.choices = true) :
    decodeTaggedStrings (encodeTaggedStrings ts) = .ok ts := by
  obtain ⟨choices⟩ := ts
  simp [encodeTaggedStrings, decodeTaggedStrings,
    tsFromObj_sorted choices [] (by simpa using hv), Except.map]

theorem rt_swa (v : StringWithAlternates) (hv : validSWA v = true) :
    decodeSWA (encodeSWA v) = .ok v := by
  cases v with
  | always s => rfl
  | variants ts =>
      simp only [validSWA] at hv
      simp [encodeSWA, encodeTaggedStrings, decodeSWA]
      have := rt_taggedStrings ts hv
      simp [encodeTaggedStrings] at this
      simp [this, Except.map]

theorem encodeSWA_ne_null (v : StringWithAlternates) : encodeSWA v ≠ .null := by
  cases v <;> simp [encodeSWA, encodeTaggedStrings]

/-! ## URL and Identifier round-trips -/

theorem rt_url (s : String) (hv : schemeOk s = true) :
    decodeUrl (encodeUrl s) = .ok s := by
  simp [decodeUrl, encodeUrl, hv]

theorem rt_identifier (i : Identifier) (hv : validIdentifier i = true) :
    decodeIdentifier (encodeIdentifier i) = .ok i := by
  cases i with
  | url s =>
      simp only [validIdentifier] at hv
      simp [decodeIdentifier, encodeIdentifier, hv]
  | urn s => simp [validIdentifier] at hv

theorem encodeIdentifier_ne_null (i : Identifier) : encodeIdentifier i ≠ .null := by
  cases i <;> simp [encodeIdentifier]

theorem encodeUrl_ne_null (s : String) : encodeUrl s ≠ .null := by
  simp [encodeUrl]

/-! ## Struct round-trips: link-property leaves -/

@[simp]
theorem dPres_some (j : Json) (dec : Json → Except Err α) :
    dPres (some j) dec = (dec j).map some := rfl

@[simp]
theorem dPres_none (dec : Json → Except Err α) : dPres none dec = .ok none := rfl

@[simp]
theorem exMap_ok (f : α → β) (a : α) :
    Except.map (ε := Err) f (.ok a) = .ok (f a) := rfl

@[simp]
theorem dVec_some_arr {L : Type} (js : JsonList) (nilv : L)
    (decL : JsonList → Except Err L) : dVec (some (.arr js)) nilv decL = decL js := rfl

@[simp]
theorem dVec_none {L : Type} (nilv : L) (decL : JsonList → Except Err L) :
    dVec none nilv decL = .ok nilv := rfl

theorem rtPrice (p : Price) : decodePrice (encodePrice p) = .ok p := by
  obtain ⟨value, currency⟩ := p
  simp only [encodePrice, priceFields, decodePrice, lookupKey_objOf_cons, lookupKey_objOf_nil,
    lookupKey_reqF, String.reduceEq, ite_true, ite_false, oOr_some, oOr_none, oOr_none_right,
    dPres_some, rt_decQ, rt_decStr, exMap_ok, dReq_some]
  rfl

theorem rtHolds (h : Holds) : decodeHolds (encodeHolds h) = .ok h := by
  obtain ⟨total, position⟩ := h
  simp only [encodeHolds, holdsFields, decodeHolds, lookupKey_objOf_cons, lookupKey_objOf_nil,
    lookupKey_optF, String.reduceEq, ite_true, ite_false, oOr_some, oOr_none, oOr_none_right,
    dOpt_nat]
  rfl

theorem rtCopies (c : Copies) : decodeCopies (encodeCopies c) = .ok c := by
  obtain ⟨total, available⟩ := c
  simp only [encodeCopies, copiesFields, decodeCopies, lookupKey_objOf_cons,
    lookupKey_objOf_nil, lookupKey_optF, String.reduceEq, ite_true, ite_false, oOr_some,
    oOr_none, oOr_none_right, dOpt_nat]
  rfl

theorem rtAvailability (a : Availability) : decodeAvailability (encodeAvailability a) = .ok a := by
  obtain ⟨state, since, until_⟩ := a
  simp only [encodeAvailability, availabilityFields, decodeAvailability, lookupKey_objOf_cons,
    lookupKey_objOf_nil, lookupKey_reqF, lookupKey_optF, String.reduceEq, ite_true, ite_false,
    oOr_some, oOr_none, oOr_none_right, dPres_some, rt_availabilityState, exMap_ok,
    dOpt_str, dReq_some]
  rfl

theorem encodeAcquisitionList_eq_nil (ls : AcquisitionList) :
    encodeAcquisitionList ls = .nil → ls = .nil := by
  cases ls <;> simp [encodeAcquisitionList]

mutual
theorem rtAcquisitionF (a : Acquisition) : ∀ f, jsonFuel (encodeAcquisition a) ≤ f →
    dAcquisitionF f (encodeAcquisition a) = .ok a := by
  obtain ⟨mime, child⟩ := a
  intro f hf
  match f with
  | 0 => exact absurd hf (by simp [encodeAcquisition, acquisitionFields, jsonFuel])
  | f + 1 =>
      have hbound : jsonFuelL (encodeAcquisitionList child) ≤ f := by
        have h1 := jsonFuelL_le_vecF "child" (encodeAcquisitionList child)
        simp only [encodeAcquisition, acquisitionFields, jsonFuel, jsonFuelO_objOf_cons,
          jsonFuelO_objOf_nil, jsonFuelO_reqF] at hf
        omega
      have hlist := rtAcquisitionListF child f hbound
      simp only [encodeAcquisition, acquisitionFields, dAcquisitionF, lookupKey_objOf_cons,
        lookupKey_objOf_nil, lookupKey_reqF, lookupKey_vecF, String.reduceEq, ite_true,
        ite_false, oOr_some, oOr_none, oOr_none_right, dPres_some, rt_decStr, exMap_ok,
        dReq_some,
        dVec_rt child encodeAcquisitionList AcquisitionList.nil _
          (encodeAcquisitionList_eq_nil child) hlist]
      rfl

theorem rtAcquisitionListF (ls : AcquisitionList) :
    ∀ f, jsonFuelL (encodeAcquisitionList ls) ≤ f →
    mapDecInto AcquisitionList.nil AcquisitionList.cons (fun j => dAcquisitionF f j)
      (encodeAcquisitionList ls) = .ok ls := by
  match ls with
  | .nil => intro f _; rfl
  | .cons hd tl =>
      intro f hf
      simp only [encodeAcquisitionList, jsonFuelL] at hf
      have hhd : dAcquisitionF f (encodeAcquisition hd) = .ok hd :=
        rtAcquisitionF hd f (by simp only [encodeAcquisition]; omega)
      simp only [encodeAcquisition] at hhd
      have htl := rtAcquisitionListF tl f (by omega)
      simp only [encodeAcquisitionList, mapDecInto, hhd, htl]
      rfl
end

theorem rtAcquisition (a : Acquisition) : decodeAcquisition (encodeAcquisition a) = .ok a :=
  rtAcquisitionF a (jsonFuel (encodeAcquisition a)) le_rfl

theorem rtCertification (c : AccessbilityCertification) :
    decodeCertification (encodeCertification c) = .ok c := by
  obtain ⟨certified_by, credential, report⟩ := c
  simp only [encodeCertification, certificationFields, decodeCertification,
    lookupKey_objOf_cons, lookupKey_objOf_nil, lookupKey_optF, String.reduceEq, ite_true,
    ite_false, oOr_some, oOr_none, oOr_none_right, dOpt_str]
  rfl

theorem rtDataMining (d : DataMining) (hv : validDataMining d = true) :
    decodeDataMining (encodeDataMining d) = .ok d := by
  obtain ⟨reservation, policy⟩ := d
  simp only [validDataMining] at hv
  simp only [encodeDataMining, dataMiningFields, decodeDataMining, lookupKey_objOf_cons,
    lookupKey_objOf_nil, lookupKey_reqF, lookupKey_optF, String.reduceEq, ite_true,
    ite_false, oOr_some, oOr_none, oOr_none_right, dPres_some, rt_reservation, exMap_ok,
    dReq_some,
    dOpt_map_v policy encodeUrl decodeUrl schemeOk rt_url encodeUrl_ne_null hv]
  rfl

theorem rtAltIdentifier (a : AltIdentifier) (hv : validAltIdentifier a = true) :
    decodeAltIdentifier (encodeAltIdentifier a) = .ok a := by
  obtain ⟨value, scheme⟩ := a
  simp only [validAltIdentifier] at hv
  simp only [encodeAltIdentifier, altIdentifierFields, decodeAltIdentifier,
    lookupKey_objOf_cons, lookupKey_objOf_nil, lookupKey_reqF, lookupKey_optF,
    String.reduceEq, ite_true, ite_false, oOr_some, oOr_none, oOr_none_right, dPres_some,
    rt_decStr, exMap_ok, dReq_some,
    dOpt_map_v scheme encodeUrl decodeUrl schemeOk rt_url encodeUrl_ne_null hv]
  rfl

theorem rtAccessibility (a : AccessibilityMetadata) (hv : validAccessibility a = true) :
    decodeAccessibility (encodeAccessibility a) = .ok a := by
  obtain ⟨conforms_to, exemption, access_mode, feature, hazard, certification, summary⟩ := a
  simp only [validAccessibility] at hv
  simp only [encodeAccessibility, accessibilityFields, decodeAccessibility,
    lookupKey_objOf_cons, lookupKey_objOf_nil, lookupKey_reqF, lookupKey_optF,
    lookupKey_vecF, String.reduceEq, ite_true, ite_false, oOr_some, oOr_none,
    oOr_none_right, dVec_some_arr,
    dFlat_vecF_rt conforms_to (encListJ encodeUrl) [] _ _
      (fun h => encListJ_eq_nil encodeUrl conforms_to h)
      (mapDec_rt_v conforms_to encodeUrl decodeUrl schemeOk rt_url hv),
    dOpt_accessibilityExemption,
    mapDec_rt access_mode encodeAccessMode decodeAccessMode rt_accessMode,
    mapDec_rt feature encodeAccessibilityFeature decodeAccessibilityFeature
      rt_accessibilityFeature,
    mapDec_rt hazard encodeAccessibilityHazard decodeAccessibilityHazard
      rt_accessibilityHazard,
    dOpt_map_rt certification encodeCertification decodeCertification rtCertification
      (fun c h => by simp [encodeCertification] at h),
    dOpt_str]
  rfl

@[simp]
theorem dOpt_holds (o : Option Holds) : dOpt (o.map encodeHolds) decodeHolds = .ok o :=
  dOpt_map_rt o _ _ rtHolds (fun c h => by simp [encodeHolds] at h)

@[simp]
theorem dOpt_copies (o : Option Copies) : dOpt (o.map encodeCopies) decodeCopies = .ok o :=
  dOpt_map_rt o _ _ rtCopies (fun c h => by simp [encodeCopies] at h)

@[simp]
theorem dOpt_availability (o : Option Availability) :
    dOpt (o.map encodeAvailability) decodeAvailability = .ok o :=
  dOpt_map_rt o _ _ rtAvailability (fun c h => by simp [encodeAvailability] at h)

@[simp]
theorem dOpt_price (o : Option Price) : dOpt (o.map encodePrice) decodePrice = .ok o :=
  dOpt_map_rt o _ _ rtPrice (fun c h => by simp [encodePrice] at h)

theorem rtLinkProperties (p : LinkProperties) :
    decodeLinkProperties (encodeLinkProperties p) = .ok p := by
  obtain ⟨count, page, availability, price, indirect_acquisition, holds, copies⟩ := p
  simp only [encodeLinkProperties, linkPropertiesFields, decodeLinkProperties,
    lookupKey_objOf_cons, lookupKey_objOf_nil, lookupKey_optF, lookupKey_vecF,
    String.reduceEq, ite_true, ite_false, oOr_some, oOr_none, oOr_none_right,
    dOpt_nat, dOpt_pageDisplay, dOpt_availability, dOpt_price, dOpt_holds, dOpt_copies,
    dVec_rt indirect_acquisition (encListJ encodeAcquisition) [] _
      (fun h => encListJ_eq_nil encodeAcquisition indirect_acquisition h)
      (mapDec_rt indirect_acquisition encodeAcquisition decodeAcquisition rtAcquisition)]
  rfl

/-- `LinkProperties::is_empty` detects exactly the default value. -/
theorem linkProperties_is_empty_iff (p : LinkProperties) :
    p.is_empty = true → p = LinkProperties.default := by
  obtain ⟨count, page, availability, price, indirect_acquisition, holds, copies⟩ := p
  simp only [LinkProperties.is_empty, LinkProperties.default, Bool.and_eq_true,
    Option.isNone_iff_eq_none, List.isEmpty_iff]
  rintro ⟨⟨⟨⟨⟨⟨h1, h2⟩, h3⟩, h4⟩, h5⟩, h6⟩, h7⟩
  simp_all

/-! ## Link round-trip -/

theorem dFlat_flatF_rt (xs : List α) (enc : α → Json) (dec : Json → Except Err α)
    (P : α → Bool)
    (hrt : ∀ a, P a = true → dec (enc a) = .ok a)
    (harr : ∀ a js, enc a ≠ .arr js)
    (hv : xs.all P = true) :
    dFlat
      (match encListJ enc xs with
       | .nil => none
       | .cons x .nil => some x
       | js => some (.arr js))
      [] (mapDecInto [] List.cons dec) (fun j => (dec j).map ([·])) = .ok xs := by
  match xs with
  | [] => rfl
  | [a] =>
      simp only [List.all_cons, List.all_nil, Bool.and_eq_true] at hv
      have h1 := hrt a hv.1
      have h2 := harr a
      simp only [encListJ]
      cases hE : enc a with
      | arr js => exact absurd hE (h2 js)
      | _ => rw [hE] at h1; simp [dFlat, h1]
  | a :: b :: tl =>
      have h := mapDec_rt_v (a :: b :: tl) enc dec P hrt hv
      simp only [encListJ] at h ⊢
      simp [dFlat, h]

theorem encodeLinkList_eq_nil (ls : LinkList) : encodeLinkList ls = .nil → ls = .nil := by
  cases ls <;> simp [encodeLinkList]

mutual
theorem rtLinkF (l : Link) (hv : validLink l = true) :
    ∀ f, jsonFuel (.obj (linkFields l)) ≤ f → dLinkF f (.obj (linkFields l)) = .ok l := by
  obtain ⟨title, href, templated, mime, rel, properties, height, width, size, bitrate,
    duration, language, alternate, children⟩ := l
  simp only [validLink, Bool.and_eq_true, and_assoc] at hv
  obtain ⟨hrel, halt, hch⟩ := hv
  intro f hf
  match f with
  | 0 => exact absurd hf (by simp [linkFields, jsonFuel])
  | f + 1 =>
      have hb1 : jsonFuelL (encodeLinkList alternate) ≤ f := by
        have h1 := jsonFuelL_le_vecF "alternate" (encodeLinkList alternate)
        simp only [linkFields, jsonFuel, jsonFuelO_objOf_cons, jsonFuelO_objOf_nil] at hf
        omega
      have hb2 : jsonFuelL (encodeLinkList children) ≤ f := by
        have h1 := jsonFuelL_le_vecF "children" (encodeLinkList children)
        simp only [linkFields, jsonFuel, jsonFuelO_objOf_cons, jsonFuelO_objOf_nil] at hf
        omega
      have hlist1 := rtLinkListF alternate halt f hb1
      have hlist2 := rtLinkListF children hch f hb2
      simp only [linkFields, dLinkF, lookupKey_objOf_cons, lookupKey_objOf_nil,
        lookupKey_optF, lookupKey_reqF, lookupKey_vecF, lookupKey_flatF, lookupKey_flagF,
        lookupKey_skipF, String.reduceEq, ite_true, ite_false, oOr_some, oOr_none,
        oOr_none_right, dOpt_str, dOpt_nat, dOpt_q, dFlag_rt,
        dFlat_flatF_rt rel encodeRelation decodeRelation validRelation rt_relation
          (fun a js => by simp [encodeRelation]) hrel,
        dDef_rt properties LinkProperties.default properties.is_empty encodeLinkProperties
          decodeLinkProperties (linkProperties_is_empty_iff properties)
          (rtLinkProperties properties),
        dVec_rt language (encListJ Json.str) [] _
          (fun h => encListJ_eq_nil Json.str language h)
          (mapDec_rt language Json.str decLang rt_decLang),
        dVec_rt alternate encodeLinkList LinkList.nil _
          (encodeLinkList_eq_nil alternate) hlist1,
        dVec_rt children encodeLinkList LinkList.nil _
          (encodeLinkList_eq_nil children) hlist2]
      rfl

theorem rtLinkListF (ls : LinkList) (hv : validLinkList ls = true) :
    ∀ f, jsonFuelL (encodeLinkList ls) ≤ f →
    mapDecInto LinkList.nil LinkList.cons (fun j => dLinkF f j)
      (encodeLinkList ls) = .ok ls := by
  match ls with
  | .nil => intro f _; rfl
  | .cons hd tl =>
      simp only [validLinkList, Bool.and_eq_true] at hv
      intro f hf
      simp only [encodeLinkList, jsonFuelL] at hf
      have hhd := rtLinkF hd hv.1 f (by omega)
      have htl := rtLinkListF tl hv.2 f (by omega)
      simp only [encodeLinkList, mapDecInto, hhd, htl]
      rfl
end

theorem rtLink (l : Link) (hv : validLink l = true) :
    decodeLink (encodeLink l) = .ok l :=
  rtLinkF l hv (jsonFuel (.obj (linkFields l))) le_rfl

theorem rtLinkList (ls : List Link) (hv : ls.all validLink = true) :
    mapDecInto [] List.cons decodeLink (encListJ encodeLink ls) = .ok ls :=
  mapDec_rt_v ls encodeLink decodeLink validLink rtLink hv

theorem encodeLink_ne_null (l : Link) : encodeLink l ≠ .null := by
  simp [encodeLink]

theorem encodeLink_ne_arr (l : Link) (js : JsonList) : encodeLink l ≠ .arr js := by
  simp [encodeLink]

/-! ## Contributor, Episode, Collection, Subject, Article round-trips -/

theorem rt_decAltIdElem (a : AltIdentifier) (hv : validAltIdentifier a = true) :
    decAltIdElem (encodeAltIdentifier a) = .ok a :=
  stringyDec_ok a _ _ _ (rtAltIdentifier a hv)

theorem dFlat_altIds (xs : List AltIdentifier) (hv : xs.all validAltIdentifier = true) :
    dFlat (match encListJ encodeAltIdentifier xs with | .nil => none | js => some (.arr js))
      [] (mapDecInto [] List.cons decAltIdElem) (fun j => (decAltIdElem j).map ([·]))
      = .ok xs :=
  dFlat_vecF_rt xs (encListJ encodeAltIdentifier) [] _ _
    (encListJ_eq_nil encodeAltIdentifier xs)
    (mapDec_rt_v xs encodeAltIdentifier decAltIdElem validAltIdentifier rt_decAltIdElem hv)

theorem dVec_links (xs : List Link) (hv : xs.all validLink = true) :
    dVec (match encListJ encodeLink xs with | .nil => none | js => some (.arr js))
      [] (mapDecInto [] List.cons decodeLink) = .ok xs :=
  dVec_rt xs (encListJ encodeLink) [] _ (encListJ_eq_nil encodeLink xs) (rtLinkList xs hv)

theorem rtContributor (c : Contributor) (hv : validContributor c = true) :
    decodeContributor (encodeContributor c) = .ok c := by
  obtain ⟨name, sort_as, identifier, alt_identifier, role, links⟩ := c
  simp only [validContributor, Bool.and_eq_true, and_assoc] at hv
  obtain ⟨hv1, hv2, hv3, hv4, hv5⟩ := hv
  simp only [encodeContributor, contributorFields, decodeContributor, lookupKey_objOf_cons,
    lookupKey_objOf_nil, lookupKey_reqF, lookupKey_optF, lookupKey_vecF, String.reduceEq,
    ite_true, ite_false, oOr_some, oOr_none, oOr_none_right,
    dPres_map_some name encodeSWA decodeSWA (rt_swa name hv1),
    dOpt_map_v sort_as encodeSWA decodeSWA validSWA rt_swa encodeSWA_ne_null hv2,
    dOpt_map_v identifier encodeIdentifier decodeIdentifier validIdentifier rt_identifier
      encodeIdentifier_ne_null hv3,
    dFlat_altIds alt_identifier hv4,
    dVec_rt role (encListJ Json.str) [] _ (fun h => encListJ_eq_nil Json.str role h)
      (mapDec_rt role Json.str decStr (fun _ => rfl)),
    dVec_links links hv5, dReq_some]
  rfl

theorem rt_decContributorElem (c : Contributor) (hv : validContributor c = true) :
    decContributorElem (encodeContributor c) = .ok c :=
  stringyDec_ok c _ _ _ (rtContributor c hv)

theorem dFlat_contributors (xs : List Contributor) (hv : xs.all validContributor = true) :
    dFlat (match encListJ encodeContributor xs with | .nil => none | js => some (.arr js))
      [] (mapDecInto [] List.cons decContributorElem)
      (fun j => (decContributorElem j).map ([·])) = .ok xs :=
  dFlat_vecF_rt xs (encListJ encodeContributor) [] _ _
    (encListJ_eq_nil encodeContributor xs)
    (mapDec_rt_v xs encodeContributor decContributorElem validContributor
      rt_decContributorElem hv)

theorem rtEpisode (e : Episode) (hv : validEpisode e = true) :
    decodeEpisode (encodeEpisode e) = .ok e := by
  obtain ⟨name, sort_as, identifier, alt_identifier, position, links⟩ := e
  simp only [validEpisode, Bool.and_eq_true, and_assoc] at hv
  obtain ⟨hv1, hv2, hv3, hv4, hv5⟩ := hv
  simp only [encodeEpisode, episodeFields, decodeEpisode, lookupKey_objOf_cons,
    lookupKey_objOf_nil, lookupKey_reqF, lookupKey_optF, lookupKey_vecF, String.reduceEq,
    ite_true, ite_false, oOr_some, oOr_none, oOr_none_right,
    dOpt_map_v name encodeSWA decodeSWA validSWA rt_swa encodeSWA_ne_null hv1,
    dOpt_map_v sort_as encodeSWA decodeSWA validSWA rt_swa encodeSWA_ne_null hv2,
    dOpt_map_v identifier encodeIdentifier decodeIdentifier validIdentifier rt_identifier
      encodeIdentifier_ne_null hv3,
    dFlat_altIds alt_identifier hv4,
    dPres_some, rt_decNat, exMap_ok,
    dVec_links links hv5, dReq_some]
  rfl

theorem rtCollection (c : Collection) (hv : validCollection c = true) :
    decodeCollection (encodeCollection c) = .ok c := by
  obtain ⟨name, sort_as, identifier, alt_identifier, position, links⟩ := c
  simp only [validCollection, Bool.and_eq_true, and_assoc] at hv
  obtain ⟨hv1, hv2, hv3, hv4, hv5⟩ := hv
  simp only [encodeCollection, collectionFields, decodeCollection, lookupKey_objOf_cons,
    lookupKey_objOf_nil, lookupKey_reqF, lookupKey_optF, lookupKey_vecF, String.reduceEq,
    ite_true, ite_false, oOr_some, oOr_none, oOr_none_right,
    dPres_map_some name encodeSWA decodeSWA (rt_swa name hv1),
    dOpt_map_v sort_as encodeSWA decodeSWA validSWA rt_swa encodeSWA_ne_null hv2,
    dOpt_map_v identifier encodeIdentifier decodeIdentifier validIdentifier rt_identifier
      encodeIdentifier_ne_null hv3,
    dFlat_altIds alt_identifier hv4,
    dOpt_nat, dVec_links links hv5, dReq_some]
  rfl

theorem rtSubject (s : Subject) (hv : validSubject s = true) :
    decodeSubject (encodeSubject s) = .ok s := by
  obtain ⟨name, sort_as, code, scheme, links⟩ := s
  simp only [validSubject, Bool.and_eq_true, and_assoc] at hv
  obtain ⟨hv1, hv2, hv3, hv4⟩ := hv
  simp only [encodeSubject, subjectFields, decodeSubject, lookupKey_objOf_cons,
    lookupKey_objOf_nil, lookupKey_reqF, lookupKey_optF, lookupKey_vecF, String.reduceEq,
    ite_true, ite_false, oOr_some, oOr_none, oOr_none_right,
    dPres_map_some name encodeSWA decodeSWA (rt_swa name hv1),
    dOpt_map_v sort_as encodeSWA decodeSWA validSWA rt_swa encodeSWA_ne_null hv2,
    dOpt_str,
    dOpt_map_v scheme encodeUrl decodeUrl schemeOk rt_url encodeUrl_ne_null hv3,
    dVec_links links hv4, dReq_some]
  rfl

theorem rtArticle (a : Article) (hv : validArticle a = true) :
    decodeArticle (encodeArticle a) = .ok a := by
  obtain ⟨name, sort_as, identifier, alt_identifier, author, translator, editor, artist,
    illustrator, contributor, description, number_of_pages, position, links⟩ := a
  simp only [validArticle, Bool.and_eq_true, and_assoc] at hv
  obtain ⟨hv1, hv2, hv3, hv4, hv5, hv6, hv7, hv8, hv9, hv10, hv11⟩ := hv
  simp only [encodeArticle, articleFields, decodeArticle, lookupKey_objOf_cons,
    lookupKey_objOf_nil, lookupKey_reqF, lookupKey_optF, lookupKey_vecF, String.reduceEq,
    ite_true, ite_false, oOr_some, oOr_none, oOr_none_right,
    dPres_map_some name encodeSWA decodeSWA (rt_swa name hv1),
    dOpt_map_v sort_as encodeSWA decodeSWA validSWA rt_swa encodeSWA_ne_null hv2,
    dOpt_map_v identifier encodeIdentifier decodeIdentifier validIdentifier rt_identifier
      encodeIdentifier_ne_null hv3,
    dFlat_altIds alt_identifier hv4,
    dFlat_contributors author hv5,
    dFlat_contributors translator hv6,
    dFlat_contributors editor hv7,
    dFlat_contributors artist hv8,
    dFlat_contributors illustrator hv9,
    dFlat_contributors contributor hv10,
    dOpt_str, dOpt_nat, dVec_links links hv11, dReq_some]
  rfl

theorem rt_decArticleElem (a : Article) (hv : validArticle a = true) :
    decArticleElem (encodeArticle a) = .ok a :=
  stringyDec_ok a _ _ _ (rtArticle a hv)

theorem dFlat_articles (xs : List Article) (hv : xs.all validArticle = true) :
    dFlat (match encListJ encodeArticle xs with | .nil => none | js => some (.arr js))
      [] (mapDecInto [] List.cons decArticleElem)
      (fun j => (decArticleElem j).map ([·])) = .ok xs :=
  dFlat_vecF_rt xs (encListJ encodeArticle) [] _ _
    (encListJ_eq_nil encodeArticle xs)
    (mapDec_rt_v xs encodeArticle decArticleElem validArticle rt_decArticleElem hv)

theorem rt_decEpisodeElem (e : Episode) (hv : validEpisode e = true) :
    decEpisodeElem (encodeEpisode e) = .ok e :=
  numlikeDec_ok e _ _ _ (rtEpisode e hv)

theorem dFlat_episodes (xs : List Episode) (hv : xs.all validEpisode = true) :
    dFlat (match encListJ encodeEpisode xs with | .nil => none | js => some (.arr js))
      [] (mapDecInto [] List.cons decEpisodeElem)
      (fun j => (decEpisodeElem j).map ([·])) = .ok xs :=
  dFlat_vecF_rt xs (encListJ encodeEpisode) [] _ _
    (encListJ_eq_nil encodeEpisode xs)
    (mapDec_rt_v xs encodeEpisode decEpisodeElem validEpisode rt_decEpisodeElem hv)

/-! ## Bibliographic hierarchy round-trips -/

theorem encodeIssueList_eq_nil (ls : IssueList) : encodeIssueList ls = .nil → ls = .nil := by
  cases ls <;> simp [encodeIssueList]

theorem encodeChapterList_eq_nil (ls : ChapterList) :
    encodeChapterList ls = .nil → ls = .nil := by
  cases ls <;> simp [encodeChapterList]

theorem encodeSeriesList_eq_nil (ls : SeriesList) :
    encodeSeriesList ls = .nil → ls = .nil := by
  cases ls <;> simp [encodeSeriesList]

theorem encodeSeasonList_eq_nil (ls : SeasonList) :
    encodeSeasonList ls = .nil → ls = .nil := by
  cases ls <;> simp [encodeSeasonList]

theorem encodeStoryArcList_eq_nil (ls : StoryArcList) :
    encodeStoryArcList ls = .nil → ls = .nil := by
  cases ls <;> simp [encodeStoryArcList]

theorem encodeVolumeList_eq_nil (ls : VolumeList) :
    encodeVolumeList ls = .nil → ls = .nil := by
  cases ls <;> simp [encodeVolumeList]

mutual
theorem rtIssueF (x : Issue) (hv : validIssue x = true) :
    ∀ f, jsonFuel (.obj (issueFields x)) ≤ f → dIssueF f (.obj (issueFields x)) = .ok x := by
  obtain ⟨name, sort_as, identifier, alt_identifier, position, links, article, chapter⟩ := x
  simp only [validIssue, Bool.and_eq_true, and_assoc] at hv
  obtain ⟨hv1, hv2, hv3, hv4, hv5, hv6, hv7⟩ := hv
  intro f hf
  match f with
  | 0 => exact absurd hf (by simp [issueFields, jsonFuel])
  | f + 1 =>
      have hbC : jsonFuelL (encodeChapterList chapter) ≤ f := by
        have h1 := jsonFuelL_le_vecF "chapter" (encodeChapterList chapter)
        simp only [issueFields, jsonFuel, jsonFuelO_objOf_cons, jsonFuelO_objOf_nil] at hf
        omega
      have hlC := rtChapterListF chapter hv7 f hbC
      simp only [issueFields, dIssueF, lookupKey_objOf_cons, lookupKey_objOf_nil,
        lookupKey_reqF, lookupKey_optF, lookupKey_vecF, String.reduceEq, ite_true,
        ite_false, oOr_some, oOr_none, oOr_none_right,
        dOpt_map_v name encodeSWA decodeSWA validSWA rt_swa encodeSWA_ne_null hv1,
        dOpt_map_v sort_as encodeSWA decodeSWA validSWA rt_swa encodeSWA_ne_null hv2,
        dOpt_map_v identifier encodeIdentifier decodeIdentifier validIdentifier
          rt_identifier encodeIdentifier_ne_null hv3,
        dFlat_altIds alt_identifier hv4,
        dPres_some, rt_decNat, exMap_ok,
        dVec_links links hv5,
        dFlat_articles article hv6,
        dFlat_vecF_rt chapter encodeChapterList ChapterList.nil _ _
          (encodeChapterList_eq_nil chapter) hlC,
        dReq_some]
      rfl

theorem rtChapterF (x : Chapter) (hv : validChapter x = true) :
    ∀ f, jsonFuel (.obj (chapterFields x)) ≤ f →
      dChapterF f (.obj (chapterFields x)) = .ok x := by
  obtain ⟨name, sort_as, identifier, alt_identifier, position, links, series⟩ := x
  simp only [validChapter, Bool.and_eq_true, and_assoc] at hv
  obtain ⟨hv1, hv2, hv3, hv4, hv5, hv6⟩ := hv
  intro f hf
  match f with
  | 0 => exact absurd hf (by simp [chapterFields, jsonFuel])
  | f + 1 =>
      have hbS : jsonFuelL (encodeSeriesList series) ≤ f := by
        have h1 := jsonFuelL_le_vecF "series" (encodeSeriesList series)
        simp only [chapterFields, jsonFuel, jsonFuelO_objOf_cons, jsonFuelO_objOf_nil] at hf
        omega
      have hlS := rtSeriesListF series hv6 f hbS
      simp only [chapterFields, dChapterF, lookupKey_objOf_cons, lookupKey_objOf_nil,
        lookupKey_reqF, lookupKey_optF, lookupKey_vecF, String.reduceEq, ite_true,
        ite_false, oOr_some, oOr_none, oOr_none_right,
        dOpt_map_v name encodeSWA decodeSWA validSWA rt_swa encodeSWA_ne_null hv1,
        dOpt_map_v sort_as encodeSWA decodeSWA validSWA rt_swa encodeSWA_ne_null hv2,
        dOpt_map_v identifier encodeIdentifier decodeIdentifier validIdentifier
          rt_identifier encodeIdentifier_ne_null hv3,
        dFlat_altIds alt_identifier hv4,
        dPres_some, rt_decNat, exMap_ok,
        dVec_links links hv5,
        dFlat_vecF_rt series encodeSeriesList SeriesList.nil _ _
          (encodeSeriesList_eq_nil series) hlS,
        dReq_some]
      rfl

theorem rtSeriesF (x : Series) (hv : validSeries x = true) :
    ∀ f, jsonFuel (.obj (seriesFields x)) ≤ f →
      dSeriesF f (.obj (seriesFields x)) = .ok x := by
  obtain ⟨name, sort_as, identifier, alt_identifier, position, links, chapter, episode,
    issue, season, story_arc, volume⟩ := x
  simp only [validSeries, Bool.and_eq_true, and_assoc] at hv
  obtain ⟨hv1, hv2, hv3, hv4, hv5, hv6, hv7, hv8, hv9, hv10, hv11⟩ := hv
  intro f hf
  match f with
  | 0 => exact absurd hf (by simp [seriesFields, jsonFuel])
  | f + 1 =>
      have hbC : jsonFuelL (encodeChapterList chapter) ≤ f := by
        have h1 := jsonFuelL_le_vecF "chapter" (encodeChapterList chapter)
        simp only [seriesFields, jsonFuel, jsonFuelO_objOf_cons, jsonFuelO_objOf_nil] at hf
        omega
      have hbI : jsonFuelL (encodeIssueList issue) ≤ f := by
        have h1 := jsonFuelL_le_vecF "issue" (encodeIssueList issue)
        simp only [seriesFields, jsonFuel, jsonFuelO_objOf_cons, jsonFuelO_objOf_nil] at hf
        omega
      have hbSe : jsonFuelL (encodeSeasonList season) ≤ f := by
        have h1 := jsonFuelL_le_vecF "season" (encodeSeasonList season)
        simp only [seriesFields, jsonFuel, jsonFuelO_objOf_cons, jsonFuelO_objOf_nil] at hf
        omega
      have hbA : jsonFuelL (encodeStoryArcList story_arc) ≤ f := by
        have h1 := jsonFuelL_le_vecF "storyArc" (encodeStoryArcList story_arc)
        simp only [seriesFields, jsonFuel, jsonFuelO_objOf_cons, jsonFuelO_objOf_nil] at hf
        omega
      have hbV : jsonFuelL (encodeVolumeList volume) ≤ f := by
        have h1 := jsonFuelL_le_vecF "volume" (encodeVolumeList volume)
        simp only [seriesFields, jsonFuel, jsonFuelO_objOf_cons, jsonFuelO_objOf_nil] at hf
        omega
      have hlC := rtChapterListF chapter hv6 f hbC
      have hlI := rtIssueListF issue hv8 f hbI
      have hlSe := rtSeasonListF season hv9 f hbSe
      have hlA := rtStoryArcListF story_arc hv10 f hbA
      have hlV := rtVolumeListF volume hv11 f hbV
      simp only [seriesFields, dSeriesF, lookupKey_objOf_cons, lookupKey_objOf_nil,
        lookupKey_reqF, lookupKey_optF, lookupKey_vecF, String.reduceEq, ite_true,
        ite_false, oOr_some, oOr_none, oOr_none_right,
        dPres_map_some name encodeSWA decodeSWA (rt_swa name hv1),
        dOpt_map_v sort_as encodeSWA decodeSWA validSWA rt_swa encodeSWA_ne_null hv2,
        dOpt_map_v identifier encodeIdentifier decodeIdentifier validIdentifier
          rt_identifier encodeIdentifier_ne_null hv3,
        dFlat_altIds alt_identifier hv4,
        dOpt_nat,
        dVec_links links hv5,
        dFlat_vecF_rt chapter encodeChapterList ChapterList.nil _ _
          (encodeChapterList_eq_nil chapter) hlC,
        dFlat_episodes episode hv7,
        dFlat_vecF_rt issue encodeIssueList IssueList.nil _ _
          (encodeIssueList_eq_nil issue) hlI,
        dFlat_vecF_rt season encodeSeasonList SeasonList.nil _ _
          (encodeSeasonList_eq_nil season) hlSe,
        dFlat_vecF_rt story_arc encodeStoryArcList StoryArcList.nil _ _
          (encodeStoryArcList_eq_nil story_arc) hlA,
        dFlat_vecF_rt volume encodeVolumeList VolumeList.nil _ _
          (encodeVolumeList_eq_nil volume) hlV,
        dReq_some]
      rfl

theorem rtSeasonF (x : Season) (hv : validSeason x = true) :
    ∀ f, jsonFuel (.obj (seasonFields x)) ≤ f →
      dSeasonF f (.obj (seasonFields x)) = .ok x := by
  obtain ⟨name, sort_as, identifier, alt_identifier, position, links, article, chapter⟩ := x
  simp only [validSeason, Bool.and_eq_true, and_assoc] at hv
  obtain ⟨hv1, hv2, hv3, hv4, hv5, hv6, hv7⟩ := hv
  intro f hf
  match f with
  | 0 => exact absurd hf (by simp [seasonFields, jsonFuel])
  | f + 1 =>
      have hbC : jsonFuelL (encodeChapterList chapter) ≤ f := by
        have h1 := jsonFuelL_le_vecF "chapter" (encodeChapterList chapter)
        simp only [seasonFields, jsonFuel, jsonFuelO_objOf_cons, jsonFuelO_objOf_nil] at hf
        omega
      have hlC := rtChapterListF chapter hv7 f hbC
      simp only [seasonFields, dSeasonF, lookupKey_objOf_cons, lookupKey_objOf_nil,
        lookupKey_reqF, lookupKey_optF, lookupKey_vecF, String.reduceEq, ite_true,
        ite_false, oOr_some, oOr_none, oOr_none_right,
        dOpt_map_v name encodeSWA decodeSWA validSWA rt_swa encodeSWA_ne_null hv1,
        dOpt_map_v sort_as encodeSWA decodeSWA validSWA rt_swa encodeSWA_ne_null hv2,
        dOpt_map_v identifier encodeIdentifier decodeIdentifier validIdentifier
          rt_identifier encodeIdentifier_ne_null hv3,
        dFlat_altIds alt_identifier hv4,
        dPres_some, rt_decNat, exMap_ok,
        dVec_links links hv5,
        dFlat_articles article hv6,
        dFlat_vecF_rt chapter encodeChapterList ChapterList.nil _ _
          (encodeChapterList_eq_nil chapter) hlC,
        dReq_some]
      rfl

theorem rtStoryArcF (x : StoryArc) (hv : validStoryArc x = true) :
    ∀ f, jsonFuel (.obj (storyArcFields x)) ≤ f →
      dStoryArcF f (.obj (storyArcFields x)) = .ok x := by
  obtain ⟨name, sort_as, identifier, alt_identifier, position, links, chapter, issue,
    episode⟩ := x
  simp only [validStoryArc, Bool.and_eq_true, and_assoc] at hv
  obtain ⟨hv1, hv2, hv3, hv4, hv5, hv6, hv7, hv8⟩ := hv
  intro f hf
  match f with
  | 0 => exact absurd hf (by simp [storyArcFields, jsonFuel])
  | f + 1 =>
      have hbC : jsonFuelL (encodeChapterList chapter) ≤ f := by
        have h1 := jsonFuelL_le_vecF "chapter" (encodeChapterList chapter)
        simp only [storyArcFields, jsonFuel, jsonFuelO_objOf_cons, jsonFuelO_objOf_nil] at hf
        omega
      have hbI : jsonFuelL (encodeIssueList issue) ≤ f := by
        have h1 := jsonFuelL_le_vecF "issue" (encodeIssueList issue)
        simp only [storyArcFields, jsonFuel, jsonFuelO_objOf_cons, jsonFuelO_objOf_nil] at hf
        omega
      have hlC := rtChapterListF chapter hv6 f hbC
      have hlI := rtIssueListF issue hv7 f hbI
      simp only [storyArcFields, dStoryArcF, lookupKey_objOf_cons, lookupKey_objOf_nil,
        lookupKey_reqF, lookupKey_optF, lookupKey_vecF, String.reduceEq, ite_true,
        ite_false, oOr_some, oOr_none, oOr_none_right,
        dOpt_map_v name encodeSWA decodeSWA validSWA rt_swa encodeSWA_ne_null hv1,
        dOpt_map_v sort_as encodeSWA decodeSWA validSWA rt_swa encodeSWA_ne_null hv2,
        dOpt_map_v identifier encodeIdentifier decodeIdentifier validIdentifier
          rt_identifier encodeIdentifier_ne_null hv3,
        dFlat_altIds alt_identifier hv4,
        dPres_some, rt_decNat, exMap_ok,
        dVec_links links hv5,
        dFlat_vecF_rt chapter encodeChapterList ChapterList.nil _ _
          (encodeChapterList_eq_nil chapter) hlC,
        dFlat_vecF_rt issue encodeIssueList IssueList.nil _ _
          (encodeIssueList_eq_nil issue) hlI,
        dFlat_episodes episode hv8,
        dReq_some]
      rfl

theorem rtVolumeF (x : Volume) (hv : validVolume x = true) :
    ∀ f, jsonFuel (.obj (volumeFields x)) ≤ f →
      dVolumeF f (.obj (volumeFields x)) = .ok x := by
  obtain ⟨name, sort_as, identifier, alt_identifier, position, links, chapter, issue,
    story_arc⟩ := x
  simp only [validVolume, Bool.and_eq_true, and_assoc] at hv
  obtain ⟨hv1, hv2, hv3, hv4, hv5, hv6, hv7, hv8⟩ := hv
  intro f hf
  match f with
  | 0 => exact absurd hf (by simp [volumeFields, jsonFuel])
  | f + 1 =>
      have hbC : jsonFuelL (encodeChapterList chapter) ≤ f := by
        have h1 := jsonFuelL_le_vecF "chapter" (encodeChapterList chapter)
        simp only [volumeFields, jsonFuel, jsonFuelO_objOf_cons, jsonFuelO_objOf_nil] at hf
        omega
      have hbI : jsonFuelL (encodeIssueList issue) ≤ f := by
        have h1 := jsonFuelL_le_vecF "issue" (encodeIssueList issue)
        simp only [volumeFields, jsonFuel, jsonFuelO_objOf_cons, jsonFuelO_objOf_nil] at hf
        omega
      have hbA : jsonFuelL (encodeStoryArcList story_arc) ≤ f := by
        have h1 := jsonFuelL_le_vecF "storyArc" (encodeStoryArcList story_arc)
        simp only [volumeFields, jsonFuel, jsonFuelO_objOf_cons, jsonFuelO_objOf_nil] at hf
        omega
      have hlC := rtChapterListF chapter hv6 f hbC
      have hlI := rtIssueListF issue hv7 f hbI
      have hlA := rtStoryArcListF story_arc hv8 f hbA
      simp only [volumeFields, dVolumeF, lookupKey_objOf_cons, lookupKey_objOf_nil,
        lookupKey_reqF, lookupKey_optF, lookupKey_vecF, String.reduceEq, ite_true,
        ite_false, oOr_some, oOr_none, oOr_none_right,
        dOpt_map_v name encodeSWA decodeSWA validSWA rt_swa encodeSWA_ne_null hv1,
        dOpt_map_v sort_as encodeSWA decodeSWA validSWA rt_swa encodeSWA_ne_null hv2,
        dOpt_map_v identifier encodeIdentifier decodeIdentifier validIdentifier
          rt_identifier encodeIdentifier_ne_null hv3,
        dFlat_altIds alt_identifier hv4,
        dPres_some, rt_decNat, exMap_ok,
        dVec_links links hv5,
        dFlat_vecF_rt chapter encodeChapterList ChapterList.nil _ _
          (encodeChapterList_eq_nil chapter) hlC,
        dFlat_vecF_rt issue encodeIssueList IssueList.nil _ _
          (encodeIssueList_eq_nil issue) hlI,
        dFlat_vecF_rt story_arc encodeStoryArcList StoryArcList.nil _ _
          (encodeStoryArcList_eq_nil story_arc) hlA,
        dReq_some]
      rfl

theorem rtIssueListF (ls : IssueList) (hv : validIssueList ls = true) :
    ∀ f, jsonFuelL (encodeIssueList ls) ≤ f →
    mapDecInto IssueList.nil IssueList.cons
      (fun j => numlikeDec (dIssueF f j) j Issue.ofPos)
      (encodeIssueList ls) = .ok ls := by
  match ls with
  | .nil => intro f _; rfl
  | .cons hd tl =>
      simp only [validIssueList, Bool.and_eq_true] at hv
      intro f hf
      simp only [encodeIssueList, jsonFuelL] at hf
      have hhd := rtIssueF hd hv.1 f (by omega)
      have helem := numlikeDec_ok hd _ (.obj (issueFields hd)) Issue.ofPos hhd
      have htl := rtIssueListF tl hv.2 f (by omega)
      simp only [encodeIssueList, mapDecInto, helem, htl]
      rfl

theorem rtChapterListF (ls : ChapterList) (hv : validChapterList ls = true) :
    ∀ f, jsonFuelL (encodeChapterList ls) ≤ f →
    mapDecInto ChapterList.nil ChapterList.cons
      (fun j => numlikeDec (dChapterF f j) j Chapter.ofPos)
      (encodeChapterList ls) = .ok ls := by
  match ls with
  | .nil => intro f _; rfl
  | .cons hd tl =>
      simp only [validChapterList, Bool.and_eq_true] at hv
      intro f hf
      simp only [encodeChapterList, jsonFuelL] at hf
      have hhd := rtChapterF hd hv.1 f (by omega)
      have helem := numlikeDec_ok hd _ (.obj (chapterFields hd)) Chapter.ofPos hhd
      have htl := rtChapterListF tl hv.2 f (by omega)
      simp only [encodeChapterList, mapDecInto, helem, htl]
      rfl

theorem rtSeriesListF (ls : SeriesList) (hv : validSeriesList ls = true) :
    ∀ f, jsonFuelL (encodeSeriesList ls) ≤ f →
    mapDecInto SeriesList.nil SeriesList.cons
      (fun j => stringyDec (dSeriesF f j) j Series.ofStr)
      (encodeSeriesList ls) = .ok ls := by
  match ls with
  | .nil => intro f _; rfl
  | .cons hd tl =>
      simp only [validSeriesList, Bool.and_eq_true] at hv
      intro f hf
      simp only [encodeSeriesList, jsonFuelL] at hf
      have hhd := rtSeriesF hd hv.1 f (by omega)
      have helem := stringyDec_ok hd _ (.obj (seriesFields hd)) Series.ofStr hhd
      have htl := rtSeriesListF tl hv.2 f (by omega)
      simp only [encodeSeriesList, mapDecInto, helem, htl]
      rfl

theorem rtSeasonListF (ls : SeasonList) (hv : validSeasonList ls = true) :
    ∀ f, jsonFuelL (encodeSeasonList ls) ≤ f →
    mapDecInto SeasonList.nil SeasonList.cons
      (fun j => numlikeDec (dSeasonF f j) j Season.ofPos)
      (encodeSeasonList ls) = .ok ls := by
  match ls with
  | .nil => intro f _; rfl
  | .cons hd tl =>
      simp only [validSeasonList, Bool.and_eq_true] at hv
      intro f hf
      simp only [encodeSeasonList, jsonFuelL] at hf
      have hhd := rtSeasonF hd hv.1 f (by omega)
      have helem := numlikeDec_ok hd _ (.obj (seasonFields hd)) Season.ofPos hhd
      have htl := rtSeasonListF tl hv.2 f (by omega)
      simp only [encodeSeasonList, mapDecInto, helem, htl]
      rfl

theorem rtStoryArcListF (ls : StoryArcList) (hv : validStoryArcList ls = true) :
    ∀ f, jsonFuelL (encodeStoryArcList ls) ≤ f →
    mapDecInto StoryArcList.nil StoryArcList.cons
      (fun j => numlikeDec (dStoryArcF f j) j StoryArc.ofPos)
      (encodeStoryArcList ls) = .ok ls := by
  match ls with
  | .nil => intro f _; rfl
  | .cons hd tl =>
      simp only [validStoryArcList, Bool.and_eq_true] at hv
      intro f hf
      simp only [encodeStoryArcList, jsonFuelL] at hf
      have hhd := rtStoryArcF hd hv.1 f (by omega)
      have helem := numlikeDec_ok hd _ (.obj (storyArcFields hd)) StoryArc.ofPos hhd
      have htl := rtStoryArcListF tl hv.2 f (by omega)
      simp only [encodeStoryArcList, mapDecInto, helem, htl]
      rfl

theorem rtVolumeListF (ls : VolumeList) (hv : validVolumeList ls = true) :
    ∀ f, jsonFuelL (encodeVolumeList ls) ≤ f →
    mapDecInto VolumeList.nil VolumeList.cons
      (fun j => numlikeDec (dVolumeF f j) j Volume.ofPos)
      (encodeVolumeList ls) = .ok ls := by
  match ls with
  | .nil => intro f _; rfl
  | .cons hd tl =>
      simp only [validVolumeList, Bool.and_eq_true] at hv
      intro f hf
      simp only [encodeVolumeList, jsonFuelL] at hf
      have hhd := rtVolumeF hd hv.1 f (by omega)
      have helem := numlikeDec_ok hd _ (.obj (volumeFields hd)) Volume.ofPos hhd
      have htl := rtVolumeListF tl hv.2 f (by omega)
      simp only [encodeVolumeList, mapDecInto, helem, htl]
      rfl
end

theorem rtIssue (x : Issue) (hv : validIssue x = true) :
    decodeIssue (encodeIssue x) = .ok x :=
  rtIssueF x hv (jsonFuel (.obj (issueFields x))) le_rfl

theorem rtChapter (x : Chapter) (hv : validChapter x = true) :
    decodeChapter (encodeChapter x) = .ok x :=
  rtChapterF x hv (jsonFuel (.obj (chapterFields x))) le_rfl

theorem rtSeries (x : Series) (hv : validSeries x = true) :
    decodeSeries (encodeSeries x) = .ok x :=
  rtSeriesF x hv (jsonFuel (.obj (seriesFields x))) le_rfl

theorem rtSeason (x : Season) (hv : validSeason x = true) :
    decodeSeason (encodeSeason x) = .ok x :=
  rtSeasonF x hv (jsonFuel (.obj (seasonFields x))) le_rfl

theorem rtStoryArc (x : StoryArc) (hv : validStoryArc x = true) :
    decodeStoryArc (encodeStoryArc x) = .ok x :=
  rtStoryArcF x hv (jsonFuel (.obj (storyArcFields x))) le_rfl

theorem rtVolume (x : Volume) (hv : validVolume x = true) :
    decodeVolume (encodeVolume x) = .ok x :=
  rtVolumeF x hv (jsonFuel (.obj (volumeFields x))) le_rfl

/-! ## Periodical, containment directions, metadata and Feed round-trips -/

theorem rt_decIssueElem (x : Issue) (hv : validIssue x = true) :
    decIssueElem (encodeIssue x) = .ok x :=
  numlikeDec_ok x _ _ _ (rtIssue x hv)

theorem rt_decChapterElem (x : Chapter) (hv : validChapter x = true) :
    decChapterElem (encodeChapter x) = .ok x :=
  numlikeDec_ok x _ _ _ (rtChapter x hv)

theorem rt_decSeriesElem (x : Series) (hv : validSeries x = true) :
    decSeriesElem (encodeSeries x) = .ok x :=
  stringyDec_ok x _ _ _ (rtSeries x hv)

theorem rt_decSeasonElem (x : Season) (hv : validSeason x = true) :
    decSeasonElem (encodeSeason x) = .ok x :=
  numlikeDec_ok x _ _ _ (rtSeason x hv)

theorem rt_decStoryArcElem (x : StoryArc) (hv : validStoryArc x = true) :
    decStoryArcElem (encodeStoryArc x) = .ok x :=
  numlikeDec_ok x _ _ _ (rtStoryArc x hv)

theorem rt_decVolumeElem (x : Volume) (hv : validVolume x = true) :
    decVolumeElem (encodeVolume x) = .ok x :=
  numlikeDec_ok x _ _ _ (rtVolume x hv)

theorem rt_decCollectionElem (x : Collection) (hv : validCollection x = true) :
    decCollectionElem (encodeCollection x) = .ok x :=
  stringyDec_ok x _ _ _ (rtCollection x hv)

theorem rt_decSWAElem (v : StringWithAlternates) (hv : validSWA v = true) :
    decSWAElem (encodeSWA v) = .ok v :=
  stringyDec_ok v _ _ _ (rt_swa v hv)

theorem dFlat_issues (xs : List Issue) (hv : xs.all validIssue = true) :
    dFlat (match encListJ encodeIssue xs with | .nil => none | js => some (.arr js))
      [] (mapDecInto [] List.cons decIssueElem)
      (fun j => (decIssueElem j).map ([·])) = .ok xs :=
  dFlat_vecF_rt xs (encListJ encodeIssue) [] _ _ (encListJ_eq_nil encodeIssue xs)
    (mapDec_rt_v xs encodeIssue decIssueElem validIssue rt_decIssueElem hv)

theorem dFlat_chapters (xs : List Chapter) (hv : xs.all validChapter = true) :
    dFlat (match encListJ encodeChapter xs with | .nil => none | js => some (.arr js))
      [] (mapDecInto [] List.cons decChapterElem)
      (fun j => (decChapterElem j).map ([·])) = .ok xs :=
  dFlat_vecF_rt xs (encListJ encodeChapter) [] _ _ (encListJ_eq_nil encodeChapter xs)
    (mapDec_rt_v xs encodeChapter decChapterElem validChapter rt_decChapterElem hv)

theorem dFlat_seriesPlain (xs : List Series) (hv : xs.all validSeries = true) :
    dFlat (match encListJ encodeSeries xs with | .nil => none | js => some (.arr js))
      [] (mapDecInto [] List.cons decSeriesElem)
      (fun j => (decSeriesElem j).map ([·])) = .ok xs :=
  dFlat_vecF_rt xs (encListJ encodeSeries) [] _ _ (encListJ_eq_nil encodeSeries xs)
    (mapDec_rt_v xs encodeSeries decSeriesElem validSeries rt_decSeriesElem hv)

theorem dFlat_seasons (xs : List Season) (hv : xs.all validSeason = true) :
    dFlat (match encListJ encodeSeason xs with | .nil => none | js => some (.arr js))
      [] (mapDecInto [] List.cons decSeasonElem)
      (fun j => (decSeasonElem j).map ([·])) = .ok xs :=
  dFlat_vecF_rt xs (encListJ encodeSeason) [] _ _ (encListJ_eq_nil encodeSeason xs)
    (mapDec_rt_v xs encodeSeason decSeasonElem validSeason rt_decSeasonElem hv)

theorem dFlat_storyArcs (xs : List StoryArc) (hv : xs.all validStoryArc = true) :
    dFlat (match encListJ encodeStoryArc xs with | .nil => none | js => some (.arr js))
      [] (mapDecInto [] List.cons decStoryArcElem)
      (fun j => (decStoryArcElem j).map ([·])) = .ok xs :=
  dFlat_vecF_rt xs (encListJ encodeStoryArc) [] _ _ (encListJ_eq_nil encodeStoryArc xs)
    (mapDec_rt_v xs encodeStoryArc decStoryArcElem validStoryArc rt_decStoryArcElem hv)

theorem dFlat_volumes (xs : List Volume) (hv : xs.all validVolume = true) :
    dFlat (match encListJ encodeVolume xs with | .nil => none | js => some (.arr js))
      [] (mapDecInto [] List.cons decVolumeElem)
      (fun j => (decVolumeElem j).map ([·])) = .ok xs :=
  dFlat_vecF_rt xs (encListJ encodeVolume) [] _ _ (encListJ_eq_nil encodeVolume xs)
    (mapDec_rt_v xs encodeVolume decVolumeElem validVolume rt_decVolumeElem hv)

theorem dFlat_collections (xs : List Collection) (hv : xs.all validCollection = true) :
    dFlat (match encListJ encodeCollection xs with | .nil => none | js => some (.arr js))
      [] (mapDecInto [] List.cons decCollectionElem)
      (fun j => (decCollectionElem j).map ([·])) = .ok xs :=
  dFlat_vecF_rt xs (encListJ encodeCollection) [] _ _ (encListJ_eq_nil encodeCollection xs)
    (mapDec_rt_v xs encodeCollection decCollectionElem validCollection
      rt_decCollectionElem hv)

theorem dFlat_subtitles (xs : List StringWithAlternates) (hv : xs.all validSWA = true) :
    dFlat (match encListJ encodeSWA xs with | .nil => none | js => some (.arr js))
      [] (mapDecInto [] List.cons decSWAElem)
      (fun j => (decSWAElem j).map ([·])) = .ok xs :=
  dFlat_vecF_rt xs (encListJ encodeSWA) [] _ _ (encListJ_eq_nil encodeSWA xs)
    (mapDec_rt_v xs encodeSWA decSWAElem validSWA rt_decSWAElem hv)

theorem rtPeriodical (p : Periodical) (hv : validPeriodical p = true) :
    decodePeriodical (encodePeriodical p) = .ok p := by
  obtain ⟨name, sort_as, identifier, alt_identifier, position, links, issue, volume⟩ := p
  simp only [validPeriodical, Bool.and_eq_true, and_assoc] at hv
  obtain ⟨hv1, hv2, hv3, hv4, hv5, hv6, hv7⟩ := hv
  simp only [encodePeriodical, periodicalFields, decodePeriodical, lookupKey_objOf_cons,
    lookupKey_objOf_nil, lookupKey_reqF, lookupKey_optF, lookupKey_vecF, String.reduceEq,
    ite_true, ite_false, oOr_some, oOr_none, oOr_none_right,
    dPres_map_some name encodeSWA decodeSWA (rt_swa name hv1),
    dOpt_map_v sort_as encodeSWA decodeSWA validSWA rt_swa encodeSWA_ne_null hv2,
    dOpt_map_v identifier encodeIdentifier decodeIdentifier validIdentifier rt_identifier
      encodeIdentifier_ne_null hv3,
    dFlat_altIds alt_identifier hv4,
    dOpt_nat, dVec_links links hv5,
    dFlat_issues issue hv6,
    dFlat_volumes volume hv7,
    dReq_some]
  rfl

theorem rt_decPeriodicalElem (p : Periodical) (hv : validPeriodical p = true) :
    decPeriodicalElem (encodePeriodical p) = .ok p :=
  stringyDec_ok p _ _ _ (rtPeriodical p hv)

theorem dFlat_periodicals (xs : List Periodical) (hv : xs.all validPeriodical = true) :
    dFlat (match encListJ encodePeriodical xs with | .nil => none | js => some (.arr js))
      [] (mapDecInto [] List.cons decPeriodicalElem)
      (fun j => (decPeriodicalElem j).map ([·])) = .ok xs :=
  dFlat_vecF_rt xs (encListJ encodePeriodical) [] _ _
    (encListJ_eq_nil encodePeriodical xs)
    (mapDec_rt_v xs encodePeriodical decPeriodicalElem validPeriodical
      rt_decPeriodicalElem hv)

theorem rtBelongsTo (b : BelongsTo) (hv : validBelongsTo b = true) :
    decodeBelongsTo (encodeBelongsTo b) = .ok b := by
  obtain ⟨collection, journal, magazine, newspaper, periodical, season, series, story_arc,
    volume⟩ := b
  simp only [validBelongsTo, Bool.and_eq_true, and_assoc] at hv
  obtain ⟨hv1, hv2, hv3, hv4, hv5, hv6, hv7, hv8, hv9⟩ := hv
  simp only [encodeBelongsTo, belongsToFields, decodeBelongsTo, lookupKey_objOf_cons,
    lookupKey_objOf_nil, lookupKey_vecF, String.reduceEq, ite_true, ite_false, oOr_some,
    oOr_none, oOr_none_right,
    dFlat_collections collection hv1,
    dFlat_periodicals journal hv2,
    dFlat_periodicals magazine hv3,
    dFlat_periodicals newspaper hv4,
    dFlat_periodicals periodical hv5,
    dFlat_seasons season hv6,
    dFlat_seriesPlain series hv7,
    dFlat_storyArcs story_arc hv8,
    dFlat_volumes volume hv9]
  rfl

theorem rtContains (c : Contains) (hv : validContains c = true) :
    decodeContains (encodeContains c) = .ok c := by
  obtain ⟨article, chapter, episode, issue, season, series, story_arc, volume⟩ := c
  simp only [validContains, Bool.and_eq_true, and_assoc] at hv
  obtain ⟨hv1, hv2, hv3, hv4, hv5, hv6, hv7, hv8⟩ := hv
  simp only [encodeContains, containsFields, decodeContains, lookupKey_objOf_cons,
    lookupKey_objOf_nil, lookupKey_vecF, String.reduceEq, ite_true, ite_false, oOr_some,
    oOr_none, oOr_none_right,
    dFlat_articles article hv1,
    dFlat_chapters chapter hv2,
    dFlat_episodes episode hv3,
    dFlat_issues issue hv4,
    dFlat_seasons season hv5,
    dFlat_seriesPlain series hv6,
    dFlat_storyArcs story_arc hv7,
    dFlat_volumes volume hv8]
  rfl

theorem rtFeedMetadata (m : FeedMetadata) (hv : validFeedMetadata m = true) :
    decodeFeedMetadata (encodeFeedMetadata m) = .ok m := by
  obtain ⟨title, subtitle, identifier, schema, modified, description, items_per_page,
    current_page, number_of_items⟩ := m
  simp only [validFeedMetadata, Bool.and_eq_true, and_assoc] at hv
  obtain ⟨hv1, hv2, hv3⟩ := hv
  simp only [encodeFeedMetadata, feedMetadataFields, decodeFeedMetadata,
    lookupKey_objOf_cons, lookupKey_objOf_nil, lookupKey_reqF, lookupKey_optF,
    lookupKey_vecF, String.reduceEq, ite_true, ite_false, oOr_some, oOr_none,
    oOr_none_right,
    dPres_map_some title encodeSWA decodeSWA (rt_swa title hv1),
    dFlat_subtitles subtitle hv2,
    dOpt_map_v identifier encodeUrl decodeUrl schemeOk rt_url encodeUrl_ne_null hv3,
    dOpt_str, dOpt_nat, dReq_some]
  rfl

theorem rtPubMetadata (m : PublicationMetadata) (hv : validPubMetadata m = true) :
    decodePubMetadata (encodePubMetadata m) = .ok m := by
  obtain ⟨schema, conforms_to, title, sort_as, subtitle, author, description, identifier,
    alt_identifier, accessibility, modified, published, language, subject, layout,
    reading_progression, duration, abridged, number_of_pages, belongs_to, contains, tdm,
    translator, editor, artist, illustrator, letterer, penciler, colorist, inker,
    narrator, contributor, publisher, imprint⟩ := m
  simp only [validPubMetadata, Bool.and_eq_true, and_assoc] at hv
  obtain ⟨hv1, hv2, hv3, hv4, hv5, hv6, hv7, hv8, hv9, hv10, hv11, hv12, hv13, hv14,
    hv15, hv16, hv17, hv18, hv19, hv20, hv21, hv22, hv23, hv24⟩ := hv
  simp only [encodePubMetadata, pubMetadataFields, decodePubMetadata, lookupKey_objOf_cons,
    lookupKey_objOf_nil, lookupKey_reqF, lookupKey_optF, lookupKey_vecF, String.reduceEq,
    ite_true, ite_false, oOr_some, oOr_none, oOr_none_right,
    dOpt_str,
    dVec_rt conforms_to (encListJ encodeUrl) [] _
      (fun h => encListJ_eq_nil encodeUrl conforms_to h)
      (mapDec_rt_v conforms_to encodeUrl decodeUrl schemeOk rt_url hv1),
    dPres_map_some title encodeSWA decodeSWA (rt_swa title hv2),
    dOpt_map_v sort_as encodeSWA decodeSWA validSWA rt_swa encodeSWA_ne_null hv3,
    dOpt_map_v subtitle encodeSWA decodeSWA validSWA rt_swa encodeSWA_ne_null hv4,
    dFlat_contributors author hv5,
    dOpt_map_v identifier encodeUrl decodeUrl schemeOk rt_url encodeUrl_ne_null hv6,
    dFlat_altIds alt_identifier hv7,
    dOpt_map_v accessibility encodeAccessibility decodeAccessibility validAccessibility
      rtAccessibility (fun a h => by simp [encodeAccessibility] at h) hv8,
    dFlat_vecF_rt language (encListJ Json.str) [] _ _
      (fun h => encListJ_eq_nil Json.str language h)
      (mapDec_rt language Json.str decLang rt_decLang),
    dVec_rt subject (encListJ encodeSubject) [] _
      (fun h => encListJ_eq_nil encodeSubject subject h)
      (mapDec_rt_v subject encodeSubject decodeSubject validSubject rtSubject hv9),
    dOpt_publicationLayout, dOpt_readingProgression, dOpt_nat, dOpt_bool,
    dOpt_map_v belongs_to encodeBelongsTo decodeBelongsTo validBelongsTo rtBelongsTo
      (fun a h => by simp [encodeBelongsTo] at h) hv10,
    dOpt_map_v contains encodeContains decodeContains validContains rtContains
      (fun a h => by simp [encodeContains] at h) hv11,
    dOpt_map_v tdm encodeDataMining decodeDataMining validDataMining rtDataMining
      (fun a h => by simp [encodeDataMining] at h) hv12,
    dFlat_contributors translator hv13,
    dFlat_contributors editor hv14,
    dFlat_contributors artist hv15,
    dFlat_contributors illustrator hv16,
    dFlat_contributors letterer hv17,
    dFlat_contributors penciler hv18,
    dFlat_contributors colorist hv19,
    dFlat_contributors inker hv20,
    dFlat_contributors narrator hv21,
    dFlat_contributors contributor hv22,
    dFlat_contributors publisher hv23,
    dFlat_contributors imprint hv24,
    dReq_some]
  rfl

theorem rtPublication (p : Publication) (hv : validPublication p = true) :
    decodePublication (encodePublication p) = .ok p := by
  obtain ⟨metadata, links, images⟩ := p
  simp only [validPublication, Bool.and_eq_true, and_assoc] at hv
  obtain ⟨hv1, hv2, hv3⟩ := hv
  simp only [encodePublication, publicationFields, decodePublication, lookupKey_objOf_cons,
    lookupKey_objOf_nil, lookupKey_reqF, lookupKey_optF, lookupKey_vecF, String.reduceEq,
    ite_true, ite_false, oOr_some, oOr_none, oOr_none_right,
    dPres_map_some metadata encodePubMetadata decodePubMetadata (rtPubMetadata metadata hv1),
    dVecReq_rt "links" links (encListJ encodeLink) _ (rtLinkList links hv2),
    dVec_links images hv3, dReq_some]
  rfl

theorem rtFacet (fa : Facet) (hv : validFacet fa = true) :
    decodeFacet (encodeFacet fa) = .ok fa := by
  obtain ⟨metadata, links⟩ := fa
  simp only [validFacet, Bool.and_eq_true, and_assoc] at hv
  obtain ⟨hv1, hv2⟩ := hv
  simp only [encodeFacet, facetFields, decodeFacet, lookupKey_objOf_cons,
    lookupKey_objOf_nil, lookupKey_reqF, String.reduceEq, ite_true, ite_false, oOr_some,
    oOr_none, oOr_none_right,
    dPres_map_some metadata encodeFeedMetadata decodeFeedMetadata
      (rtFeedMetadata metadata hv1),
    dVecReq_rt "links" links (encListJ encodeLink) _ (rtLinkList links hv2),
    dReq_some]
  rfl

theorem rtFeedGroup (g : FeedGroup) (hv : validFeedGroup g = true) :
    decodeFeedGroup (encodeFeedGroup g) = .ok g := by
  obtain ⟨metadata, links, navigation, publications⟩ := g
  simp only [validFeedGroup, Bool.and_eq_true, and_assoc] at hv
  obtain ⟨hv1, hv2, hv3, hv4⟩ := hv
  simp only [encodeFeedGroup, feedGroupFields, decodeFeedGroup, lookupKey_objOf_cons,
    lookupKey_objOf_nil, lookupKey_reqF, lookupKey_optF, lookupKey_vecF, String.reduceEq,
    ite_true, ite_false, oOr_some, oOr_none, oOr_none_right,
    dPres_map_some metadata encodeFeedMetadata decodeFeedMetadata
      (rtFeedMetadata metadata hv1),
    dVec_links links hv2, dVec_links navigation hv3,
    dVec_rt publications (encListJ encodePublication) [] _
      (fun h => encListJ_eq_nil encodePublication publications h)
      (mapDec_rt_v publications encodePublication decodePublication validPublication
        rtPublication hv4),
    dReq_some]
  rfl

/-- The central round-trip lemma: parsing the encoding of a valid Feed
tree reproduces the tree exactly. -/
theorem roundtrip_feed (fe : Feed) (hv : validFeed fe = true) :
    decodeFeed (encodeFeed fe) = .ok fe := by
  obtain ⟨metadata, links, navigation, facets, publications, groups⟩ := fe
  simp only [validFeed, Bool.and_eq_true, and_assoc] at hv
  obtain ⟨hv1, hv2, hv3, hv4, hv5, hv6⟩ := hv
  simp only [encodeFeed, feedFields, decodeFeed, lookupKey_objOf_cons, lookupKey_objOf_nil,
    lookupKey_reqF, lookupKey_optF, lookupKey_vecF, String.reduceEq, ite_true, ite_false,
    oOr_some, oOr_none, oOr_none_right,
    dPres_map_some metadata encodeFeedMetadata decodeFeedMetadata
      (rtFeedMetadata metadata hv1),
    dVec_links links hv2, dVec_links navigation hv3,
    dVec_rt facets (encListJ encodeFacet) [] _
      (fun h => encListJ_eq_nil encodeFacet facets h)
      (mapDec_rt_v facets encodeFacet decodeFacet validFacet rtFacet hv4),
    dVec_rt publications (encListJ encodePublication) [] _
      (fun h => encListJ_eq_nil encodePublication publications h)
      (mapDec_rt_v publications encodePublication decodePublication validPublication
        rtPublication hv5),
    dVec_rt groups (encListJ encodeFeedGroup) [] _
      (fun h => encListJ_eq_nil encodeFeedGroup groups h)
      (mapDec_rt_v groups encodeFeedGroup decodeFeedGroup validFeedGroup rtFeedGroup hv6),
    dReq_some]
  rfl

/-! ## No-empty-field property of encoder output -/

@[simp]
theorem noEmptyJ_str (s : String) : noEmptyJ (.str s) = true := rfl

@[simp]
theorem noEmptyJ_num (q : Rat) : noEmptyJ (.num q) = true := rfl

@[simp]
theorem noEmptyJ_bool (b : Bool) : noEmptyJ (.bool b) = true := rfl

@[simp]
theorem noEmptyJ_jNat (n : Nat) : noEmptyJ (jNat n) = true := rfl

@[simp]
theorem noEmptyJ_obj (kvs : JsonObj) : noEmptyJ (.obj kvs) = noEmptyO kvs := rfl

@[simp]
theorem noEmptyJ_arr (js : JsonList) : noEmptyJ (.arr js) = noEmptyL js := rfl

@[simp]
theorem entryOk_str (k : String) (s : String) : entryOk k (.str s) = true := by
  simp [entryOk, isNull, isEmptyArr, isFalse]

@[simp]
theorem entryOk_num (k : String) (q : Rat) : entryOk k (.num q) = true := by
  simp [entryOk, isNull, isEmptyArr, isFalse]

@[simp]
theorem entryOk_obj (k : String) (kvs : JsonObj) : entryOk k (.obj kvs) = true := by
  simp [entryOk, isNull, isEmptyArr, isFalse]

@[simp]
theorem entryOk_arr_cons (k : String) (j : Json) (tl : JsonList) :
    entryOk k (.arr (.cons j tl)) = true := by
  simp [entryOk, isNull, isEmptyArr, isFalse]

@[simp]
theorem entryOk_bool_true (k : String) : entryOk k (.bool true) = true := by
  simp [entryOk, isNull, isEmptyArr, isFalse]

theorem noEmptyO_append (xs ys : JsonObj) :
    noEmptyO (xs.append ys) = (noEmptyO xs && noEmptyO ys) := by
  match xs with
  | .nil => simp [JsonObj.append, noEmptyO]
  | .cons k v tl =>
      simp only [JsonObj.append, noEmptyO, noEmptyO_append tl ys, Bool.and_assoc]

@[simp]
theorem noEmptyO_objOf_cons (s : JsonObj) (rest : List JsonObj) :
    noEmptyO (objOf (s :: rest)) = (noEmptyO s && noEmptyO (objOf rest)) := by
  simp [objOf, noEmptyO_append]

@[simp]
theorem noEmptyO_objOf_nil : noEmptyO (objOf []) = true := rfl

theorem neL_encListJ (enc : α → Json) (xs : List α)
    (h : ∀ a ∈ xs, noEmptyJ (enc a) = true) :
    noEmptyL (encListJ enc xs) = true := by
  match xs with
  | [] => rfl
  | a :: tl =>
      simp only [encListJ, noEmptyL, Bool.and_eq_true]
      exact ⟨h a (by simp), neL_encListJ enc tl (fun b hb => h b (by simp [hb]))⟩

theorem neO_opt (k : String) (o : Option α) (enc : α → Json)
    (h1 : ∀ a, entryOk k (enc a) = true) (h2 : ∀ a, noEmptyJ (enc a) = true) :
    noEmptyO (optF k (o.map enc)) = true := by
  cases o with
  | none => rfl
  | some a => simp [optF, noEmptyO, h1 a, h2 a]

theorem neO_reqF (k : String) (j : Json) (h1 : entryOk k j = true)
    (h2 : noEmptyJ j = true) : noEmptyO (reqF k j) = true := by
  simp [reqF, noEmptyO, h1, h2]

theorem neO_vecF (k : String) (js : JsonList) (h : noEmptyL js = true) :
    noEmptyO (vecF k js) = true := by
  cases js with
  | nil => rfl
  | cons j tl => simp_all [vecF, noEmptyO, noEmptyL]

theorem neO_vecF_enc (k : String) (xs : List α) (enc : α → Json)
    (h : ∀ a, noEmptyJ (enc a) = true) :
    noEmptyO (vecF k (encListJ enc xs)) = true :=
  neO_vecF k _ (neL_encListJ enc xs (fun a _ => h a))

theorem neO_flatF_enc (k : String) (xs : List α) (enc : α → Json)
    (h1 : ∀ a, entryOk k (enc a) = true) (h2 : ∀ a, noEmptyJ (enc a) = true) :
    noEmptyO (flatF k (encListJ enc xs)) = true := by
  match xs with
  | [] => rfl
  | [a] => simp [encListJ, flatF, noEmptyO, h1 a, h2 a]
  | a :: b :: tl =>
      have h := neL_encListJ enc (a :: b :: tl) (fun c _ => h2 c)
      simp only [encListJ] at h ⊢
      simp_all [flatF, noEmptyO, noEmptyL]

theorem neO_flagF (k : String) (b : Bool) : noEmptyO (flagF k b) = true := by
  cases b <;> simp [flagF, noEmptyO]

theorem neO_skipF (k : String) (skip : Bool) (j : Json) (h1 : entryOk k j = true)
    (h2 : noEmptyJ j = true) : noEmptyO (skipF k skip j) = true := by
  cases skip <;> simp [skipF, noEmptyO, h1, h2]

theorem neSWA (v : StringWithAlternates) : noEmptyJ (encodeSWA v) = true := by
  cases v with
  | always s => rfl
  | variants ts =>
      obtain ⟨choices⟩ := ts
      simp only [encodeSWA, encodeTaggedStrings, noEmptyJ_obj]
      induction choices with
      | nil => rfl
      | cons p tl ih =>
          obtain ⟨k, v⟩ := p
          simp [tsObj, noEmptyO, ih]

theorem nePrice (p : Price) : noEmptyJ (encodePrice p) = true := by
  obtain ⟨value, currency⟩ := p
  simp only [encodePrice, priceFields, noEmptyJ_obj, noEmptyO_objOf_cons, noEmptyO_objOf_nil,
    neO_reqF _ _ (entryOk_num _ _) (noEmptyJ_num _),
    neO_reqF _ _ (entryOk_str _ _) (noEmptyJ_str _), Bool.and_self]

theorem neHolds (h : Holds) : noEmptyJ (encodeHolds h) = true := by
  obtain ⟨total, position⟩ := h
  simp only [encodeHolds, holdsFields, noEmptyJ_obj, noEmptyO_objOf_cons, noEmptyO_objOf_nil,
    neO_opt _ _ jNat (fun n => entryOk_num _ _) (fun n => noEmptyJ_jNat n), Bool.and_self]

theorem neCopies (c : Copies) : noEmptyJ (encodeCopies c) = true := by
  obtain ⟨total, available⟩ := c
  simp only [encodeCopies, copiesFields, noEmptyJ_obj, noEmptyO_objOf_cons,
    noEmptyO_objOf_nil,
    neO_opt _ _ jNat (fun n => entryOk_num _ _) (fun n => noEmptyJ_jNat n), Bool.and_self]

theorem neAvailability (a : Availability) : noEmptyJ (encodeAvailability a) = true := by
  obtain ⟨state, since, until_⟩ := a
  simp only [encodeAvailability, availabilityFields, noEmptyJ_obj, noEmptyO_objOf_cons,
    noEmptyO_objOf_nil, encodeAvailabilityState,
    neO_reqF _ _ (entryOk_str _ _) (noEmptyJ_str _),
    neO_opt _ _ Json.str (fun s => entryOk_str _ _) (fun s => noEmptyJ_str s),
    Bool.and_self]

mutual
theorem neAcquisition (a : Acquisition) : noEmptyO (acquisitionFields a) = true := by
  obtain ⟨mime, child⟩ := a
  simp only [acquisitionFields, noEmptyO_objOf_cons, noEmptyO_objOf_nil,
    neO_reqF _ _ (entryOk_str _ _) (noEmptyJ_str _),
    neO_vecF _ _ (neAcquisitionList child), Bool.and_self]

theorem neAcquisitionList (ls : AcquisitionList) :
    noEmptyL (encodeAcquisitionList ls) = true := by
  match ls with
  | .nil => rfl
  | .cons hd tl =>
      simp only [encodeAcquisitionList, noEmptyL, noEmptyJ_obj, neAcquisition hd,
        neAcquisitionList tl, Bool.and_self]
end

theorem neCertification (c : AccessbilityCertification) :
    noEmptyJ (encodeCertification c) = true := by
  obtain ⟨certified_by, credential, report⟩ := c
  simp only [encodeCertification, certificationFields, noEmptyJ_obj, noEmptyO_objOf_cons,
    noEmptyO_objOf_nil,
    neO_opt _ _ Json.str (fun s => entryOk_str _ _) (fun s => noEmptyJ_str s),
    Bool.and_self]

theorem entryOk_accessMode_arr (js : JsonList) : entryOk "accessMode" (.arr js) = true := by
  cases js <;> simp [entryOk, isNull, isEmptyArr, isFalse, allowedEmptyKey]

theorem entryOk_feature_arr (js : JsonList) : entryOk "feature" (.arr js) = true := by
  cases js <;> simp [entryOk, isNull, isEmptyArr, isFalse, allowedEmptyKey]

theorem entryOk_hazard_arr (js : JsonList) : entryOk "hazard" (.arr js) = true := by
  cases js <;> simp [entryOk, isNull, isEmptyArr, isFalse, allowedEmptyKey]

theorem entryOk_links_arr (js : JsonList) : entryOk "links" (.arr js) = true := by
  cases js <;> simp [entryOk, isNull, isEmptyArr, isFalse, allowedEmptyKey]

theorem neAccessibility (a : AccessibilityMetadata) :
    noEmptyJ (encodeAccessibility a) = true := by
  obtain ⟨conforms_to, exemption, access_mode, feature, hazard, certification, summary⟩ := a
  simp only [encodeAccessibility, accessibilityFields, noEmptyJ_obj, noEmptyO_objOf_cons,
    noEmptyO_objOf_nil,
    neO_vecF_enc _ conforms_to encodeUrl (fun s => noEmptyJ_str s),
    neO_opt _ _ encodeAccessibilityExemption
      (fun v => entryOk_str _ (accessibilityExemptionString v))
      (fun v => noEmptyJ_str (accessibilityExemptionString v)),
    neO_reqF _ _ (entryOk_accessMode_arr _)
      (neL_encListJ encodeAccessMode access_mode (fun v _ => rfl)),
    neO_reqF _ _ (entryOk_feature_arr _)
      (neL_encListJ encodeAccessibilityFeature feature (fun v _ => rfl)),
    neO_reqF _ _ (entryOk_hazard_arr _)
      (neL_encListJ encodeAccessibilityHazard hazard (fun v _ => rfl)),
    neO_opt _ _ encodeCertification (fun c => entryOk_obj _ (certificationFields c))
      neCertification,
    neO_opt _ _ Json.str (fun s => entryOk_str _ _) (fun s => noEmptyJ_str s),
    Bool.and_self]

theorem neDataMining (d : DataMining) : noEmptyJ (encodeDataMining d) = true := by
  obtain ⟨reservation, policy⟩ := d
  simp only [encodeDataMining, dataMiningFields, noEmptyJ_obj, noEmptyO_objOf_cons,
    noEmptyO_objOf_nil, encodeReservation,
    neO_reqF _ _ (entryOk_str _ _) (noEmptyJ_str _),
    neO_opt _ _ encodeUrl (fun s => entryOk_str _ s) (fun s => noEmptyJ_str s),
    Bool.and_self]

theorem neAltIdentifier (a : AltIdentifier) : noEmptyJ (encodeAltIdentifier a) = true := by
  obtain ⟨value, scheme⟩ := a
  simp only [encodeAltIdentifier, altIdentifierFields, noEmptyJ_obj, noEmptyO_objOf_cons,
    noEmptyO_objOf_nil,
    neO_reqF _ _ (entryOk_str _ _) (noEmptyJ_str _),
    neO_opt _ _ encodeUrl (fun s => entryOk_str _ s) (fun s => noEmptyJ_str s),
    Bool.and_self]

theorem neLinkProperties (p : LinkProperties) :
    noEmptyJ (encodeLinkProperties p) = true := by
  obtain ⟨count, page, availability, price, indirect_acquisition, holds, copies⟩ := p
  simp only [encodeLinkProperties, linkPropertiesFields, noEmptyJ_obj, noEmptyO_objOf_cons,
    noEmptyO_objOf_nil,
    neO_opt _ _ jNat (fun n => entryOk_num _ _) (fun n => noEmptyJ_jNat n),
    neO_opt _ _ encodePageDisplay (fun v => entryOk_str _ (pageDisplayString v))
      (fun v => noEmptyJ_str (pageDisplayString v)),
    neO_opt _ _ encodeAvailability (fun a => entryOk_obj _ (availabilityFields a))
      neAvailability,
    neO_opt _ _ encodePrice (fun a => entryOk_obj _ (priceFields a)) nePrice,
    neO_vecF_enc _ indirect_acquisition encodeAcquisition
      (fun a => by simpa [encodeAcquisition] using neAcquisition a),
    neO_opt _ _ encodeHolds (fun a => entryOk_obj _ (holdsFields a)) neHolds,
    neO_opt _ _ encodeCopies (fun a => entryOk_obj _ (copiesFields a)) neCopies,
    Bool.and_self]

theorem entryOk_swa (k : String) (v : StringWithAlternates) :
    entryOk k (encodeSWA v) = true := by
  cases v <;> simp [encodeSWA, encodeTaggedStrings]

theorem entryOk_identifier (k : String) (i : Identifier) :
    entryOk k (encodeIdentifier i) = true := by
  cases i <;> simp [encodeIdentifier]

theorem neIdentifier (i : Identifier) : noEmptyJ (encodeIdentifier i) = true := by
  cases i <;> simp [encodeIdentifier]

mutual
theorem neLink (l : Link) : noEmptyO (linkFields l) = true := by
  obtain ⟨title, href, templated, mime, rel, properties, height, width, size, bitrate,
    duration, language, alternate, children⟩ := l
  simp only [linkFields, noEmptyO_objOf_cons, noEmptyO_objOf_nil,
    neO_opt _ _ Json.str (fun s => entryOk_str _ s) (fun s => noEmptyJ_str s),
    neO_flagF,
    neO_flatF_enc _ rel encodeRelation (fun r => entryOk_str _ (relationString r))
      (fun r => noEmptyJ_str (relationString r)),
    neO_skipF "properties" properties.is_empty (encodeLinkProperties properties)
      (show entryOk "properties" (encodeLinkProperties properties) = true from
        entryOk_obj _ _)
      (neLinkProperties properties),
    neO_opt _ _ jNat (fun n => entryOk_num _ _) (fun n => noEmptyJ_jNat n),
    neO_opt _ _ Json.num (fun q => entryOk_num _ q) (fun q => noEmptyJ_num q),
    neO_vecF_enc _ language Json.str (fun s => noEmptyJ_str s),
    neO_vecF _ _ (neLinkList alternate),
    neO_vecF _ _ (neLinkList children),
    Bool.and_self]

theorem neLinkList (ls : LinkList) : noEmptyL (encodeLinkList ls) = true := by
  match ls with
  | .nil => rfl
  | .cons hd tl =>
      simp only [encodeLinkList, noEmptyL, noEmptyJ_obj, neLink hd, neLinkList tl,
        Bool.and_self]
end

theorem neLinkJ (l : Link) : noEmptyJ (encodeLink l) = true := neLink l

theorem neContributor (c : Contributor) : noEmptyJ (encodeContributor c) = true := by
  obtain ⟨name, sort_as, identifier, alt_identifier, role, links⟩ := c
  simp only [encodeContributor, contributorFields, noEmptyJ_obj, noEmptyO_objOf_cons,
    noEmptyO_objOf_nil,
    neO_reqF _ _ (entryOk_swa _ name) (neSWA name),
    neO_opt _ _ encodeSWA (fun v => entryOk_swa _ v) neSWA,
    neO_opt _ _ encodeIdentifier (fun i => entryOk_identifier _ i) neIdentifier,
    neO_vecF_enc _ alt_identifier encodeAltIdentifier neAltIdentifier,
    neO_vecF_enc _ role Json.str (fun s => noEmptyJ_str s),
    neO_vecF_enc _ links encodeLink neLinkJ,
    Bool.and_self]

theorem neEpisode (e : Episode) : noEmptyJ (encodeEpisode e) = true := by
  obtain ⟨name, sort_as, identifier, alt_identifier, position, links⟩ := e
  simp only [encodeEpisode, episodeFields, noEmptyJ_obj, noEmptyO_objOf_cons,
    noEmptyO_objOf_nil,
    neO_opt _ _ encodeSWA (fun v => entryOk_swa _ v) neSWA,
    neO_opt _ _ encodeIdentifier (fun i => entryOk_identifier _ i) neIdentifier,
    neO_vecF_enc _ alt_identifier encodeAltIdentifier neAltIdentifier,
    jNat, neO_reqF _ _ (entryOk_num _ _) (noEmptyJ_num _),
    neO_vecF_enc _ links encodeLink neLinkJ,
    Bool.and_self]

theorem neCollection (c : Collection) : noEmptyJ (encodeCollection c) = true := by
  obtain ⟨name, sort_as, identifier, alt_identifier, position, links⟩ := c
  simp only [encodeCollection, collectionFields, noEmptyJ_obj, noEmptyO_objOf_cons,
    noEmptyO_objOf_nil,
    neO_reqF _ _ (entryOk_swa _ name) (neSWA name),
    neO_opt _ _ encodeSWA (fun v => entryOk_swa _ v) neSWA,
    neO_opt _ _ encodeIdentifier (fun i => entryOk_identifier _ i) neIdentifier,
    neO_vecF_enc _ alt_identifier encodeAltIdentifier neAltIdentifier,
    neO_opt _ _ jNat (fun n => entryOk_num _ _) (fun n => noEmptyJ_jNat n),
    neO_vecF_enc _ links encodeLink neLinkJ,
    Bool.and_self]

theorem neSubject (s : Subject) : noEmptyJ (encodeSubject s) = true := by
  obtain ⟨name, sort_as, code, scheme, links⟩ := s
  simp only [encodeSubject, subjectFields, noEmptyJ_obj, noEmptyO_objOf_cons,
    noEmptyO_objOf_nil,
    neO_reqF _ _ (entryOk_swa _ name) (neSWA name),
    neO_opt _ _ encodeSWA (fun v => entryOk_swa _ v) neSWA,
    neO_opt _ _ Json.str (fun t => entryOk_str _ t) (fun t => noEmptyJ_str t),
    neO_opt _ _ encodeUrl (fun t => entryOk_str _ t) (fun t => noEmptyJ_str t),
    neO_vecF_enc _ links encodeLink neLinkJ,
    Bool.and_self]

theorem neArticle (a : Article) : noEmptyJ (encodeArticle a) = true := by
  obtain ⟨name, sort_as, identifier, alt_identifier, author, translator, editor, artist,
    illustrator, contributor, description, number_of_pages, position, links⟩ := a
  simp only [encodeArticle, articleFields, noEmptyJ_obj, noEmptyO_objOf_cons,
    noEmptyO_objOf_nil,
    neO_reqF _ _ (entryOk_swa _ name) (neSWA name),
    neO_opt _ _ encodeSWA (fun v => entryOk_swa _ v) neSWA,
    neO_opt _ _ encodeIdentifier (fun i => entryOk_identifier _ i) neIdentifier,
    neO_vecF_enc _ alt_identifier encodeAltIdentifier neAltIdentifier,
    neO_vecF_enc _ author encodeContributor neContributor,
    neO_vecF_enc _ translator encodeContributor neContributor,
    neO_vecF_enc _ editor encodeContributor neContributor,
    neO_vecF_enc _ artist encodeContributor neContributor,
    neO_vecF_enc _ illustrator encodeContributor neContributor,
    neO_vecF_enc _ contributor encodeContributor neContributor,
    neO_opt _ _ Json.str (fun t => entryOk_str _ t) (fun t => noEmptyJ_str t),
    neO_opt _ _ jNat (fun n => entryOk_num _ _) (fun n => noEmptyJ_jNat n),
    neO_vecF_enc _ links encodeLink neLinkJ,
    Bool.and_self]

mutual
theorem neIssue (x : Issue) : noEmptyO (issueFields x) = true := by
  obtain ⟨name, sort_as, identifier, alt_identifier, position, links, article, chapter⟩ := x
  simp only [issueFields, noEmptyO_objOf_cons, noEmptyO_objOf_nil,
    neO_opt _ _ encodeSWA (fun v => entryOk_swa _ v) neSWA,
    neO_opt _ _ encodeIdentifier (fun i => entryOk_identifier _ i) neIdentifier,
    neO_vecF_enc _ alt_identifier encodeAltIdentifier neAltIdentifier,
    jNat, neO_reqF _ _ (entryOk_num _ _) (noEmptyJ_num _),
    neO_vecF_enc _ links encodeLink neLinkJ,
    neO_vecF_enc _ article encodeArticle neArticle,
    neO_vecF _ _ (neChapterList chapter),
    Bool.and_self]

theorem neChapter (x : Chapter) : noEmptyO (chapterFields x) = true := by
  obtain ⟨name, sort_as, identifier, alt_identifier, position, links, series⟩ := x
  simp only [chapterFields, noEmptyO_objOf_cons, noEmptyO_objOf_nil,
    neO_opt _ _ encodeSWA (fun v => entryOk_swa _ v) neSWA,
    neO_opt _ _ encodeIdentifier (fun i => entryOk_identifier _ i) neIdentifier,
    neO_vecF_enc _ alt_identifier encodeAltIdentifier neAltIdentifier,
    jNat, neO_reqF _ _ (entryOk_num _ _) (noEmptyJ_num _),
    neO_vecF_enc _ links encodeLink neLinkJ,
    neO_vecF _ _ (neSeriesList series),
    Bool.and_self]

theorem neSeries (x : Series) : noEmptyO (seriesFields x) = true := by
  obtain ⟨name, sort_as, identifier, alt_identifier, position, links, chapter, episode,
    issue, season, story_arc, volume⟩ := x
  simp only [seriesFields, noEmptyO_objOf_cons, noEmptyO_objOf_nil,
    neO_reqF _ _ (entryOk_swa _ name) (neSWA name),
    neO_opt _ _ encodeSWA (fun v => entryOk_swa _ v) neSWA,
    neO_opt _ _ encodeIdentifier (fun i => entryOk_identifier _ i) neIdentifier,
    neO_vecF_enc _ alt_identifier encodeAltIdentifier neAltIdentifier,
    neO_opt _ _ jNat (fun n => entryOk_num _ _) (fun n => noEmptyJ_jNat n),
    neO_vecF_enc _ links encodeLink neLinkJ,
    neO_vecF _ _ (neChapterList chapter),
    neO_vecF_enc _ episode encodeEpisode neEpisode,
    neO_vecF _ _ (neIssueList issue),
    neO_vecF _ _ (neSeasonList season),
    neO_vecF _ _ (neStoryArcList story_arc),
    neO_vecF _ _ (neVolumeList volume),
    Bool.and_self]

theorem neSeason (x : Season) : noEmptyO (seasonFields x) = true := by
  obtain ⟨name, sort_as, identifier, alt_identifier, position, links, article, chapter⟩ := x
  simp only [seasonFields, noEmptyO_objOf_cons, noEmptyO_objOf_nil,
    neO_opt _ _ encodeSWA (fun v => entryOk_swa _ v) neSWA,
    neO_opt _ _ encodeIdentifier (fun i => entryOk_identifier _ i) neIdentifier,
    neO_vecF_enc _ alt_identifier encodeAltIdentifier neAltIdentifier,
    jNat, neO_reqF _ _ (entryOk_num _ _) (noEmptyJ_num _),
    neO_vecF_enc _ links encodeLink neLinkJ,
    neO_vecF_enc _ article encodeArticle neArticle,
    neO_vecF _ _ (neChapterList chapter),
    Bool.and_self]

theorem neStoryArc (x : StoryArc) : noEmptyO (storyArcFields x) = true := by
  obtain ⟨name, sort_as, identifier, alt_identifier, position, links, chapter, issue,
    episode⟩ := x
  simp only [storyArcFields, noEmptyO_objOf_cons, noEmptyO_objOf_nil,
    neO_opt _ _ encodeSWA (fun v => entryOk_swa _ v) neSWA,
    neO_opt _ _ encodeIdentifier (fun i => entryOk_identifier _ i) neIdentifier,
    neO_vecF_enc _ alt_identifier encodeAltIdentifier neAltIdentifier,
    jNat, neO_reqF _ _ (entryOk_num _ _) (noEmptyJ_num _),
    neO_vecF_enc _ links encodeLink neLinkJ,
    neO_vecF _ _ (neChapterList chapter),
    neO_vecF _ _ (neIssueList issue),
    neO_vecF_enc _ episode encodeEpisode neEpisode,
    Bool.and_self]

theorem neVolume (x : Volume) : noEmptyO (volumeFields x) = true := by
  obtain ⟨name, sort_as, identifier, alt_identifier, position, links, chapter, issue,
    story_arc⟩ := x
  simp only [volumeFields, noEmptyO_objOf_cons, noEmptyO_objOf_nil,
    neO_opt _ _ encodeSWA (fun v => entryOk_swa _ v) neSWA,
    neO_opt _ _ encodeIdentifier (fun i => entryOk_identifier _ i) neIdentifier,
    neO_vecF_enc _ alt_identifier encodeAltIdentifier neAltIdentifier,
    jNat, neO_reqF _ _ (entryOk_num _ _) (noEmptyJ_num _),
    neO_vecF_enc _ links encodeLink neLinkJ,
    neO_vecF _ _ (neChapterList chapter),
    neO_vecF _ _ (neIssueList issue),
    neO_vecF _ _ (neStoryArcList story_arc),
    Bool.and_self]

theorem neIssueList (ls : IssueList) : noEmptyL (encodeIssueList ls) = true := by
  match ls with
  | .nil => rfl
  | .cons hd tl =>
      simp only [encodeIssueList, noEmptyL, noEmptyJ_obj, neIssue hd, neIssueList tl,
        Bool.and_self]

theorem neChapterList (ls : ChapterList) : noEmptyL (encodeChapterList ls) = true := by
  match ls with
  | .nil => rfl
  | .cons hd tl =>
      simp only [encodeChapterList, noEmptyL, noEmptyJ_obj, neChapter hd, neChapterList tl,
        Bool.and_self]

theorem neSeriesList (ls : SeriesList) : noEmptyL (encodeSeriesList ls) = true := by
  match ls with
  | .nil => rfl
  | .cons hd tl =>
      simp only [encodeSeriesList, noEmptyL, noEmptyJ_obj, neSeries hd, neSeriesList tl,
        Bool.and_self]

theorem neSeasonList (ls : SeasonList) : noEmptyL (encodeSeasonList ls) = true := by
  match ls with
  | .nil => rfl
  | .cons hd tl =>
      simp only [encodeSeasonList, noEmptyL, noEmptyJ_obj, neSeason hd, neSeasonList tl,
        Bool.and_self]

theorem neStoryArcList (ls : StoryArcList) : noEmptyL (encodeStoryArcList ls) = true := by
  match ls with
  | .nil => rfl
  | .cons hd tl =>
      simp only [encodeStoryArcList, noEmptyL, noEmptyJ_obj, neStoryArc hd,
        neStoryArcList tl, Bool.and_self]

theorem neVolumeList (ls : VolumeList) : noEmptyL (encodeVolumeList ls) = true := by
  match ls with
  | .nil => rfl
  | .cons hd tl =>
      simp only [encodeVolumeList, noEmptyL, noEmptyJ_obj, neVolume hd, neVolumeList tl,
        Bool.and_self]
end

theorem neIssueJ (x : Issue) : noEmptyJ (encodeIssue x) = true := neIssue x
theorem neChapterJ (x : Chapter) : noEmptyJ (encodeChapter x) = true := neChapter x
theorem neSeriesJ (x : Series) : noEmptyJ (encodeSeries x) = true := neSeries x
theorem neSeasonJ (x : Season) : noEmptyJ (encodeSeason x) = true := neSeason x
theorem neStoryArcJ (x : StoryArc) : noEmptyJ (encodeStoryArc x) = true := neStoryArc x
theorem neVolumeJ (x : Volume) : noEmptyJ (encodeVolume x) = true := neVolume x

theorem nePeriodical (p : Periodical) : noEmptyJ (encodePeriodical p) = true := by
  obtain ⟨name, sort_as, identifier, alt_identifier, position, links, issue, volume⟩ := p
  simp only [encodePeriodical, periodicalFields, noEmptyJ_obj, noEmptyO_objOf_cons,
    noEmptyO_objOf_nil,
    neO_reqF _ _ (entryOk_swa _ name) (neSWA name),
    neO_opt _ _ encodeSWA (fun v => entryOk_swa _ v) neSWA,
    neO_opt _ _ encodeIdentifier (fun i => entryOk_identifier _ i) neIdentifier,
    neO_vecF_enc _ alt_identifier encodeAltIdentifier neAltIdentifier,
    neO_opt _ _ jNat (fun n => entryOk_num _ _) (fun n => noEmptyJ_jNat n),
    neO_vecF_enc _ links encodeLink neLinkJ,
    neO_vecF_enc _ issue encodeIssue neIssueJ,
    neO_vecF_enc _ volume encodeVolume neVolumeJ,
    Bool.and_self]

theorem neBelongsTo (b : BelongsTo) : noEmptyJ (encodeBelongsTo b) = true := by
  obtain ⟨collection, journal, magazine, newspaper, periodical, season, series, story_arc,
    volume⟩ := b
  simp only [encodeBelongsTo, belongsToFields, noEmptyJ_obj, noEmptyO_objOf_cons,
    noEmptyO_objOf_nil,
    neO_vecF_enc _ collection encodeCollection neCollection,
    neO_vecF_enc _ journal encodePeriodical nePeriodical,
    neO_vecF_enc _ magazine encodePeriodical nePeriodical,
    neO_vecF_enc _ newspaper encodePeriodical nePeriodical,
    neO_vecF_enc _ periodical encodePeriodical nePeriodical,
    neO_vecF_enc _ season encodeSeason neSeasonJ,
    neO_vecF_enc _ series encodeSeries neSeriesJ,
    neO_vecF_enc _ story_arc encodeStoryArc neStoryArcJ,
    neO_vecF_enc _ volume encodeVolume neVolumeJ,
    Bool.and_self]

theorem neContains (c : Contains) : noEmptyJ (encodeContains c) = true := by
  obtain ⟨article, chapter, episode, issue, season, series, story_arc, volume⟩ := c
  simp only [encodeContains, containsFields, noEmptyJ_obj, noEmptyO_objOf_cons,
    noEmptyO_objOf_nil,
    neO_vecF_enc _ article encodeArticle neArticle,
    neO_vecF_enc _ chapter encodeChapter neChapterJ,
    neO_vecF_enc _ episode encodeEpisode neEpisode,
    neO_vecF_enc _ issue encodeIssue neIssueJ,
    neO_vecF_enc _ season encodeSeason neSeasonJ,
    neO_vecF_enc _ series encodeSeries neSeriesJ,
    neO_vecF_enc _ story_arc encodeStoryArc neStoryArcJ,
    neO_vecF_enc _ volume encodeVolume neVolumeJ,
    Bool.and_self]

theorem neFeedMetadata (m : FeedMetadata) : noEmptyJ (encodeFeedMetadata m) = true := by
  obtain ⟨title, subtitle, identifier, schema, modified, description, items_per_page,
    current_page, number_of_items⟩ := m
  simp only [encodeFeedMetadata, feedMetadataFields, noEmptyJ_obj, noEmptyO_objOf_cons,
    noEmptyO_objOf_nil,
    neO_reqF _ _ (entryOk_swa _ title) (neSWA title),
    neO_vecF_enc _ subtitle encodeSWA neSWA,
    neO_opt _ _ encodeUrl (fun t => entryOk_str _ t) (fun t => noEmptyJ_str t),
    neO_opt _ _ Json.str (fun t => entryOk_str _ t) (fun t => noEmptyJ_str t),
    neO_opt _ _ jNat (fun n => entryOk_num _ _) (fun n => noEmptyJ_jNat n),
    Bool.and_self]

theorem nePubMetadata (m : PublicationMetadata) : noEmptyJ (encodePubMetadata m) = true := by
  obtain ⟨schema, conforms_to, title, sort_as, subtitle, author, description, identifier,
    alt_identifier, accessibility, modified, published, language, subject, layout,
    reading_progression, duration, abridged, number_of_pages, belongs_to, contains, tdm,
    translator, editor, artist, illustrator, letterer, penciler, colorist, inker,
    narrator, contributor, publisher, imprint⟩ := m
  have habr : noEmptyO (optF "abridged" (abridged.map Json.bool)) = true := by
    cases abridged with
    | none => rfl
    | some b => cases b <;> simp [optF, noEmptyO, entryOk, isNull, isEmptyArr, isFalse]
  simp only [encodePubMetadata, pubMetadataFields, noEmptyJ_obj, noEmptyO_objOf_cons,
    noEmptyO_objOf_nil, habr,
    neO_opt _ _ Json.str (fun t => entryOk_str _ t) (fun t => noEmptyJ_str t),
    neO_vecF_enc _ conforms_to encodeUrl (fun t => noEmptyJ_str t),
    neO_reqF _ _ (entryOk_swa _ title) (neSWA title),
    neO_opt _ _ encodeSWA (fun v => entryOk_swa _ v) neSWA,
    neO_vecF_enc _ author encodeContributor neContributor,
    neO_opt _ _ encodeUrl (fun t => entryOk_str _ t) (fun t => noEmptyJ_str t),
    neO_vecF_enc _ alt_identifier encodeAltIdentifier neAltIdentifier,
    neO_opt _ _ encodeAccessibility
      (fun a => entryOk_obj _ (accessibilityFields a)) neAccessibility,
    neO_vecF_enc _ language Json.str (fun t => noEmptyJ_str t),
    neO_vecF_enc _ subject encodeSubject neSubject,
    neO_opt _ _ encodePublicationLayout
      (fun v => entryOk_str _ (publicationLayoutString v))
      (fun v => noEmptyJ_str (publicationLayoutString v)),
    neO_opt _ _ encodeReadingProgression
      (fun v => entryOk_str _ (readingProgressionString v))
      (fun v => noEmptyJ_str (readingProgressionString v)),
    neO_opt _ _ jNat (fun n => entryOk_num _ _) (fun n => noEmptyJ_jNat n),
    neO_opt _ _ encodeBelongsTo (fun a => entryOk_obj _ (belongsToFields a)) neBelongsTo,
    neO_opt _ _ encodeContains (fun a => entryOk_obj _ (containsFields a)) neContains,
    neO_opt _ _ encodeDataMining (fun a => entryOk_obj _ (dataMiningFields a)) neDataMining,
    neO_vecF_enc _ translator encodeContributor neContributor,
    neO_vecF_enc _ editor encodeContributor neContributor,
    neO_vecF_enc _ artist encodeContributor neContributor,
    neO_vecF_enc _ illustrator encodeContributor neContributor,
    neO_vecF_enc _ letterer encodeContributor neContributor,
    neO_vecF_enc _ penciler encodeContributor neContributor,
    neO_vecF_enc _ colorist encodeContributor neContributor,
    neO_vecF_enc _ inker encodeContributor neContributor,
    neO_vecF_enc _ narrator encodeContributor neContributor,
    neO_vecF_enc _ contributor encodeContributor neContributor,
    neO_vecF_enc _ publisher encodeContributor neContributor,
    neO_vecF_enc _ imprint encodeContributor neContributor,
    Bool.and_self]

theorem nePublication (p : Publication) : noEmptyJ (encodePublication p) = true := by
  obtain ⟨metadata, links, images⟩ := p
  simp only [encodePublication, publicationFields, noEmptyJ_obj, noEmptyO_objOf_cons,
    noEmptyO_objOf_nil,
    neO_reqF "metadata" (encodePubMetadata metadata)
      (show entryOk "metadata" (encodePubMetadata metadata) = true from entryOk_obj _ _)
      (nePubMetadata metadata),
    neO_reqF _ _ (entryOk_links_arr _)
      (neL_encListJ encodeLink links (fun l _ => neLinkJ l)),
    neO_vecF_enc _ images encodeLink neLinkJ,
    Bool.and_self]

theorem neFacet (fa : Facet) : noEmptyJ (encodeFacet fa) = true := by
  obtain ⟨metadata, links⟩ := fa
  simp only [encodeFacet, facetFields, noEmptyJ_obj, noEmptyO_objOf_cons, noEmptyO_objOf_nil,
    neO_reqF "metadata" (encodeFeedMetadata metadata)
      (show entryOk "metadata" (encodeFeedMetadata metadata) = true from entryOk_obj _ _)
      (neFeedMetadata metadata),
    neO_reqF _ _ (entryOk_links_arr _)
      (neL_encListJ encodeLink links (fun l _ => neLinkJ l)),
    Bool.and_self]

theorem neFeedGroup (g : FeedGroup) : noEmptyJ (encodeFeedGroup g) = true := by
  obtain ⟨metadata, links, navigation, publications⟩ := g
  simp only [encodeFeedGroup, feedGroupFields, noEmptyJ_obj, noEmptyO_objOf_cons,
    noEmptyO_objOf_nil,
    neO_reqF "metadata" (encodeFeedMetadata metadata)
      (show entryOk "metadata" (encodeFeedMetadata metadata) = true from entryOk_obj _ _)
      (neFeedMetadata metadata),
    neO_vecF_enc _ links encodeLink neLinkJ,
    neO_vecF_enc _ navigation encodeLink neLinkJ,
    neO_vecF_enc _ publications encodePublication nePublication,
    Bool.and_self]

/-- Encoder output never contains a `null` value, never an empty-array
value except under the always-serialized keys, and never a false
`templated` flag. -/
theorem neFeed (fe : Feed) : noEmptyJ (encodeFeed fe) = true := by
  obtain ⟨metadata, links, navigation, facets, publications, groups⟩ := fe
  simp only [encodeFeed, feedFields, noEmptyJ_obj, noEmptyO_objOf_cons, noEmptyO_objOf_nil,
    neO_reqF "metadata" (encodeFeedMetadata metadata)
      (show entryOk "metadata" (encodeFeedMetadata metadata) = true from entryOk_obj _ _)
      (neFeedMetadata metadata),
    neO_vecF_enc _ links encodeLink neLinkJ,
    neO_vecF_enc _ navigation encodeLink neLinkJ,
    neO_vecF_enc _ facets encodeFacet neFacet,
    neO_vecF_enc _ publications encodePublication nePublication,
    neO_vecF_enc _ groups encodeFeedGroup neFeedGroup,
    Bool.and_self]

/-! # Helper lemmas for the claim theorems -/

theorem exBind_ok (a : α) (f : α → Except Err β) :
    (Except.ok a >>= f) = f a := rfl

theorem exBind_error (x : Err) (f : α → Except Err β) :
    ((Except.error x : Except Err α) >>= f) = .error x := rfl

theorem exMap_error (x : Err) (f : α → β) :
    Except.map f (.error x : Except Err α) = .error x := rfl

theorem bind_eq_ok {e : Except Err α} {f : α → Except Err β} {b : β}
    (h : (e >>= f) = .ok b) : ∃ a, e = .ok a ∧ f a = .ok b := by
  cases e with
  | ok a => exact ⟨a, rfl, h⟩
  | error x => rw [exBind_error] at h; exact Except.noConfusion h

theorem map_eq_ok {e : Except Err α} {f : α → β} {b : β}
    (h : Except.map f e = .ok b) : ∃ a, e = .ok a ∧ f a = b := by
  cases e with
  | ok a => rw [exMap_ok] at h; exact ⟨a, rfl, Except.ok.inj h⟩
  | error x => rw [exMap_error] at h; exact Except.noConfusion h

theorem isOk_exists {e : Except Err α} (h : e.isOk = true) : ∃ a, e = .ok a := by
  cases e with
  | ok a => exact ⟨a, rfl⟩
  | error x => exact Bool.noConfusion h

/-- Whatever the rest of the metadata object holds, a missing title key
makes the metadata decoder fail: serde checks the required field after the
present ones, and a do-chain that reaches the check errors there. -/
theorem decodeFeedMetadata_no_title (m : JsonObj) (h : lookupKey m "title" = none)
    (md : FeedMetadata) : decodeFeedMetadata (.obj m) ≠ .ok md := by
  intro hc
  simp only [decodeFeedMetadata, h, dPres_none, exBind_ok] at hc
  obtain ⟨v1, h1, hc⟩ := bind_eq_ok hc
  obtain ⟨v2, h2, hc⟩ := bind_eq_ok hc
  obtain ⟨v3, h3, hc⟩ := bind_eq_ok hc
  obtain ⟨v4, h4, hc⟩ := bind_eq_ok hc
  obtain ⟨v5, h5, hc⟩ := bind_eq_ok hc
  obtain ⟨v6, h6, hc⟩ := bind_eq_ok hc
  obtain ⟨v7, h7, hc⟩ := bind_eq_ok hc
  obtain ⟨v8, h8, hc⟩ := bind_eq_ok hc
  obtain ⟨v9, h9, hc⟩ := bind_eq_ok hc
  rw [show dReq "title" (none : Option StringWithAlternates)
    = .error (.missingField "title") from rfl] at h9
  exact Except.noConfusion h9

/-- When every other present field of the metadata object decodes, the
missing title is the error serde reports. -/
theorem decodeFeedMetadata_missing_title (m : JsonObj)
    (h : lookupKey m "title" = none) (hok : feedMetadataOthersOk m = true) :
    decodeFeedMetadata (.obj m) = .error (.missingField "title") := by
  simp only [feedMetadataOthersOk, Bool.and_eq_true, and_assoc] at hok
  obtain ⟨o1, o2, o3, o4, o5, o6, o7, o8⟩ := hok
  obtain ⟨v1, e1⟩ := isOk_exists o1
  obtain ⟨v2, e2⟩ := isOk_exists o2
  obtain ⟨v3, e3⟩ := isOk_exists o3
  obtain ⟨v4, e4⟩ := isOk_exists o4
  obtain ⟨v5, e5⟩ := isOk_exists o5
  obtain ⟨v6, e6⟩ := isOk_exists o6
  obtain ⟨v7, e7⟩ := isOk_exists o7
  obtain ⟨v8, e8⟩ := isOk_exists o8
  simp only [decodeFeedMetadata, h, dPres_none, e1, e2, e3, e4, e5, e6, e7, e8,
    exBind_ok]
  rfl

/-- The two-entry map of the C4 witness has strictly sorted keys. Under
Mathlib the decidable instance for the string order does not reduce, so the
comparison is settled on the character lists. -/
theorem keysSorted_de_en : keysSorted [("de", "Autoren"), ("en", "Authors")] = true := by
  simp only [keysSorted, Bool.and_eq_true, decide_eq_true_eq, String.lt_iff_toList_lt]
  exact ⟨by decide, trivial⟩

/-! # The claims -/

/-- C1 (amended): for every valid tree, parsing the encoding returns the
tree unchanged. The validity predicate strengthens the section 3
invariants by requiring every identifier to be in accepted-URL form: a
tree whose identifier is a URN satisfies the spec's invariants but does
not round-trip (see the counterexample), because the untagged Identifier
parser tries the Url variant first and url::Url::parse accepts urn:
strings. -/
theorem claim_C1_roundtrip_amended (fe : Feed) (hv : validFeed fe = true) :
    decodeFeed (encodeFeed fe) = .ok fe := roundtrip_feed fe hv

/-- C1 witness: a concrete valid feed with a localized title, a self link
and a publication belonging to season 3 round-trips. -/
theorem claim_C1_roundtrip_amended_witness :
    validFeed exampleFeed = true ∧ decodeFeed (encodeFeed exampleFeed) = .ok exampleFeed :=
  ⟨rfl, claim_C1_roundtrip_amended exampleFeed rfl⟩

/-- C1 counterexample: feedUrn carries a Urn identifier, breaking none of
the section 3 invariants (its relation lists are empty and its localized
strings are scalars), yet re-parsing its encoding yields a different tree:
the identifier comes back as Url, so parse-after-encode is not
field-for-field equality on all valid trees. -/
theorem claim_C1_counterexample :
    decodeFeed (encodeFeed feedUrn) = .ok feedUrl ∧ feedUrl ≠ feedUrn := by
  refine ⟨rfl, ?_⟩
  simp [feedUrn, feedUrl, feedWithAuthor, contributorUrn, contributorUrl]

/-- C2: every fixed spelling resolves to its fixed tag, every acquisition
URI to its acquisition sub-tag, any other string to Custom with the text
verbatim, and deserializing a relation string never fails. -/
theorem claim_C2_relation_resolution :
    (∀ p ∈ fixedRelationTable, resolveRelation p.1 = p.2) ∧
    (∀ p ∈ acquisitionTable, resolveRelation p.1 = .acquisition p.2) ∧
    (∀ s : String, s ∉ fixedRelationStrings → s ∉ acquisitionStrings →
      resolveRelation s = .custom s) ∧
    (∀ s : String, decodeRelation (.str s) = .ok (resolveRelation s)) := by
  refine ⟨by decide, by decide, ?_, fun s => rfl⟩
  intro s h1 h2
  simp only [fixedRelationStrings, List.mem_cons, List.not_mem_nil, or_false,
    not_or] at h1
  simp only [acquisitionStrings, List.mem_cons, List.not_mem_nil, or_false,
    not_or] at h2
  obtain ⟨n1, n2, n3, n4, n5, n6, n7, n8, n9, n10, n11, n12, n13, n14, n15⟩ := h1
  obtain ⟨m1, m2, m3, m4, m5, m6⟩ := h2
  simp [resolveRelation, resolveAcquisition, n1, n2, n3, n4, n5, n6, n7, n8, n9,
    n10, n11, n12, n13, n14, n15, m1, m2, m3, m4, m5, m6]

/-- C2 witness: the fixed spelling self resolves to Myself, and a string in
neither table resolves to Custom verbatim. -/
theorem claim_C2_relation_resolution_witness :
    ("self", Relation.myself) ∈ fixedRelationTable ∧
    resolveRelation "self" = Relation.myself ∧
    "tag:books" ∉ fixedRelationStrings ∧ "tag:books" ∉ acquisitionStrings ∧
    resolveRelation "tag:books" = .custom "tag:books" :=
  ⟨by decide, claim_C2_relation_resolution.1 ("self", .myself) (by decide),
   by decide, by decide,
   claim_C2_relation_resolution.2.2.1 "tag:books" (by decide) (by decide)⟩

/-- C3 counterexample: the accessibility struct serializes accessMode,
feature and hazard unconditionally (no skip_serializing_if), so publication
metadata holding an all-empty accessibility object emits them as empty
arrays, where the claim requires every empty collection to be omitted. -/
theorem claim_C3_counterexample :
    lookupKey (pubMetadataFields pmA11y) "accessibility"
      = some (.obj (accessibilityFields emptyA11y)) ∧
    lookupKey (accessibilityFields emptyA11y) "accessMode" = some (.arr .nil) ∧
    lookupKey (accessibilityFields emptyA11y) "feature" = some (.arr .nil) ∧
    lookupKey (accessibilityFields emptyA11y) "hazard" = some (.arr .nil) :=
  ⟨rfl, rfl, rfl, rfl⟩

/-- C3 (amended). First conjunct: encoder output never contains a null
value, never a false templated flag, and never an empty-array value except
under the key names serde always serializes (accessMode, feature, hazard,
links). Since the tree traversal whitelists links by key name while only
Publication and Facet actually always serialize it, the remaining
conjuncts pin the exception down site by site: every skip-when-empty links
field — of Feed, FeedGroup, Contributor, Episode, Collection, Subject,
Article, Periodical, Issue, Chapter, Series, Season, StoryArc and Volume —
is omitted entirely when its list is empty, whatever the other fields
hold, while Publication and Facet always emit their links entry. -/
theorem claim_C3_no_empty_amended :
    (∀ fe : Feed, noEmptyJ (encodeFeed fe) = true) ∧
    (∀ fe : Feed, lookupKey (feedFields { fe with links := [] }) "links" = none) ∧
    (∀ g : FeedGroup, lookupKey (feedGroupFields { g with links := [] }) "links" = none) ∧
    (∀ c : Contributor,
      lookupKey (contributorFields { c with links := [] }) "links" = none) ∧
    (∀ e : Episode, lookupKey (episodeFields { e with links := [] }) "links" = none) ∧
    (∀ c : Collection, lookupKey (collectionFields { c with links := [] }) "links" = none) ∧
    (∀ s : Subject, lookupKey (subjectFields { s with links := [] }) "links" = none) ∧
    (∀ a : Article, lookupKey (articleFields { a with links := [] }) "links" = none) ∧
    (∀ p : Periodical, lookupKey (periodicalFields { p with links := [] }) "links" = none) ∧
    (∀ (n s : Option StringWithAlternates) (i : Option Identifier)
      (ai : List AltIdentifier) (pos : Nat) (art : List Article) (ch : ChapterList),
      lookupKey (issueFields (.mk n s i ai pos [] art ch)) "links" = none) ∧
    (∀ (n s : Option StringWithAlternates) (i : Option Identifier)
      (ai : List AltIdentifier) (pos : Nat) (se : SeriesList),
      lookupKey (chapterFields (.mk n s i ai pos [] se)) "links" = none) ∧
    (∀ (n : StringWithAlternates) (s : Option StringWithAlternates)
      (i : Option Identifier) (ai : List AltIdentifier) (pos : Option Nat)
      (ch : ChapterList) (ep : List Episode) (isl : IssueList) (sea : SeasonList)
      (sa : StoryArcList) (vo : VolumeList),
      lookupKey (seriesFields (.mk n s i ai pos [] ch ep isl sea sa vo)) "links" = none) ∧
    (∀ (n s : Option StringWithAlternates) (i : Option Identifier)
      (ai : List AltIdentifier) (pos : Nat) (art : List Article) (ch : ChapterList),
      lookupKey (seasonFields (.mk n s i ai pos [] art ch)) "links" = none) ∧
    (∀ (n s : Option StringWithAlternates) (i : Option Identifier)
      (ai : List AltIdentifier) (pos : Nat) (ch : ChapterList) (isl : IssueList)
      (ep : List Episode),
      lookupKey (storyArcFields (.mk n s i ai pos [] ch isl ep)) "links" = none) ∧
    (∀ (n s : Option StringWithAlternates) (i : Option Identifier)
      (ai : List AltIdentifier) (pos : Nat) (ch : ChapterList) (isl : IssueList)
      (sa : StoryArcList),
      lookupKey (volumeFields (.mk n s i ai pos [] ch isl sa)) "links" = none) ∧
    (∀ p : Publication, lookupKey (publicationFields p) "links"
      = some (.arr (encListJ encodeLink p.links))) ∧
    (∀ fa : Facet, lookupKey (facetFields fa) "links"
      = some (.arr (encListJ encodeLink fa.links))) := by
  refine ⟨neFeed, ?_, ?_, ?_, ?_, ?_, ?_, ?_, ?_, ?_, ?_, ?_, ?_, ?_, ?_, ?_, ?_⟩ <;>
    intros <;>
    simp [feedFields, feedGroupFields, contributorFields, episodeFields,
      collectionFields, subjectFields, articleFields, periodicalFields, issueFields,
      chapterFields, seriesFields, seasonFields, storyArcFields, volumeFields,
      publicationFields, facetFields, lookupKey_objOf_cons, lookupKey_objOf_nil,
      lookupKey_optF, lookupKey_reqF, lookupKey_vecF, lookupKey_flatF,
      lookupKey_flagF, lookupKey_skipF, String.reduceEq, encListJ, oOr_some,
      oOr_none, oOr_none_right]

/-- C4: localized string values round-trip exactly in both shapes: a scalar
re-parses as the same scalar and a map as the same map, key order included,
under the BTreeMap invariant that the keys are strictly sorted by tag. -/
theorem claim_C4_localized_roundtrip (v : StringWithAlternates)
    (hv : validSWA v = true) : decodeSWA (encodeSWA v) = .ok v := rt_swa v hv

/-- C4 witness: a two-entry sorted language map round-trips exactly. -/
theorem claim_C4_localized_roundtrip_witness :
    validSWA (.variants ⟨[("de", "Autoren"), ("en", "Authors")]⟩) = true ∧
    decodeSWA (encodeSWA (.variants ⟨[("de", "Autoren"), ("en", "Authors")]⟩))
      = .ok (.variants ⟨[("de", "Autoren"), ("en", "Authors")]⟩) :=
  ⟨keysSorted_de_en,
   claim_C4_localized_roundtrip (.variants ⟨[("de", "Autoren"), ("en", "Authors")]⟩)
     keysSorted_de_en⟩

/-- C5 (amended): a feed document whose metadata object lacks the title key
never parses to a tree, and the error is MissingRequiredField("title") when
every other present field of the document is well-formed — the five
feed-level collections and the eight non-title metadata fields. Serde
decodes present fields eagerly in document order before the required-field
check, so without those hypotheses the first malformed present field
reports its own error instead (see the counterexample); under them no
other error can fire in any document order, so the missing-title error is
the one reported. The feed-level hypothesis is not consumed by the Lean
proof (the model reads metadata first), but it is what makes the stated
error identity true of serde's document-order processing. -/
theorem claim_C5_missing_title_amended :
    (∀ (kvs m : JsonObj) (fe : Feed), lookupKey kvs "metadata" = some (.obj m) →
      lookupKey m "title" = none → decodeFeed (.obj kvs) ≠ .ok fe) ∧
    (∀ kvs m : JsonObj, lookupKey kvs "metadata" = some (.obj m) →
      lookupKey m "title" = none → feedMetadataOthersOk m = true →
      feedOthersOk kvs = true →
      decodeFeed (.obj kvs) = .error (.missingField "title")) := by
  constructor
  · intro kvs m fe hm ht hc
    simp only [decodeFeed, hm, dPres_some, exBind_ok] at hc
    obtain ⟨mv, hmv, _⟩ := bind_eq_ok hc
    obtain ⟨md, hmd, _⟩ := map_eq_ok hmv
    exact decodeFeedMetadata_no_title m ht md hmd
  · intro kvs m hm ht hok _hfok
    simp only [decodeFeed, hm, dPres_some,
      decodeFeedMetadata_missing_title m ht hok, exMap_error, exBind_error]

/-- C5 witness: the document with an empty metadata object and no other
fields fails with MissingRequiredField("title"). -/
theorem claim_C5_missing_title_amended_witness :
    lookupKey (.cons "metadata" (.obj .nil) .nil) "metadata" = some (.obj .nil) ∧
    lookupKey (.nil : JsonObj) "title" = none ∧
    feedMetadataOthersOk .nil = true ∧
    feedOthersOk (.cons "metadata" (.obj .nil) .nil) = true ∧
    decodeFeed (.obj (.cons "metadata" (.obj .nil) .nil))
      = .error (.missingField "title") :=
  ⟨rfl, rfl, rfl, rfl, claim_C5_missing_title_amended.2 _ _ rfl rfl rfl rfl⟩

/-- C5 counterexample: docNoTitle lacks the title key, yet parsing reports
the malformed subtitle value (a number where a string or language map was
required), not MissingRequiredField("title"). -/
theorem claim_C5_counterexample :
    lookupKey mNoTitle "title" = none ∧
    decodeFeed docNoTitle = .error (.shape "string or language map") ∧
    decodeFeed docNoTitle ≠ .error (.missingField "title") := by
  refine ⟨rfl, rfl, ?_⟩
  intro hc
  rw [show decodeFeed docNoTitle
    = .error (.shape "string or language map") from rfl] at hc
  simp at hc

/-- C6: the bare number 3 parses as a Season with position 3 and every
other field default or absent, and a Season always encodes as its full
object form, also when it occupies a one-element season list. -/
theorem claim_C6_season_shorthand :
    (decodeBelongsTo (.obj (.cons "season" (jNat 3) .nil))
      = .ok { BelongsTo.default with season := [Season.ofPos 3] }) ∧
    (Season.ofPos 3 = Season.mk none none none [] 3 [] [] .nil) ∧
    (∀ s : Season, encodeSeason s = .obj (seasonFields s)) ∧
    (∀ s : Season,
      lookupKey (belongsToFields { BelongsTo.default with season := [s] }) "season"
        = some (.arr (.cons (.obj (seasonFields s)) .nil))) :=
  ⟨rfl, rfl, fun _ => rfl, fun _ => rfl⟩

/-- C7: the sequence of the bare string Fiction and the object
name-Drama-position-2 parses as a two-element collection list named by the
shorthand rules, and encoding that list yields an array of two full
objects, never collapsed since its length exceeds one. -/
theorem claim_C7_collection_shorthand :
    (decodeBelongsTo (.obj (.cons "collection"
        (.arr (.cons (.str "Fiction") (.cons dramaObj .nil))) .nil))
      = .ok { BelongsTo.default with collection :=
          [Collection.ofStr "Fiction", ⟨.always "Drama", none, none, [], some 2, []⟩] }) ∧
    (Collection.ofStr "Fiction" = ⟨.always "Fiction", none, none, [], none, []⟩) ∧
    (∀ c1 c2 : Collection,
      lookupKey (belongsToFields { BelongsTo.default with collection := [c1, c2] })
          "collection"
        = some (.arr (.cons (.obj (collectionFields c1))
            (.cons (.obj (collectionFields c2)) .nil)))) :=
  ⟨rfl, rfl, fun _ _ => rfl⟩

/-- C8: serializing the rel field collapses a singleton relation list to
the bare string, emits two or more relations as an array, and omits the
field when the list is empty, whatever the link's other fields hold. -/
theorem claim_C8_rel_singleton_collapse (title href : Option String)
    (templated : Bool) (mime : Option String) (rel : List Relation)
    (properties : LinkProperties) (height width size : Option Nat)
    (bitrate duration : Option Rat) (language : List String)
    (alternate children : LinkList) :
    (rel = [.myself] →
      lookupKey (linkFields (.mk title href templated mime rel properties height
        width size bitrate duration language alternate children)) "rel"
        = some (.str "self")) ∧
    (rel = [.myself, .alternate] →
      lookupKey (linkFields (.mk title href templated mime rel properties height
        width size bitrate duration language alternate children)) "rel"
        = some (.arr (.cons (.str "self") (.cons (.str "alternate") .nil)))) ∧
    (rel = [] →
      lookupKey (linkFields (.mk title href templated mime rel properties height
        width size bitrate duration language alternate children)) "rel" = none) := by
  refine ⟨?_, ?_, ?_⟩ <;> rintro rfl <;>
    simp [linkFields, lookupKey_objOf_cons, lookupKey_objOf_nil, lookupKey_optF,
      lookupKey_reqF, lookupKey_vecF, lookupKey_flatF, lookupKey_flagF,
      lookupKey_skipF, String.reduceEq, encListJ, encodeRelation, relationString,
      oOr_some, oOr_none, oOr_none_right]

/-- C8 witness: a link whose rel list is exactly the self relation has its
rel field encoded as the bare string self. -/
theorem claim_C8_rel_singleton_collapse_witness :
    lookupKey (linkFields (.mk none none false none [.myself]
      LinkProperties.default none none none none none [] .nil .nil)) "rel"
      = some (.str "self") :=
  (claim_C8_rel_singleton_collapse none none false none [.myself]
    LinkProperties.default none none none none none [] .nil .nil).1 rfl

/-- C9: encode is a total function of the tree alone (encodeFeed is a plain
Lean function into Json), and on every tree satisfying the invariants its
output parses back successfully, so encoding never fails on valid trees;
decodeFeed likewise is a pure function of the input text alone. -/
theorem claim_C9_encode_total (fe : Feed) (hv : validFeed fe = true) :
    (decodeFeed (encodeFeed fe)).isOk = true := by
  rw [roundtrip_feed fe hv]; rfl

/-- C9 witness: encoding the concrete valid feed feedUrl yields output that
parses successfully. -/
theorem claim_C9_encode_total_witness :
    validFeed feedUrl = true ∧ (decodeFeed (encodeFeed feedUrl)).isOk = true :=
  ⟨rfl, claim_C9_encode_total feedUrl rfl⟩

/-- C10: for every string spelled like a fixed or acquisition relation,
Custom(s) encodes to the same text as the known tag, so re-parsing yields
the known tag and not Custom(s): parse-after-encode is not the identity on
such Custom values. -/
theorem claim_C10_custom_collapse (s : String)
    (hs : s ∈ fixedRelationStrings ++ acquisitionStrings) :
    encodeRelation (.custom s) = .str s ∧
    decodeRelation (encodeRelation (.custom s)) = .ok (resolveRelation s) ∧
    resolveRelation s ≠ .custom s := by
  refine ⟨rfl, rfl, ?_⟩
  simp only [fixedRelationStrings, acquisitionStrings, List.mem_append,
    List.mem_cons, List.not_mem_nil, or_false] at hs
  rcases hs with (rfl | rfl | rfl | rfl | rfl | rfl | rfl | rfl | rfl | rfl | rfl |
    rfl | rfl | rfl | rfl) | (rfl | rfl | rfl | rfl | rfl | rfl) <;> decide

/-- C10 witness: Custom of the acquisition buy URI re-parses as the
Acquisition(Buy) tag, not as Custom. -/
theorem claim_C10_custom_collapse_witness :
    "http://opds-spec.org/acquisition/buy" ∈ fixedRelationStrings ++ acquisitionStrings ∧
    decodeRelation (encodeRelation (.custom "http://opds-spec.org/acquisition/buy"))
      = .ok (.acquisition .buy) ∧
    Relation.acquisition .buy ≠ .custom "http://opds-spec.org/acquisition/buy" :=
  ⟨by decide,
   (claim_C10_custom_collapse "http://opds-spec.org/acquisition/buy" (by decide)).2.1,
   (claim_C10_custom_collapse "http://opds-spec.org/acquisition/buy" (by decide)).2.2⟩

end Opds
